import Mathlib

/-!
# Wmderland: session state machine of the window manager

Shallow embedding of `src/window_manager.cc` (class `WindowManager`) and of the
pointer-drag handler of the older variant `src/wm.cpp`.

* C++ `int` values are `Int`.  The only arithmetic on values that the user
  supplies, the workspace numbers of `HandleAction`, goes through `wrapInt32`;
  elsewhere no operation is applied near the 32-bit limits.  `/` on `int`
  truncates toward zero and is `Int.tdiv`.
* The X server is part of the state: per-window geometry (`attrs`), the set of
  windows whose last request was a map (`viewable`) and the display
  resolution.  Every call the window manager issues to a collaborator is also
  appended to `calls`, in order.
* `Client::mapper_` is the static index window -> Client* that the Client
  constructor and destructor maintain.  Clients are created by
  `Workspace::Add` and destroyed by `Workspace::Remove` only, so the index is
  a lookup over the client sequences of the workspaces (`mapperFind`), which
  also yields the owning workspace `c->workspace()`.
* `Client` and `Workspace` (client.cc, workspace.cc), `Config`, `Cookie` and
  `wm_utils` are not among the sources.  Their members are modelled from the
  specification (each such definition says so), or taken from `Env`.
* `current_` and the target of `Manage` index `workspaces_` without a range
  test.  An index outside the list is undefined behaviour in the source; here
  such a read yields an empty workspace and such a write has no effect
  (`State.wsI`, `State.modifyWsI`), and the bulk operations on the active
  workspace take `current_` through `Int.toNat`.
* `Manage` evaluates `prev_focused_client->window()` without a null test.
  `Manage`, the two handlers that call it and the runs of events and calls
  return `Option State`, `none` standing for the null dereference.
* The specification describes `Workspace::Add` in two ways (section 4.2: it
  does not set focus; section 8: a managed window is the focused one).
  `Env.AddSetsFocus` selects the reading; theorems over every `Env` hold under
  both.
-/

namespace Wmderland

/-- X11 window handle. -/
abbrev Window := Nat

/-- X11 `None`, the null window handle. -/
def None : Window := 0

/-- Rectangle `Client::Area`; the geometry fields of `XWindowAttributes`
(x, y, width, height) are read into the same record. -/
structure Area where
  x : Int
  y : Int
  w : Int
  h : Int
deriving DecidableEq

/-- Value-initialised `Client::Area`. -/
def Area.zero : Area := ⟨0, 0, 0, 0⟩

instance : Inhabited Area := ⟨Area.zero⟩

/-- Fields of Xlib's `XSizeHints` that the window manager reads. -/
structure XSizeHints where
  flags : Nat
  x : Int
  y : Int
  width : Int
  height : Int
  min_width : Int
  min_height : Int
  base_width : Int
  base_height : Int
deriving DecidableEq

/-- Xlib flag `PSize` (1 << 3) of `XSizeHints.flags`. -/
def PSize : Nat := 8

/-- Xlib flag `PMinSize` (1 << 4). -/
def PMinSize : Nat := 16

/-- Xlib flag `PBaseSize` (1 << 8). -/
def PBaseSize : Nat := 256

/-- Xlib value-mask bits of a configure request. -/
def CWX : Nat := 1

/-- Xlib value-mask bit `CWY`. -/
def CWY : Nat := 2

/-- Xlib value-mask bit `CWWidth`. -/
def CWWidth : Nat := 4

/-- Xlib value-mask bit `CWHeight`. -/
def CWHeight : Nat := 8

/-- Macro `MOUSE_BTN_LEFT` of window_manager.cc. -/
def MOUSE_BTN_LEFT : Nat := 1

/-- Macro `MOUSE_BTN_RIGHT` of window_manager.cc. -/
def MOUSE_BTN_RIGHT : Nat := 3

/-- Macro `CURSOR_NORMAL` of window_manager.cc. -/
def CURSOR_NORMAL : Nat := 0

/-- ICCCM `WithdrawnState`. -/
def WithdrawnState : Nat := 0

/-- ICCCM `NormalState`. -/
def NormalState : Nat := 1

/-- Modelled from the spec: class `Client` (client.h is not among the sources).
Handle, the flags mapped / floating / fullscreen, the cached geometry snapshot
and the size hints supplied once at creation; `has_unmap_req_from_wm` is the
flag `OnUnmapNotify` reads and clears.  The current geometry is not stored in
the client: the code reads it from the X server (`c->GetXWindowAttributes()`). -/
structure Client where
  window : Window
  mapped : Bool
  floating : Bool
  fullscreen : Bool
  has_unmap_req_from_wm : Bool
  attr_cache : Area
  size_hints : XSizeHints
deriving DecidableEq

/-- Tiling direction of a workspace. -/
inductive TilingDirection
  | HORIZONTAL
  | VERTICAL
deriving DecidableEq

/-- Modelled from the spec: class `Workspace` (workspace.h is not among the
sources).  Ordered client sequence, nullable focus pointer (a handle), tiling
direction and the workspace-level fullscreen flag. -/
structure Workspace where
  clients : List Client
  focused : Option Window
  tiling_direction : TilingDirection
  is_fullscreen : Bool
deriving DecidableEq

/-- Workspace as created at startup: no clients, no focus, not fullscreen. -/
def Workspace.empty : Workspace := ⟨[], none, TilingDirection.HORIZONTAL, false⟩

instance : Inhabited Workspace := ⟨Workspace.empty⟩

/-- Calls issued by the window manager to Xlib, to a `Client` or to the
property helpers of `wm_utils`, as they appear in window_manager.cc. -/
inductive Call
  | XMapWindow (w : Window)
  | XUnmapWindow (w : Window)
  | XRaiseWindow (w : Window)
  | XConfigureWindow (w : Window) (value_mask : Nat) (a : Area)
  | XDefineCursor (cursor : Nat)
  | MoveResize (w : Window) (a : Area)
  | SetBorderWidth (w : Window) (n : Int)
  | SetNetActiveWindow (w : Window)
  | ClearNetActiveWindow
  | SetWindowWmState (w : Window) (state : Nat)
  | UpdateClientList (ws : List Window)
  | SetNetCurrentDesktop (n : Int)
  | SetNetWmStateFullscreen (w : Window) (flag : Bool)
deriving DecidableEq

/-- Fields of `XButtonEvent` that the handlers read. -/
structure XButtonEvent where
  subwindow : Window
  x : Int
  y : Int
  button : Nat
deriving DecidableEq

/-- Fields of `XConfigureRequestEvent` that are modelled (geometry and mask). -/
structure XConfigureRequestEvent where
  window : Window
  x : Int
  y : Int
  width : Int
  height : Int
  value_mask : Nat
deriving DecidableEq

/-- Session state: the members of `WindowManager` together with the part of
the X server they read back and the log of issued calls. -/
structure State where
  attrs : List (Window × Area)
  viewable : List Window
  resolution : Int × Int
  calls : List Call
  cookie : List (Window × Area)
  docks : List Window
  notifications : List Window
  hidden_windows : List Window
  workspaces : List Workspace
  current : Int
  btn_pressed_event : XButtonEvent
deriving DecidableEq

/-- What the code reads from `Config`, from `wm_utils` and from config.h:
rule tables and window-kind queries per handle, and the constants.  The last
field is not read by the code: it selects the reading of the absent
`Workspace::Add` (see there). -/
structure Env where
  ShouldProhibit : Window → Bool
  ShouldFloat : Window → Bool
  ShouldFullscreen : Window → Bool
  GetSpawnWorkspaceId : Window → Int
  border_width : Int
  IsDock : Window → Bool
  IsNotification : Window → Bool
  IsDialog : Window → Bool
  IsSplash : Window → Bool
  IsUtility : Window → Bool
  HasNetWmStateFullscreen : Window → Bool
  GetWmNormalHints : Window → XSizeHints
  UNSPECIFIED_WORKSPACE : Int
  WORKSPACE_COUNT : Int
  MIN_WINDOW_WIDTH : Int
  MIN_WINDOW_HEIGHT : Int
  DEFAULT_FLOATING_WINDOW_WIDTH : Int
  DEFAULT_FLOATING_WINDOW_HEIGHT : Int
  AddSetsFocus : Bool

/-- Session state after the constructor: `n` empty workspaces, workspace 0
active, no docks, notifications or hidden windows, no drag context. -/
def State.init (n : Nat) (res : Int × Int) : State :=
  { attrs := [], viewable := [], resolution := res, calls := [], cookie := [],
    docks := [], notifications := [], hidden_windows := [],
    workspaces := List.replicate n Workspace.empty, current := 0,
    btn_pressed_event := ⟨None, 0, 0, 0⟩ }

/-! ## Sets of handles and the X server -/

/-- Insertion into a `std::set<Window>`.  The containers `docks_`,
`notifications_` and `hidden_windows_` are declared in window_manager.h, which
is not among the sources; the code uses them through `find`, `insert(key)` and
`erase(key)` and iterates them in container order.  They are kept as lists
without repetition in ascending order of the handles, the iteration order of
`std::set`. -/
def setInsert : List Window → Window → List Window
  | [], w => [w]
  | a :: l, w =>
    if w < a then w :: a :: l
    else if w = a then a :: l
    else a :: setInsert l w

/-- Erasure from a `std::set<Window>`. -/
def setErase (l : List Window) (w : Window) : List Window :=
  l.filter (fun v => v != w)

/-- Rectangle stored for a handle, value-initialised when there is none. -/
def lookupArea (l : List (Window × Area)) (w : Window) : Area :=
  match l.find? (fun p => p.1 == w) with
  | some p => p.2
  | none => Area.zero

/-- Store a rectangle for a handle, replacing the previous one. -/
def storeArea (l : List (Window × Area)) (w : Window) (a : Area) : List (Window × Area) :=
  (w, a) :: l.filter (fun p => p.1 != w)

/-- Append a call to the log. -/
def State.log (s : State) (c : Call) : State :=
  { s with calls := s.calls ++ [c] }

/-- Xlib `XMapWindow`. -/
def XMapWindow (s : State) (w : Window) : State :=
  { s with calls := s.calls ++ [Call.XMapWindow w], viewable := setInsert s.viewable w }

/-- Xlib `XUnmapWindow`. -/
def XUnmapWindow (s : State) (w : Window) : State :=
  { s with calls := s.calls ++ [Call.XUnmapWindow w], viewable := setErase s.viewable w }

/-- Geometry of a window as the X server reports it
(`wm_utils::GetXWindowAttributes`, `Client::GetXWindowAttributes`). -/
def GetXWindowAttributes (s : State) (w : Window) : Area :=
  lookupArea s.attrs w

/-- Resolution of the display: width and height of the root window
(`WindowManager::GetDisplayResolution`, window_manager.cc 727-730). -/
def GetDisplayResolution (s : State) : Int × Int :=
  s.resolution

/-- Xlib `XConfigureWindow` restricted to the geometry bits of the mask. -/
def XConfigureWindow (s : State) (w : Window) (value_mask : Nat) (a : Area) : State :=
  let old := GetXWindowAttributes s w
  let g : Area :=
    { x := if value_mask &&& CWX ≠ 0 then a.x else old.x,
      y := if value_mask &&& CWY ≠ 0 then a.y else old.y,
      w := if value_mask &&& CWWidth ≠ 0 then a.w else old.w,
      h := if value_mask &&& CWHeight ≠ 0 then a.h else old.h }
  { s with calls := s.calls ++ [Call.XConfigureWindow w value_mask a],
           attrs := storeArea s.attrs w g }

/-! ## Workspaces and the handle -> Client index -/

/-- Workspace at a position of `workspaces_` (empty workspace when out of range). -/
def State.ws (s : State) (i : Nat) : Workspace :=
  (s.workspaces[i]?).getD Workspace.empty

/-- Workspace `workspaces_[i]` for a C++ `int` index; indices outside the
list (undefined behaviour in the source) read an empty workspace. -/
def State.wsI (s : State) (i : Int) : Workspace :=
  if i < 0 then Workspace.empty else s.ws i.toNat

/-- Apply a member function to the workspace at a position. -/
def State.modifyWs (s : State) (i : Nat) (f : Workspace → Workspace) : State :=
  { s with workspaces := s.workspaces.modify f i }

/-- Apply a member function to `workspaces_[i]` for a C++ `int` index; no
effect for an index outside the list. -/
def State.modifyWsI (s : State) (i : Int) (f : Workspace → Workspace) : State :=
  if i < 0 then s else s.modifyWs i.toNat f

/-- Modelled from the spec: `Workspace::GetClient`, the member with this handle. -/
def Workspace.GetClient (ws : Workspace) (w : Window) : Option Client :=
  ws.clients.find? (fun c => c.window == w)

/-- Modelled from the spec: `Workspace::GetFocusedClient`, the client the
focus pointer designates, null when the pointer is empty. -/
def Workspace.GetFocusedClient (ws : Workspace) : Option Client :=
  match ws.focused with
  | some w => ws.GetClient w
  | none => none

/-- Lookup of a handle in the workspaces from position `i` on. -/
def findIn : List Workspace → Nat → Window → Option (Nat × Client)
  | [], _, _ => none
  | ws :: rest, i, w =>
    match ws.GetClient w with
    | some c => some (i, c)
    | none => findIn rest (i + 1) w

/-- Lookup `Client::mapper_.find(window)`: the client and the position of the
workspace that owns it (`c->workspace()`), or none when untracked. -/
def mapperFind (s : State) (w : Window) : Option (Nat × Client) :=
  findIn s.workspaces 0 w

/-- Modelled from the spec: a setter of `Client` (`set_mapped`, `set_floating`,
`set_fullscreen`, `set_attr_cache`, `set_has_unmap_req_from_wm`), a pure flag
mutation, applied to the member of a workspace that has handle `w`. -/
def Workspace.update (w : Window) (f : Client → Client) (ws : Workspace) : Workspace :=
  { ws with clients := ws.clients.map (fun c => if c.window = w then f c else c) }

/-- Apply a setter to the client with handle `w` owned by workspace `i`. -/
def updateClient (s : State) (i : Nat) (w : Window) (f : Client → Client) : State :=
  s.modifyWs i (Workspace.update w f)

/-- Modelled from the spec: the Client constructor.  A new client is unmapped,
neither floating nor fullscreen, and takes its size hints from the toolkit. -/
def Client.new (env : Env) (w : Window) : Client :=
  { window := w, mapped := false, floating := false, fullscreen := false,
    has_unmap_req_from_wm := false, attr_cache := Area.zero,
    size_hints := env.GetWmNormalHints w }

/-- Modelled from the spec: `Workspace::Add` wraps the handle in a Client and
appends it to the ordered sequence.  Section 4.2 of the specification says that
it does not set focus; the scenarios of its section 8 (`Manage(W1)` ends with
focused = W1) and the way `Manage` saves the focus before the call and restores
it afterwards read it as making the new client the focused one.  Both readings
are carried: with `env.AddSetsFocus` the focus pointer designates the new
client, without it the pointer is left as it is. -/
def Workspace.Add (env : Env) (w : Window) (ws : Workspace) : Workspace :=
  { ws with clients := ws.clients ++ [Client.new env w],
            focused := if env.AddSetsFocus then some w else ws.focused }

/-- Modelled from the spec: `Workspace::Remove` erases the client; if it was
focused the focus becomes empty, if it was fullscreen the workspace flag is
cleared; no effect when the handle is not a member. -/
def Workspace.Remove (w : Window) (ws : Workspace) : Workspace :=
  match ws.GetClient w with
  | none => ws
  | some c =>
    { ws with clients := ws.clients.filter (fun d => d.window != w),
              focused := if ws.focused = some w then none else ws.focused,
              is_fullscreen := if c.fullscreen then false else ws.is_fullscreen }

/-- Modelled from the spec: `Workspace::SetFocusedClient` updates the focus
pointer; no effect when the handle is not a member. -/
def Workspace.SetFocusedClient (w : Window) (ws : Workspace) : Workspace :=
  match ws.GetClient w with
  | none => ws
  | some _ => { ws with focused := some w }

/-- Modelled from the spec: `Workspace::UnsetFocusedClient` empties the focus pointer. -/
def Workspace.UnsetFocusedClient (ws : Workspace) : Workspace :=
  { ws with focused := none }

/-- Modelled from the spec: setter `Workspace::set_fullscreen` of the
workspace-level fullscreen flag. -/
def Workspace.set_fullscreen (b : Bool) (ws : Workspace) : Workspace :=
  { ws with is_fullscreen := b }

/-! ## Client operations -/

/-- Minimum width of a client: its `min_width` hint when positive, else the
global minimum (window_manager.cc 412-413). -/
def minWidth (env : Env) (c : Client) : Int :=
  if c.size_hints.min_width > 0 then c.size_hints.min_width else env.MIN_WINDOW_WIDTH

/-- Minimum height of a client: its `min_height` hint when positive, else the
global minimum (window_manager.cc 414-415). -/
def minHeight (env : Env) (c : Client) : Int :=
  if c.size_hints.min_height > 0 then c.size_hints.min_height else env.MIN_WINDOW_HEIGHT

/-- Modelled from the spec: `Client::MoveResize` clamps width and height to the
size-hint minimums (the global minimum when a hint is absent or zero) and
issues the geometry change.  The call is logged with the rectangle the caller
requested; the X server records the clamped one. -/
def Client.MoveResize (env : Env) (s : State) (c : Client) (a : Area) : State :=
  let g : Area :=
    { x := a.x, y := a.y,
      w := if a.w < minWidth env c then minWidth env c else a.w,
      h := if a.h < minHeight env c then minHeight env c else a.h }
  { s with calls := s.calls ++ [Call.MoveResize c.window a],
           attrs := storeArea s.attrs c.window g }

/-- Modelled from the spec: `Client::Map` requests that the window be shown. -/
def Client.Map (s : State) (w : Window) : State :=
  XMapWindow s w

/-- Modelled from the spec: `Client::Unmap` requests that the window be hidden
and records that the request came from the window manager, which is what
`OnUnmapNotify` tests with `has_unmap_req_from_wm()`. -/
def Client.Unmap (s : State) (i : Nat) (w : Window) : State :=
  XUnmapWindow (updateClient s i w (fun c => { c with has_unmap_req_from_wm := true })) w

/-- Modelled from the spec: `Client::Raise` requests the window above its siblings. -/
def Client.Raise (s : State) (w : Window) : State :=
  s.log (Call.XRaiseWindow w)

/-- Modelled from the spec: `Workspace::MapAllClients`, bulk `Client::Map`. -/
def MapAllClients (s : State) (i : Nat) : State :=
  (s.ws i).clients.foldl (fun t c => Client.Map t c.window) s

/-- Modelled from the spec: `Workspace::UnmapAllClients`, bulk `Client::Unmap`. -/
def UnmapAllClients (s : State) (i : Nat) : State :=
  (s.ws i).clients.foldl (fun t c => Client.Unmap t i c.window) s

/-- Modelled from the spec: `Workspace::RaiseAllFloatingClients`. -/
def RaiseAllFloatingClients (s : State) (i : Nat) : State :=
  ((s.ws i).clients.filter (fun c => c.floating)).foldl (fun t c => Client.Raise t c.window) s

/-- Modelled from the spec: rectangles of the tiling algorithm for `n` clients.
A single client receives the whole area; otherwise the first client takes one
half of the area along the tiling direction (horizontal = side by side,
vertical = stacked, fixed 50/50 split) and the other half is split among the
remaining clients in the same way. -/
def tileRects (dir : TilingDirection) : Nat → Area → List Area
  | 0, _ => []
  | 1, a => [a]
  | n + 2, a =>
    match dir with
    | TilingDirection.HORIZONTAL =>
      { a with w := Int.tdiv a.w 2 } ::
        tileRects dir (n + 1) { a with x := a.x + Int.tdiv a.w 2, w := a.w - Int.tdiv a.w 2 }
    | TilingDirection.VERTICAL =>
      { a with h := Int.tdiv a.h 2 } ::
        tileRects dir (n + 1) { a with y := a.y + Int.tdiv a.h 2, h := a.h - Int.tdiv a.h 2 }

/-- Modelled from the spec: the clients `Workspace::Tile` applies to, those
that are mapped, not floating and not fullscreen. -/
def Workspace.tileable (ws : Workspace) : List Client :=
  ws.clients.filter (fun c => !c.floating && !c.fullscreen && c.mapped)

/-- Modelled from the spec: `Workspace::Tile(area)` gives every tileable client
its rectangle of the tiling algorithm; floating clients are left untouched. -/
def Tile (env : Env) (s : State) (i : Nat) (area : Area) : State :=
  let ws := s.ws i
  (ws.tileable.zip (tileRects ws.tiling_direction ws.tileable.length area)).foldl
    (fun t p => Client.MoveResize env t p.1 p.2) s

/-! ## WindowManager -/

/-- Loop `WindowManager::MapDocks` (window_manager.cc 709-713). -/
def MapDocks (s : State) : State :=
  s.docks.foldl XMapWindow s

/-- Loop `WindowManager::UnmapDocks` (window_manager.cc 715-719). -/
def UnmapDocks (s : State) : State :=
  s.docks.foldl XUnmapWindow s

/-- Loop `WindowManager::RaiseNotifications` (window_manager.cc 721-725). -/
def RaiseNotifications (s : State) : State :=
  s.notifications.foldl (fun t w => t.log (Call.XRaiseWindow w)) s

/-- One round of the reservation loop of `GetTilingArea` (window_manager.cc 739-753). -/
def reserveDock (tiling_area : Area) (dock_attr : Area) : Area :=
  if dock_attr.y = 0 then
    { tiling_area with y := tiling_area.y + dock_attr.h, h := tiling_area.h - dock_attr.h }
  else if dock_attr.y + dock_attr.h = tiling_area.y + tiling_area.h then
    { tiling_area with h := tiling_area.h - dock_attr.h }
  else if dock_attr.x = 0 then
    { tiling_area with x := tiling_area.x + dock_attr.w, w := tiling_area.w - dock_attr.w }
  else if dock_attr.x + dock_attr.w = tiling_area.x + tiling_area.w then
    { tiling_area with w := tiling_area.w - dock_attr.w }
  else
    tiling_area

/-- The reservation loop of `GetTilingArea` over the rectangles of the docks,
in the order the docks are visited, starting from the whole display. -/
def tilingArea (res : Int × Int) (dock_attrs : List Area) : Area :=
  dock_attrs.foldl reserveDock ⟨0, 0, res.1, res.2⟩

/-- Function `WindowManager::GetTilingArea` (window_manager.cc 732-757). -/
def GetTilingArea (s : State) : Area :=
  tilingArea (GetDisplayResolution s) (s.docks.map (GetXWindowAttributes s))

/-- Function `WindowManager::UpdateClientList` (window_manager.cc 815-825):
exports the handles of all clients, workspace by workspace. -/
def UpdateClientList (s : State) : State :=
  s.log (Call.UpdateClientList
    (s.workspaces.map (fun ws => ws.clients.map (fun c => c.window))).flatten)

/-- Function `WindowManager::ArrangeWindows` (window_manager.cc 234-258). -/
def ArrangeWindows (env : Env) (s : State) : State :=
  match (s.wsI s.current).GetFocusedClient with
  | none => (MapDocks s).log Call.ClearNetActiveWindow
  | some focused_client =>
    let s1 := s.log (Call.SetNetActiveWindow focused_client.window)
    if (s1.wsI s1.current).is_fullscreen then
      let s2 := UnmapDocks s1
      let s3 := s2.log (Call.SetBorderWidth focused_client.window 0)
      let res := GetDisplayResolution s3
      let s4 := Client.MoveResize env s3 focused_client ⟨0, 0, res.1, res.2⟩
      Client.Raise s4 focused_client.window
    else
      let s2 := MapDocks s1
      let s3 := MapAllClients s2 s2.current.toNat
      let s4 := Tile env s3 s3.current.toNat (GetTilingArea s3)
      let s5 := s4.modifyWsI s4.current (Workspace.SetFocusedClient focused_client.window)
      let s6 := RaiseAllFloatingClients s5 s5.current.toNat
      RaiseNotifications s6

/-- Function `WindowManager::GetFloatingWindowArea` (window_manager.cc 759-813).
For an untracked window the source returns the local `Client::Area area;` as
declared; it is read as the zero rectangle.  `cookie_.Get(window)` is the lookup
in the floating-geometry cache, a miss being the zero rectangle. -/
def GetFloatingWindowArea (env : Env) (s : State) (window : Window)
    (use_default_size : Bool) : Area :=
  match mapperFind s window with
  | none => Area.zero
  | some _ =>
    let res := GetDisplayResolution s
    if use_default_size then
      { w := env.DEFAULT_FLOATING_WINDOW_WIDTH,
        h := env.DEFAULT_FLOATING_WINDOW_HEIGHT,
        x := Int.tdiv res.1 2 - Int.tdiv env.DEFAULT_FLOATING_WINDOW_WIDTH 2,
        y := Int.tdiv res.2 2 - Int.tdiv env.DEFAULT_FLOATING_WINDOW_HEIGHT 2 }
    else
      let cookie_area := lookupArea s.cookie window
      let hints := env.GetWmNormalHints window
      let attr := GetXWindowAttributes s window
      let xy : Int × Int :=
        if cookie_area.x > 0 ∧ cookie_area.h > 0 then (cookie_area.x, cookie_area.y)
        else if hints.x > 0 ∧ hints.y > 0 then (hints.x, hints.y)
        else (Int.tdiv res.1 2 - Int.tdiv attr.w 2, Int.tdiv res.2 2 - Int.tdiv attr.h 2)
      let wh : Int × Int :=
        if cookie_area.w > 0 ∧ cookie_area.h > 0 then (cookie_area.w, cookie_area.h)
        else if hints.flags &&& PSize ≠ 0 then (hints.width, hints.height)
        else if hints.flags &&& PMinSize ≠ 0 then (hints.min_width, hints.min_height)
        else if hints.flags &&& PBaseSize ≠ 0 then (hints.base_width, hints.base_height)
        else (env.DEFAULT_FLOATING_WINDOW_WIDTH, env.DEFAULT_FLOATING_WINDOW_HEIGHT)
      { x := xy.1, y := xy.2, w := wh.1, h := wh.2 }

/-- Function `WindowManager::SetFloating` (window_manager.cc 629-647). -/
def SetFloating (env : Env) (s : State) (window : Window) (floating : Bool)
    (use_default_size : Bool) : State :=
  match mapperFind s window with
  | none => s
  | some (i, c) =>
    if c.fullscreen then s
    else
      let s1 :=
        if floating then
          Client.MoveResize env s c (GetFloatingWindowArea env s window use_default_size)
        else s
      let s2 := updateClient s1 i window (fun d => { d with floating := floating })
      ArrangeWindows env s2

/-- Function `WindowManager::SetFullscreen` (window_manager.cc 649-684). -/
def SetFullscreen (env : Env) (s : State) (window : Window) (fullscreen : Bool) : State :=
  match mapperFind s window with
  | none => s
  | some (i, c) =>
    if c.fullscreen = fullscreen then s
    else
      let s1 := updateClient s i window (fun d => { d with fullscreen := fullscreen })
      let s2 := s1.modifyWs i (Workspace.set_fullscreen fullscreen)
      let s3 := s2.log (Call.SetBorderWidth window (if fullscreen then 0 else env.border_width))
      let s4 :=
        if fullscreen then
          let t1 := UnmapDocks s3
          let t2 := updateClient t1 i window
            (fun d => { d with attr_cache := GetXWindowAttributes t1 window })
          let res := GetDisplayResolution t2
          let t3 := Client.MoveResize env t2 c ⟨0, 0, res.1, res.2⟩
          let t4 := UnmapAllClients t3 i
          let t5 := Client.Map t4 window
          t5.modifyWs i (Workspace.SetFocusedClient window)
        else
          let t1 := MapDocks s3
          let t2 := Client.MoveResize env t1 c c.attr_cache
          ArrangeWindows env t2
      s4.log (Call.SetNetWmStateFullscreen window fullscreen)

/-- Target workspace of `Manage` (window_manager.cc 478-483): the workspace of
the spawn rule of the window if there is one, else the active workspace. -/
def spawnTarget (env : Env) (s : State) (window : Window) : Int :=
  if env.GetSpawnWorkspaceId window = env.UNSPECIFIED_WORKSPACE then s.current
  else env.GetSpawnWorkspaceId window

/-- Local `should_float` of `Manage` (window_manager.cc 490-491). -/
def shouldFloat (env : Env) (window : Window) : Bool :=
  env.ShouldFloat window || env.IsDialog window || env.IsSplash window || env.IsUtility window

/-- Local `should_fullscreen` of `Manage` (window_manager.cc 493-494). -/
def shouldFullscreen (env : Env) (window : Window) : Bool :=
  env.ShouldFullscreen window || env.HasNetWmStateFullscreen window

/-- Lines 486-497 of `Manage`: the focus of the target workspace is emptied, the
window is added to it, the client list is exported, and the new client is
marked mapped and given its floating flag. -/
def manageAdd (env : Env) (s : State) (window : Window) (target : Int) : State :=
  let s1 := s.modifyWsI target Workspace.UnsetFocusedClient
  let s2 := s1.modifyWsI target (Workspace.Add env window)
  let s3 := UpdateClientList s2
  let s4 := s3.modifyWsI target (Workspace.update window (fun d => { d with mapped := true }))
  s4.modifyWsI target
    (Workspace.update window (fun d => { d with floating := shouldFloat env window }))

/-- Lines 499-501 of `Manage`: in a fullscreen target workspace the focus goes
back to the previously focused client.  The source evaluates
`prev_focused_client->window()` without a null test: with a null pointer the
behaviour is undefined and there is no result. -/
def manageRefocus (s : State) (target : Int) (prev_focused_client : Option Client) :
    Option State :=
  if (s.wsI target).is_fullscreen then
    match prev_focused_client with
    | some p => some (s.modifyWsI target (Workspace.SetFocusedClient p.window))
    | none => none
  else some s

/-- Lines 503-513 of `Manage`: the floating and fullscreen policy of the new
window, and the re-layout when the target is the active workspace and that
workspace is not fullscreen. -/
def manageFinish (env : Env) (s6 : State) (window : Window) (target : Int) : State :=
  let s7 := if shouldFloat env window then SetFloating env s6 window true false else s6
  let s8 := if shouldFullscreen env window then SetFullscreen env s7 window true else s7
  if target = s8.current ∧ (s8.wsI s8.current).is_fullscreen = false then
    ArrangeWindows env s8
  else s8

/-- Function `WindowManager::Manage` (window_manager.cc 470-514).  The result is
`none` when the call dereferences a null `prev_focused_client` (line 500). -/
def Manage (env : Env) (s : State) (window : Window) : Option State :=
  match mapperFind s window with
  | some _ => some s
  | none =>
    let target := spawnTarget env s window
    let prev_focused_client := (s.wsI target).GetFocusedClient
    let s5 := manageAdd env s window target
    match manageRefocus s5 target prev_focused_client with
    | none => none
    | some s6 => some (manageFinish env s6 window target)

/-- Function `WindowManager::Unmanage` (window_manager.cc 516-535). -/
def Unmanage (env : Env) (s : State) (window : Window) : State :=
  match mapperFind s window with
  | none => s
  | some (i, c) =>
    let s1 := if c.fullscreen then s.modifyWs i (Workspace.set_fullscreen false) else s
    let s2 := s1.modifyWs i (Workspace.Remove window)
    let s3 := UpdateClientList s2
    ArrangeWindows env s3

/-- Function `WindowManager::GotoWorkspace` (window_manager.cc 596-609). -/
def GotoWorkspace (env : Env) (s : State) (next : Int) : State :=
  if s.current = next ∨ next < 0 ∨ next ≥ (s.workspaces.length : Int) then s
  else
    let s1 := UnmapAllClients s s.current.toNat
    let s2 := MapAllClients s1 next.toNat
    let s3 := { s2 with current := next }
    let s4 := ArrangeWindows env s3
    s4.log (Call.SetNetCurrentDesktop next)

/-! ## Event handlers -/

/-- Handler `WindowManager::OnConfigureRequest` (window_manager.cc 260-277);
`none` when its call of `Manage` has no result. -/
def OnConfigureRequest (env : Env) (s : State) (e : XConfigureRequestEvent) : Option State :=
  let s1 := XConfigureWindow s e.window e.value_mask ⟨e.x, e.y, e.width, e.height⟩
  let s2 :=
    if s1.hidden_windows.contains e.window then
      Manage env { s1 with hidden_windows := setErase s1.hidden_windows e.window } e.window
    else some s1
  match s2 with
  | none => none
  | some t => some (ArrangeWindows env t)

/-- Handler `WindowManager::OnMapRequest` (window_manager.cc 279-297); `none`
when its call of `Manage` has no result. -/
def OnMapRequest (env : Env) (s : State) (window : Window) : Option State :=
  if env.ShouldProhibit window then some s
  else if env.IsDock window ∧ s.docks.contains window = false then
    let s1 := XMapWindow s window
    let s2 := { s1 with docks := setInsert s1.docks window }
    some (Tile env s2 s2.current.toNat (GetTilingArea s2))
  else
    Manage env (s.log (Call.SetWindowWmState window NormalState)) window

/-- Handler `WindowManager::OnMapNotify` (window_manager.cc 299-315). -/
def OnMapNotify (env : Env) (s : State) (window : Window) : State :=
  let s1 :=
    if env.IsNotification window ∧ s.notifications.contains window = false then
      { s with notifications := setInsert s.notifications window }
    else s
  match mapperFind s1 window with
  | none => s1
  | some (i, _) => updateClient s1 i window (fun d => { d with mapped := true })

/-- Handler `WindowManager::OnUnmapNotify` (window_manager.cc 317-335). -/
def OnUnmapNotify (env : Env) (s : State) (window : Window) : State :=
  match mapperFind s window with
  | none => s
  | some (i, c) =>
    let s1 := updateClient s i window (fun d => { d with mapped := false })
    if c.has_unmap_req_from_wm then
      updateClient s1 i window (fun d => { d with has_unmap_req_from_wm := false })
    else
      Unmanage env { s1 with hidden_windows := setInsert s1.hidden_windows window } c.window

/-- Handler `WindowManager::OnDestroyNotify` (window_manager.cc 337-352). -/
def OnDestroyNotify (env : Env) (s : State) (window : Window) : State :=
  if s.docks.contains window then
    let s1 := { s with docks := setErase s.docks window }
    Tile env s1 s1.current.toNat (GetTilingArea s1)
  else if env.IsNotification window then
    { s with notifications := setErase s.notifications window }
  else
    let s1 := s.log (Call.SetWindowWmState window WithdrawnState)
    let s2 := { s1 with hidden_windows := setErase s1.hidden_windows window }
    Unmanage env s2 window

/-- Handler `WindowManager::OnButtonPress` (window_manager.cc 360-379). -/
def OnButtonPress (s : State) (e : XButtonEvent) : State :=
  match mapperFind s e.subwindow with
  | none => s
  | some (i, c) =>
    let s1 := s.log (Call.SetNetActiveWindow c.window)
    let s2 := s1.modifyWs i Workspace.UnsetFocusedClient
    let s3 := s2.modifyWs i (Workspace.SetFocusedClient c.window)
    let s4 := RaiseAllFloatingClients s3 i
    if c.floating ∧ c.fullscreen = false then
      let s5 := s4.log (Call.XDefineCursor e.button)
      let s6 := Client.Raise s5 c.window
      let attr := GetXWindowAttributes s6 c.window
      let s7 := updateClient s6 i c.window (fun d => { d with attr_cache := attr })
      { s7 with btn_pressed_event := e }
    else s4

/-- Handler `WindowManager::OnButtonRelease` (window_manager.cc 381-395). -/
def OnButtonRelease (s : State) : State :=
  match mapperFind s s.btn_pressed_event.subwindow with
  | none => s
  | some (_, c) =>
    let s1 :=
      if c.floating then
        let attr := GetXWindowAttributes s s.btn_pressed_event.subwindow
        { s with cookie := storeArea s.cookie c.window attr }
      else s
    let s2 := { s1 with btn_pressed_event := { s1.btn_pressed_event with subwindow := None } }
    s2.log (Call.XDefineCursor CURSOR_NORMAL)

/-- Handler `WindowManager::OnMotionNotify` (window_manager.cc 397-419). -/
def OnMotionNotify (env : Env) (s : State) (e : XButtonEvent) : State :=
  match mapperFind s s.btn_pressed_event.subwindow with
  | none => s
  | some (_, c) =>
    let attr := c.attr_cache
    let xdiff := e.x - s.btn_pressed_event.x
    let ydiff := e.y - s.btn_pressed_event.y
    let new_x := attr.x + (if s.btn_pressed_event.button = MOUSE_BTN_LEFT then xdiff else 0)
    let new_y := attr.y + (if s.btn_pressed_event.button = MOUSE_BTN_LEFT then ydiff else 0)
    let new_width := attr.w + (if s.btn_pressed_event.button = MOUSE_BTN_RIGHT then xdiff else 0)
    let new_height := attr.h + (if s.btn_pressed_event.button = MOUSE_BTN_RIGHT then ydiff else 0)
    let min_width :=
      if c.size_hints.min_width > 0 then c.size_hints.min_width else env.MIN_WINDOW_WIDTH
    let min_height :=
      if c.size_hints.min_height > 0 then c.size_hints.min_height else env.MIN_WINDOW_HEIGHT
    let new_width := if new_width < min_width then min_width else new_width
    let new_height := if new_height < min_height then min_height else new_height
    Client.MoveResize env s c ⟨new_x, new_y, new_width, new_height⟩

/-- External events of the main loop `WindowManager::Run` (window_manager.cc
189-231) that are modelled. -/
inductive Event
  | ConfigureRequest (e : XConfigureRequestEvent)
  | MapRequest (window : Window)
  | MapNotify (window : Window)
  | UnmapNotify (window : Window)
  | DestroyNotify (window : Window)
  | ButtonPress (e : XButtonEvent)
  | ButtonRelease
  | MotionNotify (e : XButtonEvent)

/-- One round of the dispatch of `WindowManager::Run`; `none` when the handler
has no result. -/
def dispatch (env : Env) (s : State) : Event → Option State
  | Event.ConfigureRequest e => OnConfigureRequest env s e
  | Event.MapRequest w => OnMapRequest env s w
  | Event.MapNotify w => some (OnMapNotify env s w)
  | Event.UnmapNotify w => some (OnUnmapNotify env s w)
  | Event.DestroyNotify w => some (OnDestroyNotify env s w)
  | Event.ButtonPress e => some (OnButtonPress s e)
  | Event.ButtonRelease => some (OnButtonRelease s)
  | Event.MotionNotify e => some (OnMotionNotify env s e)

/-- State after a sequence of events, handled in arrival order; `none` when one
of the handlers has no result. -/
def run (env : Env) (s : State) : List Event → Option State
  | [] => some s
  | e :: evs =>
    match dispatch env s e with
    | none => none
    | some t => run env t evs

/-! ## The older variant wm.cpp -/

/-- Members of the `WindowManager` of wm.cpp that its drag handler reads:
the button-press event `start_` and the attributes `attr_` recorded with it. -/
structure WmState where
  start_ : XButtonEvent
  attr_ : Area
deriving DecidableEq

/-- Handler `WindowManager::OnMotionNotify` of wm.cpp (lines 212-227): the
`XMoveResizeWindow` call it issues, if any.  The button codes and the minimum
sizes are constants of global.hpp, which is not among the sources. -/
def WmOnMotionNotify (MOUSE_LEFT_BTN MOUSE_RIGHT_BTN : Nat)
    (MIN_WINDOW_WIDTH MIN_WINDOW_HEIGHT : Int) (s : WmState) (e : XButtonEvent) :
    Option (Window × Area) :=
  if s.start_.subwindow = None then none
  else
    let xdiff := e.x - s.start_.x
    let ydiff := e.y - s.start_.y
    let new_x := s.attr_.x + (if s.start_.button = MOUSE_LEFT_BTN then xdiff else 0)
    let new_y := s.attr_.y + (if s.start_.button = MOUSE_LEFT_BTN then ydiff else 0)
    let new_width := s.attr_.w + (if s.start_.button = MOUSE_RIGHT_BTN then xdiff else 0)
    let new_height := s.attr_.h + (if s.start_.button = MOUSE_RIGHT_BTN then ydiff else 0)
    let new_width := if new_width < MIN_WINDOW_WIDTH then MIN_WINDOW_WIDTH else new_width
    let new_height := if new_height < MIN_WINDOW_HEIGHT then MIN_WINDOW_HEIGHT else new_height
    some (s.start_.subwindow, ⟨new_x, new_y, new_width, new_height⟩)

/-- The members of the window manager proper: everything but the X server
geometry, the viewable set and the call log. -/
def State.wm (s : State) :
    List Workspace × Int × List Window × List Window × List Window × XButtonEvent ×
      List (Window × Area) × (Int × Int) :=
  (s.workspaces, s.current, s.docks, s.notifications, s.hidden_windows, s.btn_pressed_event,
    s.cookie, s.resolution)

/-- Rectangles requested for a window through `Client::MoveResize`, oldest first. -/
def State.moveRequests (s : State) (w : Window) : List Area :=
  s.calls.filterMap (fun c =>
    match c with
    | Call.MoveResize v a => if v = w then some a else none
    | _ => none)

/-- Geometry most recently requested for a window through `Client::MoveResize`. -/
def requestedGeometry (s : State) (w : Window) : Option Area :=
  (s.moveRequests w).getLast?

/-- Tracking of one client: handle `h` is owned by workspace `i`, and both the
client and the workspace have fullscreen flag `b`. -/
def Tracks (s : State) (i : Nat) (h : Window) (b : Bool) : Prop :=
  ∃ c, mapperFind s h = some (i, c) ∧ c.fullscreen = b ∧ (s.ws i).is_fullscreen = b

/-- Handle and fullscreen flag of a client. -/
def Client.key (c : Client) : Window × Bool := (c.window, c.fullscreen)

/-- Fullscreen view of a workspace: handle and fullscreen flag of every client,
in order, and the workspace-level flag. -/
def Workspace.view (ws : Workspace) : List (Window × Bool) × Bool :=
  (ws.clients.map Client.key, ws.is_fullscreen)

/-- Fullscreen view of the session. -/
def State.fsView (s : State) : List (List (Window × Bool) × Bool) :=
  s.workspaces.map Workspace.view

/-- Consistency of a fullscreen view: handles are distinct, a workspace whose
flag is clear has no fullscreen client, and any two fullscreen clients are the
same handle. -/
def ViewOk (v : List (Window × Bool) × Bool) : Prop :=
  (v.1.map Prod.fst).Nodup ∧
  (v.2 = false → ∀ k, k ∈ v.1 → k.2 = false) ∧
  (∀ k k', k ∈ v.1 → k' ∈ v.1 → k.2 = true → k'.2 = true → k.1 = k'.1)

/-- Consistency of every workspace of the session. -/
def State.Consistent (s : State) : Prop :=
  ∀ v, v ∈ s.fsView → ViewOk v

/-- View of a workspace after the fullscreen flag of handle `h` and the
workspace flag were set to `b`. -/
def viewSet (h : Window) (b : Bool) (v : List (Window × Bool) × Bool) :
    List (Window × Bool) × Bool :=
  (v.1.map (fun k => if k.1 = h then (k.1, b) else k), b)

/-- View of a workspace after a new, non-fullscreen client was appended. -/
def viewAdd (w : Window) (v : List (Window × Bool) × Bool) : List (Window × Bool) × Bool :=
  (v.1 ++ [(w, false)], v.2)

/-- Size hints of a window that sets none. -/
def hintsNone : XSizeHints := ⟨0, 0, 0, 0, 0, 0, 0, 0, 0⟩

/-- Sample environment: no rule matches any window, window 9 is a dock, window 8
a notification, window 7 a dialog; three workspaces; `Workspace::Add` as
section 4.2 of the specification words it (no focus set). -/
def envPlain : Env :=
  { ShouldProhibit := fun _ => false, ShouldFloat := fun _ => false,
    ShouldFullscreen := fun _ => false, GetSpawnWorkspaceId := fun _ => -1,
    border_width := 2, IsDock := fun w => w == 9, IsNotification := fun w => w == 8,
    IsDialog := fun w => w == 7, IsSplash := fun _ => false, IsUtility := fun _ => false,
    HasNetWmStateFullscreen := fun _ => false, GetWmNormalHints := fun _ => hintsNone,
    UNSPECIFIED_WORKSPACE := -1, WORKSPACE_COUNT := 3,
    MIN_WINDOW_WIDTH := 50, MIN_WINDOW_HEIGHT := 50,
    DEFAULT_FLOATING_WINDOW_WIDTH := 800, DEFAULT_FLOATING_WINDOW_HEIGHT := 600,
    AddSetsFocus := false }

/-- Sample initial state: three workspaces on a 1000 x 800 display. -/
def stateInit : State := State.init 3 (1000, 800)

/-- Calls of the window-management interface. -/
inductive Op
  | Manage (window : Window)
  | Unmanage (window : Window)
  | SetFullscreen (window : Window) (fullscreen : Bool)

/-- Effect of one call; `none` when the call has no result. -/
def Op.apply (env : Env) (s : State) : Op → Option State
  | Op.Manage w => Wmderland.Manage env s w
  | Op.Unmanage w => some (Wmderland.Unmanage env s w)
  | Op.SetFullscreen w b => some (Wmderland.SetFullscreen env s w b)

/-- State after a sequence of calls; `none` when one of them has no result. -/
def runOps (env : Env) (s : State) : List Op → Option State
  | [] => some s
  | op :: ops =>
    match op.apply env s with
    | none => none
    | some t => runOps env t ops

/-- States reachable from the initial state by Manage, Unmanage and SetFullscreen calls. -/
inductive CallReachable (env : Env) (n : Nat) (res : Int × Int) : State → Prop
  | init : CallReachable env n res (State.init n res)
  | step (s t : State) (op : Op) :
      CallReachable env n res s → op.apply env s = some t → CallReachable env n res t

/-- A call that does not switch fullscreen on in a workspace whose fullscreen
flag is already set: `SetFullscreen(h, true)` only for an untracked handle, a
client that is already fullscreen, or a client of a workspace whose flag is
clear; `Manage` of an untracked window whose rules or hints ask for fullscreen
only into a workspace whose flag is clear. -/
def Op.exclusive (env : Env) (s : State) : Op → Bool
  | Op.Manage w =>
    !(shouldFullscreen env w) || (mapperFind s w).isSome ||
      !((s.wsI (spawnTarget env s w)).is_fullscreen)
  | Op.Unmanage _ => true
  | Op.SetFullscreen w b =>
    !b ||
      match mapperFind s w with
      | none => true
      | some (i, c) => c.fullscreen || !((s.ws i).is_fullscreen)

/-- States reachable from the initial state by calls that are all `exclusive`. -/
inductive CallReachableExclusive (env : Env) (n : Nat) (res : Int × Int) : State → Prop
  | init : CallReachableExclusive env n res (State.init n res)
  | step (s t : State) (op : Op) :
      CallReachableExclusive env n res s → op.exclusive env s = true →
      op.apply env s = some t → CallReachableExclusive env n res t

/-- Every call of the sequence is `exclusive` in the state it is issued in. -/
def Op.exclusiveAll (env : Env) (s : State) : List Op → Bool
  | [] => true
  | op :: ops =>
    op.exclusive env s &&
      match op.apply env s with
      | none => true
      | some t => Op.exclusiveAll env t ops

/-- Sample environment in which window 1 matches a floating rule. -/
def envFloat : Env := { envPlain with ShouldFloat := fun w => w == 1 }

/-- Left-button press on window 1 at pointer position (10, 10). -/
def pressLeft : XButtonEvent := ⟨1, 10, 10, 1⟩

/-- Sample state: an 800 x 600 display with one dock, window 9, that occupies
the strip of width 50 along the left edge. -/
def stateLeftDock : State :=
  { State.init 1 (800, 600) with docks := [9], attrs := [(9, ⟨0, 0, 50, 600⟩)] }

/-- Sample state: an 800 x 600 display with one dock, window 9, that occupies
the strip of width 50 along the right edge. -/
def stateRightDock : State :=
  { State.init 1 (800, 600) with docks := [9], attrs := [(9, ⟨750, 0, 50, 600⟩)] }

/-- Sample state: window 1 is tracked in workspace 0, has size 400 x 300, and
the floating-geometry cache holds the rectangle (0, 50, 300, 200) for it. -/
def stateCookieAtLeftEdge : State :=
  { State.init 3 (1000, 800) with
    workspaces := [⟨[Client.new envPlain 1], none, TilingDirection.HORIZONTAL, false⟩,
      Workspace.empty, Workspace.empty],
    attrs := [(1, ⟨10, 10, 400, 300⟩)],
    cookie := [(1, ⟨0, 50, 300, 200⟩)] }

/-- Sample state with an active drag context: window 1 was managed as a
floating client and a left-button press on it was handled. -/
def stateDrag : State :=
  (run envFloat stateInit [Event.MapRequest 1, Event.ButtonPress pressLeft]).get (by decide)

/-- Sample drag state of the variant wm.cpp: right button pressed at (10, 10) on
window 1, whose recorded attributes are (100, 100, 400, 300). -/
def wmDrag : WmState := ⟨⟨1, 10, 10, 3⟩, ⟨100, 100, 400, 300⟩⟩

/-- The rectangle of a drag as the specification words it: the left button
translates the snapshot by the pointer delta, the right button grows it by the
delta, and width and height are never below the minimums. -/
def dragRect (left right button : Nat) (g : Area) (dx dy mw mh : Int) : Area :=
  if button = left then ⟨g.x + dx, g.y + dy, max g.w mw, max g.h mh⟩
  else if button = right then ⟨g.x, g.y, max (g.w + dx) mw, max (g.h + dy) mh⟩
  else ⟨g.x, g.y, max g.w mw, max g.h mh⟩

/-- Events: window 1 is mapped and managed, a button is pressed on it, its
program unmaps it, and the button is released. -/
def tracePressUnmapRelease : List Event :=
  [Event.MapRequest 1, Event.ButtonPress pressLeft, Event.UnmapNotify 1, Event.ButtonRelease]

/-- The client of window 1 in `stateDrag`: mapped, floating, with the geometry
snapshot (500, 400, 800, 600) taken at the button press. -/
def clientDrag : Client := ⟨1, true, true, false, false, ⟨500, 400, 800, 600⟩, hintsNone⟩

/-- Sample state: window 1 is managed in workspace 0 and is the only client. -/
def stateOne : State := (runOps envPlain stateInit [Op.Manage 1]).get (by decide)

/-- The client of window 1 in `stateOne`: mapped, tiled, not fullscreen. -/
def clientOne : Client := ⟨1, true, false, false, false, Area.zero, hintsNone⟩

/-- Handle `h` is owned by workspace `i`, and its client satisfies `P`. -/
def Owns (s : State) (i : Nat) (h : Window) (P : Client → Prop) : Prop :=
  ∃ c, mapperFind s h = some (i, c) ∧ P c

/-- Members of the window manager other than the workspaces. -/
def State.rest (s : State) :
    Int × List Window × List Window × List Window × XButtonEvent × List (Window × Area) ×
      (Int × Int) :=
  (s.current, s.docks, s.notifications, s.hidden_windows, s.btn_pressed_event, s.cookie,
    s.resolution)

/-- Sample state with a dock and a tiled client whose geometry is not its tiling
slot: the dock 9 announces the geometry (0, 0, 1000, 30) and is mapped; window
1, which matches a floating rule, is managed and a left-button press on it at
(10, 10) starts a drag; `SetFloating(1, false, true)` (the toggle-floating
action) tiles it; the pointer then moves to (30, 40), and `OnMotionNotify`
moves the client to (520, 430, 800, 600). -/
def stateTiledOffSlot : State :=
  OnMotionNotify envFloat
    (SetFloating envFloat
      ((run envFloat stateInit
        [Event.ConfigureRequest ⟨9, 0, 0, 1000, 30, 15⟩, Event.MapRequest 9, Event.MapRequest 1,
          Event.ButtonPress pressLeft]).get (by decide))
      1 false true)
    ⟨1, 30, 40, 1⟩

/-- The client of window 1 in `stateTiledOffSlot`: mapped, tiled, not fullscreen. -/
def clientTiled : Client := ⟨1, true, false, false, false, ⟨500, 400, 800, 600⟩, hintsNone⟩

/-- Modelled from the spec: `Workspace::Move(window, destination)` removes the
client from the workspace at position `src` (as `Workspace::Remove` does) and
adds the same client record, geometry and flags retained, at the end of the
sequence of the workspace at position `dst`, with the focus of the destination
as `Workspace::Add` leaves it (see there for the two readings).  No effect when
the handle is not a member of the source workspace. -/
def Move (env : Env) (s : State) (src : Nat) (window : Window) (dst : Nat) : State :=
  match (s.ws src).GetClient window with
  | none => s
  | some c =>
    (s.modifyWs src (Workspace.Remove window)).modifyWs dst
      (fun ws => { ws with clients := ws.clients ++ [c],
                           focused := if env.AddSetsFocus then some window else ws.focused })

/-- Function `WindowManager::MoveWindowToWorkspace` (window_manager.cc 611-627). -/
def MoveWindowToWorkspace (env : Env) (s : State) (window : Window) (next : Int) : State :=
  match mapperFind s window with
  | none => s
  | some (i, c) =>
    if s.current = next ∨ next < 0 ∨ next ≥ (s.workspaces.length : Int) then s
    else
      let s1 := if (s.wsI s.current).is_fullscreen then SetFullscreen env s c.window false else s
      let s2 := Client.Unmap s1 i window
      let s3 := s2.modifyWsI next Workspace.UnsetFocusedClient
      let s4 := Move env s3 s3.current.toNat window next.toNat
      ArrangeWindows env s4

/-- Fields of `XClientMessageEvent` that `OnClientMessage` reads: the window,
the message-type atom and `data.l[0..2]`; `l1` and `l2` are the values after
`static_cast<Atom>`. -/
structure XClientMessageEvent where
  window : Window
  message_type : Nat
  l0 : Int
  l1 : Nat
  l2 : Nat
deriving DecidableEq

/-- Atoms of `Properties` (`prop_`) that `OnClientMessage` compares with. -/
structure Properties where
  wmderland_client_event : Nat
  NET_CURRENT_DESKTOP : Nat
  NET_WM_STATE : Nat
  NET_WM_STATE_FULLSCREEN : Nat
deriving DecidableEq

/-- Handler `WindowManager::OnClientMessage` (window_manager.cc 421-442).  The
IPC event manager `ipc_evmgr_` is a collaborator and is taken as the parameter
`ipc`. -/
def OnClientMessage (env : Env) (prop : Properties) (ipc : State → XClientMessageEvent → State)
    (s : State) (e : XClientMessageEvent) : State :=
  if e.message_type = prop.wmderland_client_event then ipc s e
  else if e.message_type = prop.NET_CURRENT_DESKTOP then
    if e.l0 ≥ 0 ∧ e.l0 < env.WORKSPACE_COUNT then GotoWorkspace env s e.l0 else s
  else if e.message_type = prop.NET_WM_STATE then
    if e.l1 = prop.NET_WM_STATE_FULLSCREEN ∨ e.l2 = prop.NET_WM_STATE_FULLSCREEN then
      match mapperFind s e.window with
      | none => s
      | some (_, c) =>
        let should_fullscreen := decide (e.l0 = 1) || (decide (e.l0 = 2) && !c.fullscreen)
        SetFullscreen env s e.window should_fullscreen
    else s
  else s

/-- Value of a C++ `int` expression whose mathematical value is `x`: signed
overflow, undefined in the source, is read as two's-complement wrap-around. -/
def wrapInt32 (x : Int) : Int :=
  (x + 2147483648) % 4294967296 - 2147483648

/-- Action types of `HandleAction` that act on the session state through code
of window_manager.cc, with the integer `std::stoi(action.argument())` where the
action has one.  NAVIGATE_*, KILL, EXIT, RELOAD, DEBUG_CRASH and EXEC act
through collaborators (`Workspace::Navigate`, the X server, the process, the
configuration) and are not part of the embedding. -/
inductive Action
  | TILE_H
  | TILE_V
  | TOGGLE_FLOATING
  | TOGGLE_FULLSCREEN
  | GOTO_WORKSPACE (argument : Int)
  | WORKSPACE (argument : Int)
  | MOVE_WINDOW_TO_WORKSPACE (argument : Int)
deriving DecidableEq

/-- Modelled from the spec: `Workspace::SetTilingDirection`, setter of the
tiling direction. -/
def Workspace.SetTilingDirection (d : TilingDirection) (ws : Workspace) : Workspace :=
  { ws with tiling_direction := d }

/-- Function `WindowManager::HandleAction` (window_manager.cc 537-594), for the
action types of `Action`. -/
def HandleAction (env : Env) (s : State) : Action → State
  | Action.TILE_H =>
    s.modifyWsI s.current (Workspace.SetTilingDirection TilingDirection.HORIZONTAL)
  | Action.TILE_V =>
    s.modifyWsI s.current (Workspace.SetTilingDirection TilingDirection.VERTICAL)
  | Action.TOGGLE_FLOATING =>
    match (s.wsI s.current).GetFocusedClient with
    | none => s
    | some focused_client =>
      SetFloating env s focused_client.window (!focused_client.floating) true
  | Action.TOGGLE_FULLSCREEN =>
    match (s.wsI s.current).GetFocusedClient with
    | none => s
    | some focused_client =>
      SetFullscreen env s focused_client.window (!focused_client.fullscreen)
  | Action.GOTO_WORKSPACE argument => GotoWorkspace env s (wrapInt32 (argument - 1))
  | Action.WORKSPACE argument => GotoWorkspace env s (wrapInt32 (s.current + argument))
  | Action.MOVE_WINDOW_TO_WORKSPACE argument =>
    match (s.wsI s.current).GetFocusedClient with
    | none => s
    | some focused_client =>
      MoveWindowToWorkspace env s focused_client.window (wrapInt32 (argument - 1))

/-- Handles of the clients of a workspace, in order. -/
def Workspace.windows (ws : Workspace) : List Window :=
  ws.clients.map (fun c => c.window)

/-- Handles of the clients of every workspace. -/
def State.winView (s : State) : List (List Window) :=
  s.workspaces.map Workspace.windows

/-- Representation invariant of `Client::mapper_`: the map is keyed by the
handle, so a handle designates at most one client; no handle occurs twice in
the client sequences of the workspaces. -/
def State.HandlesUnique (s : State) : Prop :=
  s.winView.flatten.Nodup

instance (s : State) : Decidable s.HandlesUnique := by
  unfold State.HandlesUnique; infer_instance

/-- The focus pointer of a workspace is empty or designates one of its clients. -/
def Workspace.FocusOk (ws : Workspace) : Prop :=
  ∀ w, ws.focused = some w → w ∈ ws.windows

instance (ws : Workspace) : Decidable ws.FocusOk := by
  unfold Workspace.FocusOk; infer_instance

/-- Every workspace has a valid focus pointer. -/
def State.FocusOk (s : State) : Prop :=
  ∀ ws ∈ s.workspaces, ws.FocusOk

instance (s : State) : Decidable s.FocusOk := by
  unfold State.FocusOk; infer_instance

/-- Composition of the two member calls `Unmanage` makes on the owner. -/
def unmanageOwner (h : Window) (c : Client) (ws : Workspace) : Workspace :=
  Workspace.Remove h (if c.fullscreen then Workspace.set_fullscreen false ws else ws)

/-- State of `MoveWindowToWorkspace` before the call of `Workspace::Move`
(window_manager.cc 618-624). -/
def moveStage (env : Env) (s : State) (i : Nat) (window : Window) (next : Int) : State :=
  let s1 := if (s.wsI s.current).is_fullscreen then SetFullscreen env s window false else s
  let s2 := Client.Unmap s1 i window
  s2.modifyWsI next Workspace.UnsetFocusedClient

/-- Sample state: window 1 is the only client of workspace 0 and is fullscreen. -/
def stateOneFullscreen : State := SetFullscreen envPlain stateOne 1 true

/-- The client of window 1 in `stateOneFullscreen`. -/
def clientOneFullscreen : Client := ⟨1, true, false, true, true, Area.zero, hintsNone⟩

/-- Handle and floating flag of every client of a workspace, in order. -/
def Workspace.floatKeys (ws : Workspace) : List (Window × Bool) :=
  ws.clients.map (fun c => (c.window, c.floating))

/-- Handle and floating flag of every client of the session. -/
def State.floatView (s : State) : List (List (Window × Bool)) :=
  s.workspaces.map Workspace.floatKeys

/-- Sample state: window 1 is managed, made floating by `SetFloating`, then
fullscreen by `SetFullscreen`. -/
def stateFloatFullscreen : State :=
  SetFullscreen envPlain
    (SetFloating envPlain ((Manage envPlain stateInit 1).get (by decide)) 1 true false) 1 true

/-- The client of window 1 in `stateFloatFullscreen`. -/
def clientFloatFullscreen : Client :=
  ⟨1, true, true, true, true, ⟨500, 400, 800, 600⟩, hintsNone⟩

/-- Atoms used by the sample client messages. -/
def propSample : Properties := ⟨100, 101, 102, 103⟩

/-- Sample message: `_NET_WM_STATE` toggle of the fullscreen atom for window 1. -/
def messageToggleFullscreen : XClientMessageEvent := ⟨1, 102, 2, 103, 0⟩

/-- Events of the hidden-window trace: window 1 asks to be mapped, unmaps
itself, and asks to be mapped again. -/
def traceMapUnmapMap : List Event :=
  [Event.MapRequest 1, Event.UnmapNotify 1, Event.MapRequest 1]

/-- The same history with the second map request replaced by a configure
request of window 1. -/
def traceMapUnmapConfigure : List Event :=
  [Event.MapRequest 1, Event.UnmapNotify 1, Event.ConfigureRequest ⟨1, 0, 0, 100, 100, 0⟩]

/-- Calls of the window manager on its session state. -/
inductive WmOp
  | Manage (window : Window)
  | Unmanage (window : Window)
  | SetFullscreen (window : Window) (fullscreen : Bool)
  | GotoWorkspace (next : Int)
  | MoveWindowToWorkspace (window : Window) (next : Int)
deriving DecidableEq

/-- Effect of one call; `none` when the call has no result. -/
def WmOp.apply (env : Env) (s : State) : WmOp → Option State
  | WmOp.Manage w => Wmderland.Manage env s w
  | WmOp.Unmanage w => some (Wmderland.Unmanage env s w)
  | WmOp.SetFullscreen w b => some (Wmderland.SetFullscreen env s w b)
  | WmOp.GotoWorkspace n => some (Wmderland.GotoWorkspace env s n)
  | WmOp.MoveWindowToWorkspace w n => some (Wmderland.MoveWindowToWorkspace env s w n)

/-- State after a sequence of calls, oldest first; `none` when one of them has
no result. -/
def runWmOps (env : Env) (s : State) : List WmOp → Option State
  | [] => some s
  | op :: ops =>
    match op.apply env s with
    | none => none
    | some t => runWmOps env t ops

/-- Sample environment that differs from `envPlain` in the reading of
`Workspace::Add`: the added client becomes the focused one. -/
def envAddFocus : Env := { envPlain with AddSetsFocus := true }

/-- Calls that move a window into a fullscreen workspace: window 1 becomes
fullscreen in workspace 0, window 2 is managed in workspace 1 and moved to
workspace 0. -/
def traceMoveIntoFullscreen : List WmOp :=
  [WmOp.Manage 1, WmOp.SetFullscreen 1 true, WmOp.GotoWorkspace 1, WmOp.Manage 2,
    WmOp.MoveWindowToWorkspace 2 0]

/-- Calls that leave workspace 0 fullscreen with an empty focus: after
`traceMoveIntoFullscreen` window 2 is unmanaged and workspace 0 is made active
again. -/
def traceFullscreenNoFocus : List WmOp :=
  traceMoveIntoFullscreen ++ [WmOp.Unmanage 2, WmOp.GotoWorkspace 0]

/-- Requests that change the active workspace: a direct `GotoWorkspace` call, a
`_NET_CURRENT_DESKTOP` client message, and the actions `GOTO_WORKSPACE` and
`WORKSPACE` with the integer that `std::stoi` read from their argument. -/
inductive SwitchOp
  | Goto (next : Int)
  | Message (l0 : Int)
  | ActionGoto (argument : Int)
  | ActionRelative (argument : Int)
deriving DecidableEq

/-- Effect of one request. -/
def SwitchOp.apply (env : Env) (prop : Properties) (ipc : State → XClientMessageEvent → State)
    (s : State) : SwitchOp → State
  | SwitchOp.Goto n => GotoWorkspace env s n
  | SwitchOp.Message i => OnClientMessage env prop ipc s ⟨None, prop.NET_CURRENT_DESKTOP, i, 0, 0⟩
  | SwitchOp.ActionGoto n => HandleAction env s (Action.GOTO_WORKSPACE n)
  | SwitchOp.ActionRelative d => HandleAction env s (Action.WORKSPACE d)

/-- State after a sequence of requests, oldest first, from the initial state of
a session with `n` workspaces. -/
def runSwitchOps (env : Env) (prop : Properties) (ipc : State → XClientMessageEvent → State)
    (n : Nat) (res : Int × Int) (ops : List SwitchOp) : State :=
  ops.foldl (SwitchOp.apply env prop ipc) (State.init n res)

/-- The active index is a position of the workspace list. -/
def State.CurrentOk (s : State) : Prop :=
  0 ≤ s.current ∧ s.current < (s.workspaces.length : Int)

/-- Dock along the bottom edge of a 1000 x 800 display. -/
def dockBottom : Area := ⟨0, 770, 1000, 30⟩

/-- Dock stacked on top of `dockBottom`. -/
def dockAboveBottom : Area := ⟨0, 740, 1000, 30⟩

/-- Dock along the top edge of a 1000 x 800 display. -/
def dockTop : Area := ⟨0, 0, 1000, 30⟩

/-- What the tiling pass reads of a client: handle, mapped, floating and
fullscreen flags, and size hints. -/
def Client.core (c : Client) : Window × Bool × Bool × Bool × XSizeHints :=
  (c.window, c.mapped, c.floating, c.fullscreen, c.size_hints)

/-- What the tiling pass reads of a workspace: the cores of its clients, in
order, and the tiling direction. -/
def Workspace.coreView (ws : Workspace) :
    List (Window × Bool × Bool × Bool × XSizeHints) × TilingDirection :=
  (ws.clients.map Client.core, ws.tiling_direction)

/-- Cores of every workspace. -/
def State.coreViews (s : State) :
    List (List (Window × Bool × Bool × Bool × XSizeHints) × TilingDirection) :=
  s.workspaces.map Workspace.coreView

/-- Core view of a workspace after the fullscreen flag of the clients with
handle `h` was set to `b`. -/
def coreSet (h : Window) (b : Bool)
    (v : List (Window × Bool × Bool × Bool × XSizeHints) × TilingDirection) :
    List (Window × Bool × Bool × Bool × XSizeHints) × TilingDirection :=
  (v.1.map (fun k => if k.1 = h then (k.1, k.2.1, k.2.2.1, b, k.2.2.2.2) else k), v.2)

/-- The rectangle `Client::MoveResize` gives to the X server for a client with
size hints `hints` and requested rectangle `a`. -/
def clampTo (env : Env) (hints : XSizeHints) (a : Area) : Area :=
  { x := a.x, y := a.y,
    w := if a.w < (if hints.min_width > 0 then hints.min_width else env.MIN_WINDOW_WIDTH)
      then (if hints.min_width > 0 then hints.min_width else env.MIN_WINDOW_WIDTH) else a.w,
    h := if a.h < (if hints.min_height > 0 then hints.min_height else env.MIN_WINDOW_HEIGHT)
      then (if hints.min_height > 0 then hints.min_height else env.MIN_WINDOW_HEIGHT) else a.h }

/-- Geometry of window `h` after the tiling pass of a workspace with core view
`v` over the area `a`, when its geometry before the pass is `g`: the rectangle
of the last tileable client with handle `h`, and `g` when there is none. -/
def tileAt (env : Env) (h : Window)
    (v : List (Window × Bool × Bool × Bool × XSizeHints) × TilingDirection) (a g : Area) : Area :=
  ((v.1.filter (fun k => !k.2.2.1 && !k.2.2.2.1 && k.2.1)).zip
      (tileRects v.2 (v.1.filter (fun k => !k.2.2.1 && !k.2.2.2.1 && k.2.1)).length a)).foldl
    (fun g q => if q.1.1 = h then clampTo env q.1.2.2.2.2 q.2 else g) g

/-- Sample state with a dock and two tiled clients, under the reading of
`Workspace::Add` that focuses the added client: the dock 9 announces the
geometry (0, 0, 1000, 30) and is mapped, then windows 1 and 2 are mapped and
managed; window 1 occupies the left half (0, 30, 500, 770) of the tiling area
and window 2 the right half. -/
def stateTwoTiled : State :=
  (run envAddFocus stateInit
    [Event.ConfigureRequest ⟨9, 0, 0, 1000, 30, 15⟩, Event.MapRequest 9, Event.MapRequest 1,
      Event.MapRequest 2]).get (by decide)

/-! ## Theorems -/

/-! ### Members that the X-side operations leave alone -/

theorem foldl_inv {α β γ : Type} (g : β → γ) (f : β → α → β)
    (h : ∀ b a, g (f b a) = g b) (l : List α) (b : β) : g (l.foldl f b) = g b := by
  induction l generalizing b with
  | nil => rfl
  | cons a l ih => rw [List.foldl_cons, ih, h]

@[simp] theorem wm_log (s : State) (c : Call) : (s.log c).wm = s.wm := rfl
@[simp] theorem wm_XMapWindow (s : State) (w : Window) : (XMapWindow s w).wm = s.wm := rfl
@[simp] theorem wm_XUnmapWindow (s : State) (w : Window) : (XUnmapWindow s w).wm = s.wm := rfl
@[simp] theorem wm_MoveResize (env : Env) (s : State) (c : Client) (a : Area) :
    (Client.MoveResize env s c a).wm = s.wm := rfl
@[simp] theorem wm_Raise (s : State) (w : Window) : (Client.Raise s w).wm = s.wm := rfl
@[simp] theorem wm_Map (s : State) (w : Window) : (Client.Map s w).wm = s.wm := rfl

@[simp] theorem wm_MapDocks (s : State) : (MapDocks s).wm = s.wm :=
  foldl_inv State.wm XMapWindow wm_XMapWindow s.docks s

@[simp] theorem wm_UnmapDocks (s : State) : (UnmapDocks s).wm = s.wm :=
  foldl_inv State.wm XUnmapWindow wm_XUnmapWindow s.docks s

@[simp] theorem wm_RaiseNotifications (s : State) : (RaiseNotifications s).wm = s.wm :=
  foldl_inv State.wm _ (fun b _ => wm_log b _) s.notifications s

@[simp] theorem wm_MapAllClients (s : State) (i : Nat) : (MapAllClients s i).wm = s.wm :=
  foldl_inv State.wm _ (fun b _ => wm_Map b _) _ s

@[simp] theorem wm_RaiseAllFloatingClients (s : State) (i : Nat) :
    (RaiseAllFloatingClients s i).wm = s.wm :=
  foldl_inv State.wm _ (fun b _ => wm_Raise b _) _ s

@[simp] theorem wm_Tile (env : Env) (s : State) (i : Nat) (a : Area) :
    (Tile env s i a).wm = s.wm :=
  foldl_inv State.wm _ (fun b _ => wm_MoveResize env b _ _) _ s

theorem wm_workspaces {s t : State} (h : t.wm = s.wm) : t.workspaces = s.workspaces :=
  congrArg (fun p => p.1) h

theorem wm_current {s t : State} (h : t.wm = s.wm) : t.current = s.current :=
  congrArg (fun p => p.2.1) h

theorem wm_docks {s t : State} (h : t.wm = s.wm) : t.docks = s.docks :=
  congrArg (fun p => p.2.2.1) h

theorem wm_wsI {s t : State} (h : t.wm = s.wm) (i : Int) : t.wsI i = s.wsI i := by
  simp only [State.wsI, State.ws, wm_workspaces h]

theorem modify_fix {α : Type} (f : α → α) (l : List α) (i : Nat)
    (h : ∀ x, l[i]? = some x → f x = x) : l.modify f i = l := by
  apply List.ext_getElem?
  intro j
  rw [List.getElem?_modify]
  by_cases hij : i = j
  · subst hij
    cases hx : l[i]? with
    | none => rfl
    | some x => simp [h x hx]
  · cases hx : l[j]? with
    | none => rfl
    | some x => simp [hij]

theorem SetFocusedClient_focused (ws : Workspace) (fc : Client)
    (h : ws.GetFocusedClient = some fc) : Workspace.SetFocusedClient fc.window ws = ws := by
  unfold Workspace.GetFocusedClient at h
  cases hf : ws.focused with
  | none => rw [hf] at h; exact absurd h (by simp)
  | some w =>
    rw [hf] at h
    simp only at h
    have hw : fc.window = w := by
      have := List.find?_some h
      simpa using this
    subst hw
    unfold Workspace.SetFocusedClient
    rw [h]
    cases ws
    simp only at hf
    simp only [hf]

theorem modifyWsI_fix (s : State) (i : Int) (F : Workspace → Workspace)
    (h : F (s.wsI i) = s.wsI i) : s.modifyWsI i F = s := by
  unfold State.modifyWsI
  split
  · rfl
  · rename_i h0
    unfold State.modifyWs
    rw [modify_fix]
    intro x hx
    have : s.wsI i = x := by
      simp [State.wsI, State.ws, h0, hx]
    rw [this] at h
    exact h

theorem modifyWsI_focus_wm (s t : State) (fc : Client) (hwm : t.wm = s.wm)
    (hf : (s.wsI s.current).GetFocusedClient = some fc) :
    (t.modifyWsI t.current (Workspace.SetFocusedClient fc.window)).wm = s.wm := by
  rw [modifyWsI_fix]
  · exact hwm
  · rw [wm_current hwm, wm_wsI hwm]
    exact SetFocusedClient_focused _ _ hf

/-- The re-layout never changes a member of the window manager. -/
theorem wm_ArrangeWindows (env : Env) (s : State) : (ArrangeWindows env s).wm = s.wm := by
  unfold ArrangeWindows
  cases hf : (s.wsI s.current).GetFocusedClient with
  | none => simp
  | some fc =>
    simp only
    split
    · simp
    · simp only [wm_RaiseNotifications, wm_RaiseAllFloatingClients]
      apply modifyWsI_focus_wm _ _ _ _ hf
      simp

/-! ### The handle -> Client index -/

theorem findIn_ge (l : List Workspace) (k : Nat) (w : Window) (n : Nat) (c : Client)
    (h : findIn l k w = some (n, c)) : k ≤ n := by
  induction l generalizing k with
  | nil => simp [findIn] at h
  | cons ws rest ih =>
    unfold findIn at h
    cases hg : ws.GetClient w with
    | some d =>
      rw [hg] at h
      simp only [Option.some.injEq, Prod.mk.injEq] at h
      omega
    | none =>
      rw [hg] at h
      have := ih (k + 1) h
      omega

theorem findIn_some_iff (l : List Workspace) (k : Nat) (w : Window) (j : Nat) (c : Client) :
    findIn l k w = some (k + j, c) ↔
      (∀ j', j' < j → ∀ ws, l[j']? = some ws → ws.GetClient w = none) ∧
      ∃ ws, l[j]? = some ws ∧ ws.GetClient w = some c := by
  induction l generalizing k j with
  | nil => simp [findIn]
  | cons ws rest ih =>
    unfold findIn
    cases hg : ws.GetClient w with
    | some d =>
      simp only [Option.some.injEq, Prod.mk.injEq]
      constructor
      · rintro ⟨hk, hd⟩
        have hj : j = 0 := by omega
        subst hj
        subst hd
        exact ⟨fun j' hj' => absurd hj' (by omega), ws, by simp, hg⟩
      · rintro ⟨hlt, ws', hws', hc⟩
        cases j with
        | zero =>
          simp only [List.getElem?_cons_zero, Option.some.injEq] at hws'
          subst hws'
          rw [hg] at hc
          simp only [Option.some.injEq] at hc
          exact ⟨by omega, hc⟩
        | succ j =>
          have := hlt 0 (by omega) ws (by simp)
          rw [hg] at this
          exact absurd this (by simp)
    | none =>
      simp only
      cases j with
      | zero =>
        constructor
        · intro h
          have := findIn_ge _ _ _ _ _ h
          omega
        · rintro ⟨_, ws', hws', hc⟩
          simp only [List.getElem?_cons_zero, Option.some.injEq] at hws'
          subst hws'
          rw [hg] at hc
          exact absurd hc (by simp)
      | succ j =>
        have e : k + (j + 1) = (k + 1) + j := by omega
        rw [e, ih]
        constructor
        · rintro ⟨hlt, hex⟩
          refine ⟨?_, by simpa using hex⟩
          intro j' hj' ws' hws'
          cases j' with
          | zero =>
            simp only [List.getElem?_cons_zero, Option.some.injEq] at hws'
            subst hws'
            exact hg
          | succ j' =>
            exact hlt j' (by omega) ws' (by simpa using hws')
        · rintro ⟨hlt, hex⟩
          refine ⟨?_, by simpa using hex⟩
          intro j' hj' ws' hws'
          exact hlt (j' + 1) (by omega) ws' (by simpa using hws')

theorem findIn_none_iff (l : List Workspace) (k : Nat) (w : Window) :
    findIn l k w = none ↔ ∀ ws, ws ∈ l → ws.GetClient w = none := by
  induction l generalizing k with
  | nil => simp [findIn]
  | cons ws rest ih =>
    unfold findIn
    cases hg : ws.GetClient w with
    | some d =>
      simp only [List.mem_cons, forall_eq_or_imp, hg]
      simp
    | none =>
      simp only [List.mem_cons, forall_eq_or_imp, hg, true_and]
      exact ih (k + 1)

theorem mapperFind_some_iff (s : State) (w : Window) (i : Nat) (c : Client) :
    mapperFind s w = some (i, c) ↔
      (∀ j, j < i → ∀ ws, s.workspaces[j]? = some ws → ws.GetClient w = none) ∧
      ∃ ws, s.workspaces[i]? = some ws ∧ ws.GetClient w = some c := by
  have := findIn_some_iff s.workspaces 0 w i c
  simpa [mapperFind] using this

theorem mapperFind_none_iff (s : State) (w : Window) :
    mapperFind s w = none ↔ ∀ ws, ws ∈ s.workspaces → ws.GetClient w = none :=
  findIn_none_iff s.workspaces 0 w

theorem GetClient_window (ws : Workspace) (w : Window) (c : Client)
    (h : ws.GetClient w = some c) : c.window = w := by
  have := List.find?_some h
  simpa using this

theorem mapperFind_window (s : State) (w : Window) (i : Nat) (c : Client)
    (h : mapperFind s w = some (i, c)) : c.window = w := by
  obtain ⟨_, ws, _, hc⟩ := (mapperFind_some_iff s w i c).1 h
  exact GetClient_window ws w c hc

theorem mapperFind_ws (s : State) (w : Window) (i : Nat) (c : Client)
    (h : mapperFind s w = some (i, c)) :
    s.workspaces[i]? = some (s.ws i) ∧ (s.ws i).GetClient w = some c := by
  obtain ⟨_, ws, hws, hc⟩ := (mapperFind_some_iff s w i c).1 h
  have : s.ws i = ws := by simp [State.ws, hws]
  rw [this]
  exact ⟨hws, hc⟩

/-- Lookup after a member function was applied to the owning workspace. -/
theorem mapperFind_modifyWs (s : State) (w : Window) (i : Nat) (c d : Client)
    (F : Workspace → Workspace) (h : mapperFind s w = some (i, c))
    (hF : (F (s.ws i)).GetClient w = some d) :
    mapperFind (s.modifyWs i F) w = some (i, d) := by
  obtain ⟨hws, _⟩ := mapperFind_ws s w i c h
  obtain ⟨hlt, _⟩ := (mapperFind_some_iff s w i c).1 h
  rw [mapperFind_some_iff]
  constructor
  · intro j hj ws' hws'
    simp only [State.modifyWs] at hws'
    rw [List.getElem?_modify_ne _ _ (by omega)] at hws'
    exact hlt j hj ws' hws'
  · refine ⟨F (s.ws i), ?_, hF⟩
    simp only [State.modifyWs]
    rw [List.getElem?_modify_eq, hws]
    rfl

theorem ws_modifyWs (s : State) (i : Nat) (F : Workspace → Workspace)
    (h : s.workspaces[i]? = some (s.ws i)) : (s.modifyWs i F).ws i = F (s.ws i) := by
  have h2 : (s.modifyWs i F).workspaces[i]? = some (F (s.ws i)) := by
    simp only [State.modifyWs]
    rw [List.getElem?_modify_eq, h]
    rfl
  simp [State.ws, h2]

theorem getElem?_modifyWs (s : State) (i : Nat) (F : Workspace → Workspace)
    (h : s.workspaces[i]? = some (s.ws i)) :
    (s.modifyWs i F).workspaces[i]? = some ((s.modifyWs i F).ws i) := by
  rw [ws_modifyWs s i F h]
  simp only [State.modifyWs]
  rw [List.getElem?_modify_eq, h]
  rfl

/-! ### SetFullscreen -/

theorem mapperFind_wm {s t : State} (h : t.wm = s.wm) (w : Window) :
    mapperFind t w = mapperFind s w := by
  simp only [mapperFind, wm_workspaces h]

theorem ws_wm {s t : State} (h : t.wm = s.wm) (i : Nat) : t.ws i = s.ws i := by
  simp only [State.ws, wm_workspaces h]

theorem GetClient_update (ws : Workspace) (v h : Window) (f : Client → Client)
    (hf : ∀ c, (f c).window = c.window) :
    (Workspace.update v f ws).GetClient h =
      (ws.GetClient h).map (fun c => if c.window = v then f c else c) := by
  simp only [Workspace.GetClient, Workspace.update, List.find?_map]
  have e : ((fun c : Client => c.window == h) ∘ fun c => if c.window = v then f c else c) =
      fun c : Client => c.window == h := by
    funext c
    simp only [Function.comp]
    split <;> simp [hf]
  rw [e]

@[simp] theorem GetClient_set_fullscreen (ws : Workspace) (b : Bool) (h : Window) :
    (Workspace.set_fullscreen b ws).GetClient h = ws.GetClient h := rfl

@[simp] theorem GetClient_SetFocusedClient (ws : Workspace) (v h : Window) :
    (Workspace.SetFocusedClient v ws).GetClient h = ws.GetClient h := by
  unfold Workspace.SetFocusedClient
  split <;> rfl

@[simp] theorem is_fullscreen_SetFocusedClient (ws : Workspace) (v : Window) :
    (Workspace.SetFocusedClient v ws).is_fullscreen = ws.is_fullscreen := by
  unfold Workspace.SetFocusedClient
  split <;> rfl

theorem focused_SetFocusedClient (ws : Workspace) (v : Window) (c : Client)
    (h : ws.GetClient v = some c) : (Workspace.SetFocusedClient v ws).focused = some v := by
  unfold Workspace.SetFocusedClient
  rw [h]

theorem Tracks_wm {s t : State} (hwm : t.wm = s.wm) (i : Nat) (h : Window) (b : Bool)
    (ht : Tracks s i h b) : Tracks t i h b := by
  obtain ⟨c, h1, h2, h3⟩ := ht
  exact ⟨c, by rw [mapperFind_wm hwm]; exact h1, h2, by rw [ws_wm hwm]; exact h3⟩

theorem Tracks_updateClient (s : State) (i : Nat) (h v : Window) (b : Bool)
    (f : Client → Client) (hw : ∀ c, (f c).window = c.window)
    (hfs : ∀ c, (f c).fullscreen = c.fullscreen) (ht : Tracks s i h b) :
    Tracks (updateClient s i v f) i h b := by
  obtain ⟨c, h1, h2, h3⟩ := ht
  obtain ⟨hws, hc⟩ := mapperFind_ws s h i c h1
  refine ⟨if c.window = v then f c else c, ?_, ?_, ?_⟩
  · apply mapperFind_modifyWs s h i c _ _ h1
    rw [GetClient_update _ _ _ _ hw, hc]
    rfl
  · split
    · rw [hfs]; exact h2
    · exact h2
  · unfold updateClient
    rw [ws_modifyWs s i _ hws]
    exact h3

theorem Tracks_Unmap (s : State) (i : Nat) (h v : Window) (b : Bool) (ht : Tracks s i h b) :
    Tracks (Client.Unmap s i v) i h b := by
  unfold Client.Unmap
  apply Tracks_wm (wm_XUnmapWindow _ _)
  exact Tracks_updateClient s i h v b _ (fun _ => rfl) (fun _ => rfl) ht

theorem foldl_preserves {α β : Type} (P : β → Prop) (f : β → α → β)
    (h : ∀ b a, P b → P (f b a)) (l : List α) (b : β) (hb : P b) : P (l.foldl f b) := by
  induction l generalizing b with
  | nil => exact hb
  | cons a l ih => rw [List.foldl_cons]; exact ih _ (h b a hb)

theorem Tracks_UnmapAllClients (s : State) (i : Nat) (h : Window) (b : Bool)
    (ht : Tracks s i h b) : Tracks (UnmapAllClients s i) i h b := by
  unfold UnmapAllClients
  exact foldl_preserves (fun t => Tracks t i h b) _
    (fun t a hta => Tracks_Unmap t i h a.window b hta) _ s ht

theorem Tracks_enter (s : State) (i : Nat) (h : Window) (c : Client) (b : Bool)
    (hm : mapperFind s h = some (i, c)) :
    Tracks ((updateClient s i h (fun d => { d with fullscreen := b })).modifyWs i
      (Workspace.set_fullscreen b)) i h b := by
  obtain ⟨hws, hc⟩ := mapperFind_ws s h i c hm
  have hw := mapperFind_window s h i c hm
  unfold updateClient
  have e := GetClient_update (s.ws i) h h (fun d => { d with fullscreen := b }) (fun _ => rfl)
  have h1 : mapperFind (s.modifyWs i (Workspace.update h (fun d => { d with fullscreen := b }))) h
      = some (i, { c with fullscreen := b }) := by
    apply mapperFind_modifyWs s h i c _ _ hm
    rw [e, hc]
    simp [hw]
  have hws1 := getElem?_modifyWs s i (Workspace.update h (fun d => { d with fullscreen := b })) hws
  refine ⟨{ c with fullscreen := b }, ?_, rfl, ?_⟩
  · apply mapperFind_modifyWs _ h i _ _ _ h1
    rw [GetClient_set_fullscreen]
    exact (mapperFind_ws _ h i _ h1).2
  · rw [ws_modifyWs _ i _ hws1]
    rfl

theorem Tracks_focus (s : State) (i : Nat) (h v : Window) (b : Bool) (ht : Tracks s i h b) :
    Tracks (s.modifyWs i (Workspace.SetFocusedClient v)) i h b := by
  obtain ⟨c, h1, h2, h3⟩ := ht
  obtain ⟨hws, hc⟩ := mapperFind_ws s h i c h1
  refine ⟨c, ?_, h2, ?_⟩
  · apply mapperFind_modifyWs s h i c _ _ h1
    rw [GetClient_SetFocusedClient]
    exact hc
  · rw [ws_modifyWs s i _ hws, is_fullscreen_SetFocusedClient]
    exact h3

theorem focused_after_SetFocusedClient (s : State) (i : Nat) (h : Window) (b : Bool)
    (ht : Tracks s i h b) :
    ((s.modifyWs i (Workspace.SetFocusedClient h)).ws i).focused = some h := by
  obtain ⟨c, h1, _, _⟩ := ht
  obtain ⟨hws, hc⟩ := mapperFind_ws s h i c h1
  rw [ws_modifyWs s i _ hws]
  exact focused_SetFocusedClient _ _ c hc

@[simp] theorem moveRequests_modifyWs (s : State) (i : Nat) (F : Workspace → Workspace)
    (w : Window) : (s.modifyWs i F).moveRequests w = s.moveRequests w := rfl

@[simp] theorem moveRequests_updateClient (s : State) (i : Nat) (v : Window)
    (f : Client → Client) (w : Window) :
    (updateClient s i v f).moveRequests w = s.moveRequests w := rfl

@[simp] theorem moveRequests_XMapWindow (s : State) (v w : Window) :
    (XMapWindow s v).moveRequests w = s.moveRequests w := by
  simp [State.moveRequests, XMapWindow, List.filterMap_append]

@[simp] theorem moveRequests_XUnmapWindow (s : State) (v w : Window) :
    (XUnmapWindow s v).moveRequests w = s.moveRequests w := by
  simp [State.moveRequests, XUnmapWindow, List.filterMap_append]

@[simp] theorem moveRequests_Unmap (s : State) (i : Nat) (v w : Window) :
    (Client.Unmap s i v).moveRequests w = s.moveRequests w := by
  simp [Client.Unmap]

@[simp] theorem moveRequests_Map (s : State) (v w : Window) :
    (Client.Map s v).moveRequests w = s.moveRequests w := by
  simp [Client.Map]

@[simp] theorem moveRequests_UnmapAllClients (s : State) (i : Nat) (w : Window) :
    (UnmapAllClients s i).moveRequests w = s.moveRequests w :=
  foldl_inv (fun t => t.moveRequests w) _
    (fun t (a : Client) => moveRequests_Unmap t i a.window w) _ s

@[simp] theorem moveRequests_SetNetWmStateFullscreen (s : State) (v w : Window) (b : Bool) :
    (s.log (Call.SetNetWmStateFullscreen v b)).moveRequests w = s.moveRequests w := by
  simp [State.moveRequests, State.log, List.filterMap_append]

theorem moveRequests_MoveResize (env : Env) (s : State) (c : Client) (a : Area) :
    (Client.MoveResize env s c a).moveRequests c.window = s.moveRequests c.window ++ [a] := by
  simp [State.moveRequests, Client.MoveResize, List.filterMap_append]

theorem requestedGeometry_MoveResize (env : Env) (s : State) (c : Client) (a : Area)
    (h : Window) (hw : c.window = h) :
    requestedGeometry (Client.MoveResize env s c a) h = some a := by
  subst hw
  simp [requestedGeometry, moveRequests_MoveResize]

theorem GetDisplayResolution_wm {s t : State} (h : t.wm = s.wm) :
    GetDisplayResolution t = GetDisplayResolution s :=
  congrArg (fun p => p.2.2.2.2.2.2.2) h

@[simp] theorem GetDisplayResolution_modifyWs (s : State) (i : Nat) (F : Workspace → Workspace) :
    GetDisplayResolution (s.modifyWs i F) = GetDisplayResolution s := rfl

@[simp] theorem GetDisplayResolution_updateClient (s : State) (i : Nat) (v : Window)
    (f : Client → Client) :
    GetDisplayResolution (updateClient s i v f) = GetDisplayResolution s := rfl

@[simp] theorem GetDisplayResolution_log (s : State) (c : Call) :
    GetDisplayResolution (s.log c) = GetDisplayResolution s := rfl

@[simp] theorem GetDisplayResolution_UnmapDocks (s : State) :
    GetDisplayResolution (UnmapDocks s) = GetDisplayResolution s :=
  GetDisplayResolution_wm (wm_UnmapDocks s)

theorem SetFullscreen_true_form (env : Env) (s : State) (h : Window) (i : Nat) (c : Client)
    (hm : mapperFind s h = some (i, c)) (hfs : c.fullscreen = false) :
    ∃ t, SetFullscreen env s h true =
        (t.modifyWs i (Workspace.SetFocusedClient h)).log (Call.SetNetWmStateFullscreen h true) ∧
      Tracks t i h true ∧
      requestedGeometry t h =
        some ⟨0, 0, (GetDisplayResolution s).1, (GetDisplayResolution s).2⟩ := by
  have hw := mapperFind_window s h i c hm
  apply Exists.intro
  refine ⟨?eq, ?tr, ?rq⟩
  case eq =>
    unfold SetFullscreen
    rw [hm]
    simp only [hfs, Bool.false_eq_true, if_false, if_true]
    rfl
  case tr =>
    apply Tracks_wm (wm_Map _ _)
    apply Tracks_UnmapAllClients
    apply Tracks_wm (wm_MoveResize _ _ _ _)
    refine Tracks_updateClient _ _ _ _ _ _ ?_ ?_ ?_
    · intro _; rfl
    · intro _; rfl
    apply Tracks_wm (wm_UnmapDocks _)
    apply Tracks_wm (wm_log _ _)
    exact Tracks_enter s i h c true hm
  case rq =>
    simp only [requestedGeometry, moveRequests_Map, moveRequests_UnmapAllClients]
    have := requestedGeometry_MoveResize env
    simp only [requestedGeometry] at this
    rw [this _ _ _ _ hw]
    simp

theorem SetFullscreen_false_form (env : Env) (s : State) (h : Window) (i : Nat) (c : Client)
    (hm : mapperFind s h = some (i, c)) (hfs : c.fullscreen = true) :
    ∃ t, SetFullscreen env s h false = t.log (Call.SetNetWmStateFullscreen h false) ∧
      Tracks t i h false := by
  apply Exists.intro
  refine ⟨?eq, ?tr⟩
  case eq =>
    unfold SetFullscreen
    rw [hm]
    simp only [hfs, Bool.true_eq_false, if_false]
    rfl
  case tr =>
    apply Tracks_wm (wm_ArrangeWindows _ _)
    apply Tracks_wm (wm_MoveResize _ _ _ _)
    apply Tracks_wm (wm_MapDocks _)
    apply Tracks_wm (wm_log _ _)
    exact Tracks_enter s i h c false hm

/-- After `SetFullscreen(h, b)` on a client whose flag differed from `b`, the
client is owned by the same workspace, its flag and the workspace flag are `b`,
and for `b = true` the last requested geometry is the display and the client
is focused. -/
theorem SetFullscreen_changed (env : Env) (s : State) (h : Window) (b : Bool) (i : Nat)
    (c : Client) (hm : mapperFind s h = some (i, c)) (hb : c.fullscreen ≠ b) :
    (∃ d, mapperFind (SetFullscreen env s h b) h = some (i, d) ∧ d.fullscreen = b) ∧
    ((SetFullscreen env s h b).ws i).is_fullscreen = b ∧
    (b = true →
      requestedGeometry (SetFullscreen env s h b) h =
        some ⟨0, 0, (GetDisplayResolution s).1, (GetDisplayResolution s).2⟩ ∧
      ((SetFullscreen env s h b).ws i).focused = some h) := by
  cases b with
  | true =>
    have hfs : c.fullscreen = false := by simpa using hb
    obtain ⟨t, he, hT, hr⟩ := SetFullscreen_true_form env s h i c hm hfs
    rw [he]
    obtain ⟨d, h1, h2, h3⟩ := Tracks_wm (wm_log _ (Call.SetNetWmStateFullscreen h true)) i h true
      (Tracks_focus t i h h true hT)
    refine ⟨⟨d, h1, h2⟩, h3, fun _ => ⟨?_, ?_⟩⟩
    · simpa [requestedGeometry] using hr
    · rw [ws_wm (wm_log _ _)]
      exact focused_after_SetFocusedClient t i h true hT
  | false =>
    have hfs : c.fullscreen = true := by simpa using hb
    obtain ⟨t, he, hT⟩ := SetFullscreen_false_form env s h i c hm hfs
    rw [he]
    obtain ⟨d, h1, h2, h3⟩ := Tracks_wm (wm_log _ (Call.SetNetWmStateFullscreen h false)) i h
      false hT
    exact ⟨⟨d, h1, h2⟩, h3, fun hh => absurd hh (by simp)⟩

/-- C9: `SetFullscreen(h, b)` leaves the state unchanged for an untracked handle and
for a client whose fullscreen flag already equals `b`; otherwise the client is
still owned by the same workspace, its flag and the flag of that workspace equal
`b`, and for `b = true` the geometry last requested for it is the whole display
`(0, 0, W, H)` and it is the focused client of its workspace. -/
theorem SetFullscreen_spec (env : Env) (s : State) (h : Window) (b : Bool) :
    (mapperFind s h = none → SetFullscreen env s h b = s) ∧
    (∀ i c, mapperFind s h = some (i, c) → c.fullscreen = b → SetFullscreen env s h b = s) ∧
    (∀ i c, mapperFind s h = some (i, c) → c.fullscreen ≠ b →
      (∃ d, mapperFind (SetFullscreen env s h b) h = some (i, d) ∧ d.fullscreen = b) ∧
      ((SetFullscreen env s h b).ws i).is_fullscreen = b ∧
      (b = true →
        requestedGeometry (SetFullscreen env s h b) h =
          some ⟨0, 0, (GetDisplayResolution s).1, (GetDisplayResolution s).2⟩ ∧
        ((SetFullscreen env s h b).ws i).focused = some h)) := by
  refine ⟨?_, ?_, ?_⟩
  · intro hm
    unfold SetFullscreen
    rw [hm]
  · intro i c hm hb
    unfold SetFullscreen
    rw [hm]
    simp only [hb, if_true]
  · intro i c hm hb
    exact SetFullscreen_changed env s h b i c hm hb

theorem map_modify {α β : Type} (g : α → β) (f : α → α) (f' : β → β)
    (h : ∀ x, g (f x) = f' (g x)) (l : List α) (i : Nat) :
    (l.modify f i).map g = (l.map g).modify f' i := by
  induction l generalizing i with
  | nil => simp
  | cons a l ih =>
    cases i with
    | zero => simp [h]
    | succ i => simp [ih]

theorem forall_mem_modify {α : Type} (P : α → Prop) (f : α → α) (l : List α) (i : Nat)
    (hl : ∀ x, x ∈ l → P x) (hf : ∀ x, l[i]? = some x → P (f x)) :
    ∀ y, y ∈ l.modify f i → P y := by
  intro y hy
  obtain ⟨j, hj⟩ := List.mem_iff_getElem?.1 hy
  rw [List.getElem?_modify] at hj
  by_cases hij : i = j
  · subst hij
    cases hx : l[i]? with
    | none => rw [hx] at hj; simp at hj
    | some x =>
      rw [hx] at hj
      simp only [if_true, Option.map_eq_map, Option.map_some', Option.some.injEq] at hj
      rw [← hj]
      exact hf x hx
  · cases hx : l[j]? with
    | none => rw [hx] at hj; simp at hj
    | some x =>
      rw [hx] at hj
      simp only [hij, if_false, Option.map_eq_map, Option.map_some', Option.some.injEq] at hj
      rw [← hj]
      exact hl x (List.mem_iff_getElem?.2 ⟨j, hx⟩)

theorem fsView_wm {s t : State} (h : t.wm = s.wm) : t.fsView = s.fsView := by
  simp only [State.fsView, wm_workspaces h]

theorem fsView_modifyWs (s : State) (i : Nat) (F : Workspace → Workspace)
    (F' : List (Window × Bool) × Bool → List (Window × Bool) × Bool)
    (h : ∀ ws, (F ws).view = F' ws.view) :
    (s.modifyWs i F).fsView = s.fsView.modify F' i :=
  map_modify Workspace.view F F' h s.workspaces i

theorem fsView_modifyWs_keep (s : State) (i : Nat) (F : Workspace → Workspace)
    (h : ∀ ws, (F ws).view = ws.view) : (s.modifyWs i F).fsView = s.fsView := by
  rw [fsView_modifyWs s i F id h, List.modify_id]

theorem fsView_modifyWsI_keep (s : State) (i : Int) (F : Workspace → Workspace)
    (h : ∀ ws, (F ws).view = ws.view) : (s.modifyWsI i F).fsView = s.fsView := by
  unfold State.modifyWsI
  split
  · rfl
  · exact fsView_modifyWs_keep s _ F h

theorem view_update_keep (v : Window) (f : Client → Client)
    (hw : ∀ c, (f c).window = c.window) (hfs : ∀ c, (f c).fullscreen = c.fullscreen)
    (ws : Workspace) : (Workspace.update v f ws).view = ws.view := by
  simp only [Workspace.view, Workspace.update, List.map_map, Prod.mk.injEq, and_true]
  apply List.map_congr_left
  intro c _
  simp only [Function.comp, Client.key]
  split <;> simp [hw, hfs]

theorem view_SetFocusedClient (v : Window) (ws : Workspace) :
    (Workspace.SetFocusedClient v ws).view = ws.view := by
  unfold Workspace.SetFocusedClient
  split <;> rfl

theorem view_UnsetFocusedClient (ws : Workspace) :
    (Workspace.UnsetFocusedClient ws).view = ws.view := rfl

theorem fsView_updateClient_keep (s : State) (i : Nat) (v : Window) (f : Client → Client)
    (hw : ∀ c, (f c).window = c.window) (hfs : ∀ c, (f c).fullscreen = c.fullscreen) :
    (updateClient s i v f).fsView = s.fsView :=
  fsView_modifyWs_keep s i _ (view_update_keep v f hw hfs)

theorem fsView_Unmap (s : State) (i : Nat) (v : Window) :
    (Client.Unmap s i v).fsView = s.fsView := by
  unfold Client.Unmap
  rw [fsView_wm (wm_XUnmapWindow _ _)]
  exact fsView_updateClient_keep s i v _ (fun _ => rfl) (fun _ => rfl)

theorem fsView_UnmapAllClients (s : State) (i : Nat) :
    (UnmapAllClients s i).fsView = s.fsView :=
  foldl_inv State.fsView _ (fun t (a : Client) => fsView_Unmap t i a.window) _ s

theorem view_enter (h : Window) (b : Bool) (ws : Workspace) :
    (Workspace.set_fullscreen b
      (Workspace.update h (fun d => { d with fullscreen := b }) ws)).view =
      viewSet h b ws.view := by
  simp only [Workspace.view, Workspace.update, Workspace.set_fullscreen, viewSet, List.map_map,
    Prod.mk.injEq, and_true]
  apply List.map_congr_left
  intro c _
  simp only [Function.comp, Client.key]
  split <;> rfl

theorem fsView_enter (s : State) (i : Nat) (h : Window) (b : Bool) :
    ((updateClient s i h (fun d => { d with fullscreen := b })).modifyWs i
      (Workspace.set_fullscreen b)).fsView = s.fsView.modify (viewSet h b) i := by
  unfold updateClient State.modifyWs
  simp only [List.modify_modify_eq]
  exact map_modify Workspace.view _ _ (view_enter h b) s.workspaces i

theorem ViewOk_viewSet_true (h : Window) (keys : List (Window × Bool))
    (hv : ViewOk (keys, false)) : ViewOk (viewSet h true (keys, false)) := by
  obtain ⟨hn, hf, _⟩ := hv
  refine ⟨?_, ?_, ?_⟩
  · have e : (List.map (fun k : Window × Bool => if k.1 = h then (k.1, true) else k) keys).map
        Prod.fst = keys.map Prod.fst := by
      rw [List.map_map]
      apply List.map_congr_left
      intro k _
      simp only [Function.comp]
      split <;> rfl
    simp only [viewSet]
    rw [e]
    exact hn
  · intro hb
    simp [viewSet] at hb
  · intro k k' hk hk' hk2 hk'2
    simp only [viewSet, List.mem_map] at hk hk'
    obtain ⟨a, ha, rfl⟩ := hk
    obtain ⟨a', ha', rfl⟩ := hk'
    have h1 := hf rfl a ha
    have h2 := hf rfl a' ha'
    by_cases e : a.1 = h
    · by_cases e' : a'.1 = h
      · simp [e, e']
      · simp [e', h2] at hk'2
    · simp [e, h1] at hk2

theorem ViewOk_viewSet_false (h : Window) (keys : List (Window × Bool)) (flag : Bool)
    (hv : ViewOk (keys, flag)) (hm : (h, true) ∈ keys) :
    ViewOk (viewSet h false (keys, flag)) := by
  obtain ⟨hn, _, hp⟩ := hv
  have hall : ∀ k, k ∈ List.map (fun k : Window × Bool => if k.1 = h then (k.1, false) else k)
      keys → k.2 = false := by
    intro k hk
    simp only [List.mem_map] at hk
    obtain ⟨a, ha, rfl⟩ := hk
    by_cases e : a.1 = h
    · simp [e]
    · simp only [e, if_false]
      cases hb : a.2 with
      | false => rfl
      | true => exact absurd (hp a (h, true) ha hm hb rfl) e
  refine ⟨?_, ?_, ?_⟩
  · have e : (List.map (fun k : Window × Bool => if k.1 = h then (k.1, false) else k) keys).map
        Prod.fst = keys.map Prod.fst := by
      rw [List.map_map]
      apply List.map_congr_left
      intro k _
      simp only [Function.comp]
      split <;> rfl
    simp only [viewSet]
    rw [e]
    exact hn
  · intro _ k hk
    exact hall k hk
  · intro k k' hk _ hk2 _
    have := hall k hk
    rw [this] at hk2
    exact absurd hk2 (by simp)

/-! ### SetFullscreen keeps the workspaces consistent -/

theorem GetClient_mem (ws : Workspace) (h : Window) (c : Client)
    (hc : ws.GetClient h = some c) : (h, c.fullscreen) ∈ ws.view.1 := by
  have hm : c ∈ ws.clients := List.mem_of_find?_eq_some hc
  have hw := GetClient_window ws h c hc
  simp only [Workspace.view, List.mem_map]
  exact ⟨c, hm, by simp [Client.key, hw]⟩

theorem GetClient_none_iff (ws : Workspace) (h : Window) :
    ws.GetClient h = none ↔ h ∉ ws.view.1.map Prod.fst := by
  simp only [Workspace.GetClient, List.find?_eq_none, Workspace.view, List.map_map, List.mem_map,
    Function.comp, Client.key, beq_iff_eq]
  constructor
  · rintro hne ⟨c, hc, rfl⟩
    exact hne c hc rfl
  · intro hne c hc e
    exact hne ⟨c, hc, e⟩

theorem fsView_getElem? (s : State) (i : Nat) (h : s.workspaces[i]? = some (s.ws i)) :
    s.fsView[i]? = some (s.ws i).view := by
  simp [State.fsView, h]

theorem mapperFind_view (s : State) (h : Window) (i : Nat) (c : Client)
    (hm : mapperFind s h = some (i, c)) :
    s.fsView[i]? = some (s.ws i).view ∧ (h, c.fullscreen) ∈ (s.ws i).view.1 := by
  obtain ⟨hws, hc⟩ := mapperFind_ws s h i c hm
  exact ⟨fsView_getElem? s i hws, GetClient_mem _ h c hc⟩

theorem fsView_set_attr_cache (s : State) (i : Nat) (v : Window) (a : Area) :
    (updateClient s i v (fun d => { d with attr_cache := a })).fsView = s.fsView :=
  fsView_updateClient_keep s i v _ (fun _ => rfl) (fun _ => rfl)

theorem fsView_set_floating (s : State) (i : Nat) (v : Window) (b : Bool) :
    (updateClient s i v (fun d => { d with floating := b })).fsView = s.fsView :=
  fsView_updateClient_keep s i v _ (fun _ => rfl) (fun _ => rfl)

theorem fsView_SetFullscreen (env : Env) (s : State) (h : Window) (b : Bool) (i : Nat)
    (c : Client) (hm : mapperFind s h = some (i, c)) (hb : c.fullscreen ≠ b) :
    (SetFullscreen env s h b).fsView = s.fsView.modify (viewSet h b) i := by
  cases b with
  | true =>
    have hfs : c.fullscreen = false := by simpa using hb
    unfold SetFullscreen
    rw [hm]
    simp only [hfs, Bool.false_eq_true, if_false, if_true]
    rw [fsView_wm (wm_log _ _), fsView_modifyWs_keep _ _ _ (view_SetFocusedClient h),
      fsView_wm (wm_Map _ _), fsView_UnmapAllClients, fsView_wm (wm_MoveResize _ _ _ _),
      fsView_set_attr_cache,
      fsView_wm (wm_UnmapDocks _), fsView_wm (wm_log _ _), fsView_enter]
  | false =>
    have hfs : c.fullscreen = true := by simpa using hb
    unfold SetFullscreen
    rw [hm]
    simp only [hfs, Bool.true_eq_false, Bool.false_eq_true, if_false]
    rw [fsView_wm (wm_log _ _), fsView_wm (wm_ArrangeWindows _ _),
      fsView_wm (wm_MoveResize _ _ _ _), fsView_wm (wm_MapDocks _), fsView_wm (wm_log _ _),
      fsView_enter]

/-- `SetFullscreen` keeps the workspaces consistent, provided fullscreen is not
switched on for a client of a workspace whose flag is already set. -/
theorem Consistent_SetFullscreen (env : Env) (s : State) (h : Window) (b : Bool)
    (hc : s.Consistent)
    (hg : b = true → ∀ i c, mapperFind s h = some (i, c) → c.fullscreen = false →
      (s.ws i).is_fullscreen = false) :
    (SetFullscreen env s h b).Consistent := by
  cases hm : mapperFind s h with
  | none =>
    have : SetFullscreen env s h b = s := by unfold SetFullscreen; rw [hm]
    rw [this]; exact hc
  | some p =>
    obtain ⟨i, c⟩ := p
    by_cases hb : c.fullscreen = b
    · have : SetFullscreen env s h b = s := by
        unfold SetFullscreen; rw [hm]; simp only [hb, if_true]
      rw [this]; exact hc
    · unfold State.Consistent
      rw [fsView_SetFullscreen env s h b i c hm hb]
      apply forall_mem_modify ViewOk _ _ _ hc
      intro v hv
      obtain ⟨hvi, hmem⟩ := mapperFind_view s h i c hm
      rw [hvi] at hv
      simp only [Option.some.injEq] at hv
      subst hv
      have hok : ViewOk (s.ws i).view := hc _ (List.mem_iff_getElem?.2 ⟨i, hvi⟩)
      cases b with
      | true =>
        have hfs : c.fullscreen = false := by simpa using hb
        have hflag := hg rfl i c hm hfs
        have e : (s.ws i).view = ((s.ws i).view.1, false) := by
          rw [← hflag]; rfl
        rw [e]
        apply ViewOk_viewSet_true
        rw [← e]; exact hok
      | false =>
        have hfs : c.fullscreen = true := by simpa using hb
        rw [hfs] at hmem
        exact ViewOk_viewSet_false h _ _ hok hmem

theorem length_le_one_of_const {α : Type} (l : List α) (hn : l.Nodup)
    (hc : ∀ a b, a ∈ l → b ∈ l → a = b) : l.length ≤ 1 := by
  match l, hn, hc with
  | [], _, _ => simp
  | [_], _, _ => simp
  | a :: b :: rest, hn, hc =>
    have hab : a = b := hc a b (by simp) (by simp)
    subst hab
    simp at hn

/-- A consistent workspace holds at most one client whose fullscreen flag is set. -/
theorem ViewOk_count (ws : Workspace) (h : ViewOk ws.view) :
    (ws.clients.filter (fun c => c.fullscreen)).length ≤ 1 := by
  obtain ⟨hn, _, hp⟩ := h
  have hlen : (ws.clients.filter (fun c => c.fullscreen)).length =
      ((ws.clients.filter (fun c => c.fullscreen)).map (fun c => c.window)).length := by simp
  rw [hlen]
  apply length_le_one_of_const
  · have hsub : ((ws.clients.filter (fun c => c.fullscreen)).map (fun c => c.window)).Sublist
        (ws.view.1.map Prod.fst) := by
      simp only [Workspace.view, List.map_map]
      exact List.Sublist.map _ (List.filter_sublist _)
    exact hn.sublist hsub
  · intro a b ha hb
    simp only [List.mem_map, List.mem_filter] at ha hb
    obtain ⟨c, ⟨hc, hcf⟩, rfl⟩ := ha
    obtain ⟨d, ⟨hd, hdf⟩, rfl⟩ := hb
    exact hp c.key d.key (List.mem_map.2 ⟨c, hc, rfl⟩) (List.mem_map.2 ⟨d, hd, rfl⟩) hcf hdf

/-! ### Unmanage keeps the workspaces consistent -/

theorem Consistent_iff (s : State) :
    s.Consistent ↔ ∀ ws, ws ∈ s.workspaces → ViewOk ws.view := by
  simp only [State.Consistent, State.fsView, List.mem_map]
  constructor
  · intro h ws hws
    exact h _ ⟨ws, hws, rfl⟩
  · rintro h v ⟨ws, hws, rfl⟩
    exact h ws hws

theorem Consistent_of_fsView {s t : State} (h : t.fsView = s.fsView) (hc : s.Consistent) :
    t.Consistent := by
  unfold State.Consistent
  rw [h]
  exact hc

theorem fsView_SetFloating (env : Env) (s : State) (w : Window) (f u : Bool) :
    (SetFloating env s w f u).fsView = s.fsView := by
  unfold SetFloating
  cases hm : mapperFind s w with
  | none => rfl
  | some p =>
    obtain ⟨i, c⟩ := p
    simp only
    split
    · rfl
    · rw [fsView_wm (wm_ArrangeWindows _ _), fsView_set_floating]
      split
      · exact fsView_wm (wm_MoveResize _ _ _ _)
      · rfl

theorem ViewOk_filter (keys : List (Window × Bool)) (flag flag' : Bool) (w : Window)
    (hv : ViewOk (keys, flag))
    (h : flag' = false → flag = false ∨ ∃ k, k ∈ keys ∧ k.1 = w ∧ k.2 = true) :
    ViewOk (keys.filter (fun k => k.1 != w), flag') := by
  obtain ⟨hn, hf, hp⟩ := hv
  refine ⟨?_, ?_, ?_⟩
  · exact hn.sublist (List.Sublist.map _ (List.filter_sublist _))
  · intro hfl k hk
    simp only [List.mem_filter, bne_iff_ne, ne_eq] at hk
    rcases h hfl with h0 | ⟨k0, hk0, hw0, hb0⟩
    · exact hf h0 k hk.1
    · cases hb : k.2 with
      | false => rfl
      | true =>
        have := hp k k0 hk.1 hk0 hb hb0
        rw [hw0] at this
        exact absurd this hk.2
  · intro k k' hk hk' hb hb'
    simp only [List.mem_filter] at hk hk'
    exact hp k k' hk.1 hk'.1 hb hb'

theorem view_Remove (w : Window) (ws : Workspace) (c : Client) (hc : ws.GetClient w = some c) :
    (Workspace.Remove w ws).view =
      (ws.view.1.filter (fun k => k.1 != w), if c.fullscreen then false else ws.is_fullscreen) := by
  unfold Workspace.Remove
  rw [hc]
  simp only [Workspace.view, List.filter_map, Prod.mk.injEq, and_true]
  rfl

/-- `Unmanage` keeps the workspaces consistent. -/
theorem Consistent_Unmanage (env : Env) (s : State) (w : Window) (hc : s.Consistent) :
    (Unmanage env s w).Consistent := by
  unfold Unmanage
  cases hm : mapperFind s w with
  | none => exact hc
  | some p =>
    obtain ⟨i, c⟩ := p
    simp only
    apply Consistent_of_fsView (fsView_wm (wm_ArrangeWindows _ _))
    apply Consistent_of_fsView (fsView_wm (wm_log _ _))
    obtain ⟨hws, hg⟩ := mapperFind_ws s w i c hm
    have hmem := GetClient_mem _ w c hg
    have hok : ViewOk (s.ws i).view := (Consistent_iff s).1 hc _ (List.mem_iff_getElem?.2 ⟨i, hws⟩)
    rw [Consistent_iff]
    by_cases hfs : c.fullscreen = true
    · simp only [hfs, if_true, State.modifyWs, List.modify_modify_eq]
      apply forall_mem_modify _ _ _ _ ((Consistent_iff s).1 hc)
      intro x hx
      rw [hws] at hx
      simp only [Option.some.injEq] at hx
      subst hx
      have hg' : (Workspace.set_fullscreen false (s.ws i)).GetClient w = some c := hg
      simp only [Function.comp]
      rw [view_Remove w _ c hg']
      apply ViewOk_filter _ (s.ws i).view.2 _ w hok
      intro _
      exact Or.inr ⟨(w, c.fullscreen), hmem, rfl, hfs⟩
    · simp only [hfs, if_false, State.modifyWs]
      apply forall_mem_modify _ _ _ _ ((Consistent_iff s).1 hc)
      intro x hx
      rw [hws] at hx
      simp only [Option.some.injEq] at hx
      subst hx
      rw [view_Remove w _ c hg]
      apply ViewOk_filter _ (s.ws i).view.2 _ w hok
      intro hfl
      simp only [hfs, if_false] at hfl
      exact Or.inl hfl

/-! ### Manage keeps the workspaces consistent -/

theorem view_Add (env : Env) (w : Window) (ws : Workspace) :
    (Workspace.Add env w ws).view = viewAdd w ws.view := by
  simp [Workspace.view, Workspace.Add, viewAdd, Client.key, Client.new]

theorem fsView_modifyWsI (s : State) (i : Int) (F : Workspace → Workspace)
    (F' : List (Window × Bool) × Bool → List (Window × Bool) × Bool)
    (h : ∀ ws, (F ws).view = F' ws.view) :
    (s.modifyWsI i F).fsView = if i < 0 then s.fsView else s.fsView.modify F' i.toNat := by
  unfold State.modifyWsI
  split
  · rfl
  · exact fsView_modifyWs s _ F F' h

theorem fsView_set_mapped_I (s : State) (i : Int) (v : Window) (b : Bool) :
    (s.modifyWsI i (Workspace.update v (fun d => { d with mapped := b }))).fsView = s.fsView :=
  fsView_modifyWsI_keep s i _ (view_update_keep v _ (fun _ => rfl) (fun _ => rfl))

theorem fsView_set_floating_I (s : State) (i : Int) (v : Window) (b : Bool) :
    (s.modifyWsI i (Workspace.update v (fun d => { d with floating := b }))).fsView = s.fsView :=
  fsView_modifyWsI_keep s i _ (view_update_keep v _ (fun _ => rfl) (fun _ => rfl))

theorem fsView_manageAdd (env : Env) (s : State) (w : Window) (T : Int) :
    (manageAdd env s w T).fsView =
      if T < 0 then s.fsView else s.fsView.modify (viewAdd w) T.toNat := by
  unfold manageAdd
  simp only
  rw [fsView_set_floating_I, fsView_set_mapped_I]
  unfold UpdateClientList
  rw [fsView_wm (wm_log _ _), fsView_modifyWsI _ _ _ _ (view_Add env w),
    fsView_modifyWsI_keep _ _ _ view_UnsetFocusedClient]

theorem fsView_manageRefocus (s t : State) (T : Int) (p : Option Client)
    (h : manageRefocus s T p = some t) : t.fsView = s.fsView := by
  unfold manageRefocus at h
  split at h
  · split at h
    · simp only [Option.some.injEq] at h
      rw [← h]
      exact fsView_modifyWsI_keep _ _ _ (view_SetFocusedClient _)
    · simp at h
  · simp only [Option.some.injEq] at h
    rw [h]

theorem Manage_tracked (env : Env) (s : State) (w : Window)
    (h : (mapperFind s w).isSome = true) : Manage env s w = some s := by
  cases hm : mapperFind s w with
  | none => rw [hm] at h; simp at h
  | some p => unfold Manage; rw [hm]

/-- The result of `Manage` on an untracked window, when there is one. -/
theorem Manage_untracked (env : Env) (s t : State) (w : Window) (hm : mapperFind s w = none)
    (h : Manage env s w = some t) :
    ∃ s6, manageRefocus (manageAdd env s w (spawnTarget env s w)) (spawnTarget env s w)
        (s.wsI (spawnTarget env s w)).GetFocusedClient = some s6 ∧
      t = manageFinish env s6 w (spawnTarget env s w) := by
  unfold Manage at h
  rw [hm] at h
  simp only at h
  cases hr : manageRefocus (manageAdd env s w (spawnTarget env s w)) (spawnTarget env s w)
      (s.wsI (spawnTarget env s w)).GetFocusedClient with
  | none => rw [hr] at h; simp at h
  | some s6 =>
    rw [hr] at h
    simp only [Option.some.injEq] at h
    exact ⟨s6, rfl, h.symm⟩

theorem fsView_ite_ArrangeWindows (env : Env) (p : Prop) [Decidable p] (t : State) :
    (if p then ArrangeWindows env t else t).fsView = t.fsView := by
  split
  · exact fsView_wm (wm_ArrangeWindows _ _)
  · rfl

theorem fsView_ite_SetFloating (env : Env) (p : Prop) [Decidable p] (t : State) (w : Window)
    (f u : Bool) : (if p then SetFloating env t w f u else t).fsView = t.fsView := by
  split
  · exact fsView_SetFloating _ _ _ _ _
  · rfl

theorem Manage_form (env : Env) (s s1 : State) (w : Window) (hm : mapperFind s w = none)
    (hM : Manage env s w = some s1) :
    ∃ t, s1.fsView =
        (if shouldFullscreen env w then SetFullscreen env t w true else t).fsView ∧
      t.fsView = if spawnTarget env s w < 0 then s.fsView
        else s.fsView.modify (viewAdd w) (spawnTarget env s w).toNat := by
  obtain ⟨s6, hr, hf⟩ := Manage_untracked env s s1 w hm hM
  rw [hf]
  apply Exists.intro
  refine ⟨?a, ?b⟩
  case a =>
    unfold manageFinish
    simp only
    rw [fsView_ite_ArrangeWindows]
  case b =>
    rw [fsView_ite_SetFloating, fsView_manageRefocus _ _ _ _ hr, fsView_manageAdd]

theorem ViewOk_viewAdd (w : Window) (v : List (Window × Bool) × Bool) (hv : ViewOk v)
    (hw : w ∉ v.1.map Prod.fst) : ViewOk (viewAdd w v) := by
  obtain ⟨hn, hf, hp⟩ := hv
  refine ⟨?_, ?_, ?_⟩
  · simp only [viewAdd, List.map_append, List.map_cons, List.map_nil]
    rw [List.nodup_append]
    refine ⟨hn, by simp, ?_⟩
    intro a ha hb
    simp only [List.mem_singleton] at hb
    subst hb
    exact hw ha
  · intro hfl k hk
    simp only [viewAdd, List.mem_append, List.mem_singleton] at hk
    rcases hk with hk | hk
    · exact hf hfl k hk
    · rw [hk]
  · intro k k' hk hk' hb hb'
    simp only [viewAdd, List.mem_append, List.mem_singleton] at hk hk'
    rcases hk with hk | hk
    · rcases hk' with hk' | hk'
      · exact hp k k' hk hk' hb hb'
      · rw [hk'] at hb'; exact absurd hb' (by simp)
    · rw [hk] at hb; exact absurd hb (by simp)

theorem not_mem_of_mapperFind_none (s : State) (w : Window) (hm : mapperFind s w = none)
    (i : Nat) (v : List (Window × Bool) × Bool) (hv : s.fsView[i]? = some v) :
    w ∉ v.1.map Prod.fst := by
  simp only [State.fsView, List.getElem?_map, Option.map_eq_some'] at hv
  obtain ⟨ws, hws, rfl⟩ := hv
  rw [← GetClient_none_iff]
  exact (mapperFind_none_iff s w).1 hm ws (List.mem_iff_getElem?.2 ⟨i, hws⟩)

/-- `Manage` keeps the workspaces consistent, provided a window whose rules or
hints ask for fullscreen is not spawned in a workspace whose flag is already set. -/
theorem Consistent_Manage (env : Env) (s s1 : State) (w : Window) (hc : s.Consistent)
    (hg : shouldFullscreen env w = true → mapperFind s w = none →
      (s.wsI (spawnTarget env s w)).is_fullscreen = false)
    (hs1 : Manage env s w = some s1) :
    s1.Consistent := by
  cases hm : mapperFind s w with
  | some p =>
    have : Manage env s w = some s := Manage_tracked env s w (by rw [hm]; rfl)
    rw [this] at hs1
    simp only [Option.some.injEq] at hs1
    rw [← hs1]; exact hc
  | none =>
    obtain ⟨t, hM, ht⟩ := Manage_form env s s1 w hm hs1
    apply Consistent_of_fsView hM
    have hct : t.Consistent := by
      unfold State.Consistent
      rw [ht]
      split
      · exact hc
      · apply forall_mem_modify ViewOk _ _ _ hc
        intro v hv
        exact ViewOk_viewAdd w v (hc v (List.mem_iff_getElem?.2 ⟨_, hv⟩))
          (not_mem_of_mapperFind_none s w hm _ v hv)
    by_cases hsf : shouldFullscreen env w = true
    · rw [if_pos hsf]
      apply Consistent_SetFullscreen env t w true hct
      intro _ i c hmt _
      obtain ⟨hvi, hmem⟩ := mapperFind_view t w i c hmt
      have hmemw : w ∈ (t.ws i).view.1.map Prod.fst := List.mem_map.2 ⟨_, hmem, rfl⟩
      rw [ht] at hvi
      by_cases hT : spawnTarget env s w < 0
      · rw [if_pos hT] at hvi
        exact absurd hmemw (not_mem_of_mapperFind_none s w hm i _ hvi)
      · rw [if_neg hT] at hvi
        by_cases hi : (spawnTarget env s w).toNat = i
        · rw [hi, List.getElem?_modify_eq] at hvi
          cases hsv : s.fsView[i]? with
          | none => rw [hsv] at hvi; simp at hvi
          | some v0 =>
            rw [hsv] at hvi
            simp only [Option.map_eq_map, Option.map_some', Option.some.injEq] at hvi
            have hflag : (t.ws i).is_fullscreen = v0.2 := by
              have := congrArg Prod.snd hvi
              simp only [viewAdd] at this
              exact this.symm
            rw [hflag]
            have hg' := hg hsf hm
            simp only [State.wsI, hT, if_false, hi] at hg'
            simp only [State.fsView, List.getElem?_map, Option.map_eq_some'] at hsv
            obtain ⟨ws, hws, rfl⟩ := hsv
            have : s.ws i = ws := by simp [State.ws, hws]
            rw [this] at hg'
            exact hg'
        · rw [List.getElem?_modify_ne _ _ hi] at hvi
          exact absurd hmemw (not_mem_of_mapperFind_none s w hm i _ hvi)
    · rw [if_neg hsf]
      exact hct

/-! ### At most one fullscreen client per workspace -/

theorem Consistent_init (n : Nat) (res : Int × Int) : (State.init n res).Consistent := by
  intro v hv
  simp only [State.fsView, State.init, List.mem_map, List.mem_replicate] at hv
  obtain ⟨ws, ⟨_, rfl⟩, rfl⟩ := hv
  refine ⟨by simp [Workspace.view, Workspace.empty], ?_, ?_⟩
  · intro _ k hk
    simp [Workspace.view, Workspace.empty] at hk
  · intro k k' hk
    simp [Workspace.view, Workspace.empty] at hk

theorem Consistent_of_exclusive (env : Env) (n : Nat) (res : Int × Int) (s : State)
    (h : CallReachableExclusive env n res s) : s.Consistent := by
  induction h with
  | init => exact Consistent_init n res
  | step s t op _ hx ha ih =>
    cases op with
    | Manage w =>
      refine Consistent_Manage env s t w ih ?_ ha
      intro hsf hm
      simp only [Op.exclusive, hsf, hm, Bool.not_true, Option.isSome_none, Bool.or_self,
        Bool.false_or, Bool.not_eq_true'] at hx
      exact hx
    | Unmanage w =>
      simp only [Op.apply, Option.some.injEq] at ha
      rw [← ha]
      exact Consistent_Unmanage env s w ih
    | SetFullscreen w b =>
      simp only [Op.apply, Option.some.injEq] at ha
      rw [← ha]
      apply Consistent_SetFullscreen env s w b ih
      intro hb i c hm hfs
      simp only [Op.exclusive, hb, hm, hfs, Bool.not_true, Bool.false_or,
        Bool.not_eq_true'] at hx
      exact hx

theorem CallReachable_runOps (env : Env) (n : Nat) (res : Int × Int) (ops : List Op)
    (s t : State) (h : CallReachable env n res s) (hr : runOps env s ops = some t) :
    CallReachable env n res t := by
  induction ops generalizing s with
  | nil =>
    simp only [runOps, Option.some.injEq] at hr
    rw [← hr]; exact h
  | cons op ops ih =>
    unfold runOps at hr
    cases ha : op.apply env s with
    | none => rw [ha] at hr; simp at hr
    | some u =>
      rw [ha] at hr
      exact ih u (CallReachable.step s u op h ha) hr

theorem CallReachableExclusive_runOps (env : Env) (n : Nat) (res : Int × Int) (ops : List Op)
    (s t : State) (h : CallReachableExclusive env n res s)
    (hx : Op.exclusiveAll env s ops = true) (hr : runOps env s ops = some t) :
    CallReachableExclusive env n res t := by
  induction ops generalizing s with
  | nil =>
    simp only [runOps, Option.some.injEq] at hr
    rw [← hr]; exact h
  | cons op ops ih =>
    unfold runOps at hr
    unfold Op.exclusiveAll at hx
    cases ha : op.apply env s with
    | none => rw [ha] at hr; simp at hr
    | some u =>
      rw [ha] at hr hx
      simp only [Bool.and_eq_true] at hx
      exact ih u (CallReachableExclusive.step s u op h hx.1 ha) hx.2 hr

/-- C1, counterexample: the calls Manage(1), Manage(2), SetFullscreen(1, true),
SetFullscreen(2, true) all have a result, the state after them is reachable
from the initial state, and workspace 0 then contains two clients whose
fullscreen flag is set. -/
theorem two_fullscreen_clients_reachable :
    ∃ t, runOps envPlain stateInit [Op.Manage 1, Op.Manage 2, Op.SetFullscreen 1 true,
        Op.SetFullscreen 2 true] = some t ∧
      CallReachable envPlain 3 (1000, 800) t ∧
      (((t.ws 0).clients.filter (fun c => c.fullscreen)).length = 2) :=
  ⟨(runOps envPlain stateInit [Op.Manage 1, Op.Manage 2, Op.SetFullscreen 1 true,
      Op.SetFullscreen 2 true]).get (by decide),
    (Option.some_get _).symm,
    CallReachable_runOps envPlain 3 (1000, 800) _ _ _ CallReachable.init (Option.some_get _).symm,
    by decide⟩

/-- C1, amended: in every state reachable from the initial state by Manage,
Unmanage and SetFullscreen calls none of which switches fullscreen on in a
workspace whose fullscreen flag is already set, every workspace contains at most
one client whose fullscreen flag is set. -/
theorem at_most_one_fullscreen (env : Env) (n : Nat) (res : Int × Int) (s : State)
    (h : CallReachableExclusive env n res s) :
    ∀ ws, ws ∈ s.workspaces → (ws.clients.filter (fun c => c.fullscreen)).length ≤ 1 := by
  intro ws hws
  exact ViewOk_count ws ((Consistent_iff s).1 (Consistent_of_exclusive env n res s h) ws hws)

/-- C1, witness: the amended invariant at the state after Manage(1), Manage(2),
SetFullscreen(1, true). -/
theorem at_most_one_fullscreen_witness :
    ∃ t, runOps envPlain stateInit [Op.Manage 1, Op.Manage 2, Op.SetFullscreen 1 true] = some t ∧
      CallReachableExclusive envPlain 3 (1000, 800) t ∧
      ∀ ws, ws ∈ t.workspaces → (ws.clients.filter (fun c => c.fullscreen)).length ≤ 1 :=
  have hr : CallReachableExclusive envPlain 3 (1000, 800)
      ((runOps envPlain stateInit
        [Op.Manage 1, Op.Manage 2, Op.SetFullscreen 1 true]).get (by decide)) :=
    CallReachableExclusive_runOps envPlain 3 (1000, 800) _ _ _ CallReachableExclusive.init
      (by decide) (Option.some_get _).symm
  ⟨_, (Option.some_get _).symm, hr, at_most_one_fullscreen envPlain 3 (1000, 800) _ hr⟩

/-! ### Event handlers, workspace switch, tiling area and floating geometry -/

/-- C2, failing input: after two map-requests for window 9, which is detected as a
dock, the handle is in the dock set and also a managed client of workspace 0;
after a map-request and a map-notify for window 8, which is detected as a
notification, the handle is in the notification set and also managed. -/
theorem dock_managed_after_second_map_request :
    envPlain.IsDock 9 = true ∧
    (∃ t, run envPlain stateInit [Event.MapRequest 9, Event.MapRequest 9] = some t ∧
      9 ∈ t.docks ∧
      (mapperFind t 9).isSome = true ∧
      (t.ws 0).clients.map (fun c => c.window) = [9]) ∧
    (∃ t, run envPlain stateInit [Event.MapRequest 8, Event.MapNotify 8] = some t ∧
      8 ∈ t.notifications ∧
      (mapperFind t 8).isSome = true) :=
  ⟨by decide,
    ⟨(run envPlain stateInit [Event.MapRequest 9, Event.MapRequest 9]).get (by decide),
      (Option.some_get _).symm, by decide, by decide, by decide⟩,
    ⟨(run envPlain stateInit [Event.MapRequest 8, Event.MapNotify 8]).get (by decide),
      (Option.some_get _).symm, by decide, by decide⟩⟩

/-- C3: for a target that equals the active index, is negative, or is not below
the number of workspaces, `GotoWorkspace` returns the session state unchanged;
in particular the log of issued calls is unchanged, so no map, unmap, re-layout
or property export is issued. -/
theorem GotoWorkspace_noop (env : Env) (s : State) (target : Int)
    (h : target = s.current ∨ target < 0 ∨ target ≥ (s.workspaces.length : Int)) :
    GotoWorkspace env s target = s ∧ (GotoWorkspace env s target).calls = s.calls := by
  have hg : s.current = target ∨ target < 0 ∨ target ≥ (s.workspaces.length : Int) := by
    rcases h with h | h | h
    · exact Or.inl h.symm
    · exact Or.inr (Or.inl h)
    · exact Or.inr (Or.inr h)
  have : GotoWorkspace env s target = s := by
    unfold GotoWorkspace
    rw [if_pos hg]
  rw [this]
  exact ⟨rfl, rfl⟩

/-- C3, witness: target 3 on the initial state with three workspaces. -/
theorem GotoWorkspace_noop_witness :
    ((3 : Int) = stateInit.current ∨ (3 : Int) < 0 ∨
      (3 : Int) ≥ (stateInit.workspaces.length : Int)) ∧
    GotoWorkspace envPlain stateInit 3 = stateInit ∧
    (GotoWorkspace envPlain stateInit 3).calls = stateInit.calls :=
  ⟨by decide, GotoWorkspace_noop envPlain stateInit 3 (by decide)⟩

/-- With no docks the tiling area is the whole display. -/
theorem tilingArea_nil (W H : Int) : tilingArea (W, H) [] = ⟨0, 0, W, H⟩ := by
  simp [tilingArea]

/-- A dock along the top edge is reserved from the top of the display. -/
theorem tilingArea_top (W H h : Int) :
    tilingArea (W, H) [⟨0, 0, W, h⟩] = ⟨0, h, W, H - h⟩ := by
  simp [tilingArea, reserveDock]

/-- A dock along the bottom edge is reserved from the bottom of the display. -/
theorem tilingArea_bottom (W H h : Int) (h1 : h < H) :
    tilingArea (W, H) [⟨0, H - h, W, h⟩] = ⟨0, 0, W, H - h⟩ := by
  have : H - h ≠ 0 := by omega
  simp [tilingArea, reserveDock, this]

/-- A dock along the left or right edge that spans the whole height has `y = 0`
and is reserved as a top dock: the area keeps its width and loses all its height. -/
theorem tilingArea_side_strip (W H x w : Int) :
    tilingArea (W, H) [⟨x, 0, w, H⟩] = ⟨0, H, W, 0⟩ := by
  simp [tilingArea, reserveDock]

/-- C4, failing input: on an 800 x 600 display a dock (0, 0, 50, 600) along the
left edge, and a dock (750, 0, 50, 600) along the right edge, both give the
tiling area (0, 600, 800, 0), not (50, 0, 750, 600) and (0, 0, 750, 600). -/
theorem GetTilingArea_side_dock :
    GetTilingArea stateLeftDock = ⟨0, 600, 800, 0⟩ ∧
    GetTilingArea stateRightDock = ⟨0, 600, 800, 0⟩ := by
  decide

/-- C5, failing input: the cache holds (0, 50, 300, 200) for tracked window 1,
a rectangle with positive width and height; the returned size is the cached
300 x 200 but the returned position is the centred (300, 250), not the cached
(0, 50). -/
theorem GetFloatingWindowArea_cookie_at_left_edge :
    (mapperFind stateCookieAtLeftEdge 1).isSome = true ∧
    lookupArea stateCookieAtLeftEdge.cookie 1 = ⟨0, 50, 300, 200⟩ ∧
    GetFloatingWindowArea envPlain stateCookieAtLeftEdge 1 false = ⟨300, 250, 300, 200⟩ := by
  decide

/-- C6: for a tracked window and `use_default_size = false` the returned size is
the cached size when the cache holds one with positive width and height; else
the program-specified size when the hints carry `PSize`; else the minimum size
when they carry `PMinSize`; else the base size when they carry `PBaseSize`;
else the default floating size. -/
theorem GetFloatingWindowArea_size (env : Env) (s : State) (window : Window)
    (ic : Nat × Client) (ht : mapperFind s window = some ic) :
    let a := GetFloatingWindowArea env s window false
    let ck := lookupArea s.cookie window
    let hints := env.GetWmNormalHints window
    ((ck.w > 0 ∧ ck.h > 0) → a.w = ck.w ∧ a.h = ck.h) ∧
    (¬ (ck.w > 0 ∧ ck.h > 0) → hints.flags &&& PSize ≠ 0 →
      a.w = hints.width ∧ a.h = hints.height) ∧
    (¬ (ck.w > 0 ∧ ck.h > 0) → hints.flags &&& PSize = 0 → hints.flags &&& PMinSize ≠ 0 →
      a.w = hints.min_width ∧ a.h = hints.min_height) ∧
    (¬ (ck.w > 0 ∧ ck.h > 0) → hints.flags &&& PSize = 0 → hints.flags &&& PMinSize = 0 →
      hints.flags &&& PBaseSize ≠ 0 → a.w = hints.base_width ∧ a.h = hints.base_height) ∧
    (¬ (ck.w > 0 ∧ ck.h > 0) → hints.flags &&& PSize = 0 → hints.flags &&& PMinSize = 0 →
      hints.flags &&& PBaseSize = 0 →
      a.w = env.DEFAULT_FLOATING_WINDOW_WIDTH ∧ a.h = env.DEFAULT_FLOATING_WINDOW_HEIGHT) := by
  intro a ck hints
  have ha : a = GetFloatingWindowArea env s window false := rfl
  unfold GetFloatingWindowArea at ha
  rw [ht] at ha
  simp only [Bool.false_eq_true, if_false] at ha
  refine ⟨?_, ?_, ?_, ?_, ?_⟩
  · intro h1
    rw [ha]
    simp only [ck] at h1
    simp [h1]
  · intro h1 h2
    rw [ha]
    simp only [ck, hints] at h1 h2
    simp [h1, h2]
  · intro h1 h2 h3
    rw [ha]
    simp only [ck, hints] at h1 h2 h3
    simp [h1, h2, h3]
  · intro h1 h2 h3 h4
    rw [ha]
    simp only [ck, hints] at h1 h2 h3 h4
    simp [h1, h2, h3, h4]
  · intro h1 h2 h3 h4
    rw [ha]
    simp only [ck, hints] at h1 h2 h3 h4
    simp [h1, h2, h3, h4]

/-- C6, witness: tracked window 1 with the cached rectangle (0, 50, 300, 200)
gets the cached size 300 x 200. -/
theorem GetFloatingWindowArea_size_witness :
    mapperFind stateCookieAtLeftEdge 1 = some (0, Client.new envPlain 1) ∧
    (GetFloatingWindowArea envPlain stateCookieAtLeftEdge 1 false).w = 300 ∧
    (GetFloatingWindowArea envPlain stateCookieAtLeftEdge 1 false).h = 200 :=
  ⟨by decide,
    (GetFloatingWindowArea_size envPlain stateCookieAtLeftEdge 1 (0, Client.new envPlain 1)
      (by decide)).1 (by decide)⟩

/-- C7: while a drag context is active (the pressed window is tracked, with
client `c`), `OnMotionNotify` issues exactly one further call, the request
`MoveResize` for that client with the rectangle of the specification: the
snapshot translated by the pointer delta for the left button, grown by the delta
for the right button, with width and height at least the minimums `mw`, `mh`
(the size hint when positive, else the global minimum).  The handler of wm.cpp
issues the same rectangle with the global minimums, for button codes
`L ≠ R`. -/
theorem OnMotionNotify_request (env : Env) (s : State) (e : XButtonEvent) (i : Nat) (c : Client)
    (hd : mapperFind s s.btn_pressed_event.subwindow = some (i, c))
    (L R : Nat) (MW MH : Int) (v : WmState) (hv : v.start_.subwindow ≠ None) (hLR : L ≠ R) :
    ((OnMotionNotify env s e).calls = s.calls ++ [Call.MoveResize c.window
        (dragRect MOUSE_BTN_LEFT MOUSE_BTN_RIGHT s.btn_pressed_event.button c.attr_cache
          (e.x - s.btn_pressed_event.x) (e.y - s.btn_pressed_event.y)
          (minWidth env c) (minHeight env c))] ∧
      minWidth env c ≤ (dragRect MOUSE_BTN_LEFT MOUSE_BTN_RIGHT s.btn_pressed_event.button
        c.attr_cache (e.x - s.btn_pressed_event.x) (e.y - s.btn_pressed_event.y)
        (minWidth env c) (minHeight env c)).w ∧
      minHeight env c ≤ (dragRect MOUSE_BTN_LEFT MOUSE_BTN_RIGHT s.btn_pressed_event.button
        c.attr_cache (e.x - s.btn_pressed_event.x) (e.y - s.btn_pressed_event.y)
        (minWidth env c) (minHeight env c)).h) ∧
    (WmOnMotionNotify L R MW MH v e = some (v.start_.subwindow,
        dragRect L R v.start_.button v.attr_ (e.x - v.start_.x) (e.y - v.start_.y) MW MH) ∧
      MW ≤ (dragRect L R v.start_.button v.attr_ (e.x - v.start_.x) (e.y - v.start_.y)
        MW MH).w ∧
      MH ≤ (dragRect L R v.start_.button v.attr_ (e.x - v.start_.x) (e.y - v.start_.y)
        MW MH).h) := by
  have hbound : ∀ (l r b : Nat) (g : Area) (dx dy mw mh : Int),
      mw ≤ (dragRect l r b g dx dy mw mh).w ∧ mh ≤ (dragRect l r b g dx dy mw mh).h := by
    intro l r b g dx dy mw mh
    unfold dragRect
    split_ifs <;> exact ⟨le_max_right _ _, le_max_right _ _⟩
  have hrect : ∀ (l r b : Nat) (g : Area) (dx dy mw mh : Int), l ≠ r →
      (⟨g.x + (if b = l then dx else 0), g.y + (if b = l then dy else 0),
        (if g.w + (if b = r then dx else 0) < mw then mw else g.w + (if b = r then dx else 0)),
        (if g.h + (if b = r then dy else 0) < mh then mh else g.h + (if b = r then dy else 0))⟩
        : Area) = dragRect l r b g dx dy mw mh := by
    intro l r b g dx dy mw mh hlr
    unfold dragRect
    by_cases h1 : b = l
    · subst h1
      have h2 : ¬ b = r := hlr
      simp only [h2, if_true, if_false, add_zero, max_def]
      congr 1 <;> split_ifs <;> first | rfl | omega
    · by_cases h2 : b = r
      · subst h2
        simp only [h1, if_true, if_false, add_zero, max_def]
        congr 1 <;> split_ifs <;> first | rfl | omega
      · simp only [h1, h2, if_false, add_zero, max_def]
        congr 1 <;> split_ifs <;> first | rfl | omega
  refine ⟨⟨?_, (hbound _ _ _ _ _ _ _ _).1, (hbound _ _ _ _ _ _ _ _).2⟩,
    ⟨?_, (hbound _ _ _ _ _ _ _ _).1, (hbound _ _ _ _ _ _ _ _).2⟩⟩
  · rw [← hrect _ _ _ _ _ _ _ _ (by decide)]
    unfold OnMotionNotify
    rw [hd]
    rfl
  · rw [← hrect _ _ _ _ _ _ _ _ hLR]
    unfold WmOnMotionNotify
    rw [if_neg hv]

/-! ### Pointer drag and fullscreen on sample states -/

/-- C7, witness: in `stateDrag` (left button pressed at (10, 10) on floating
window 1, snapshot (500, 400, 800, 600)) a motion to (30, 40) requests
(520, 430, 800, 600); in the wm.cpp state `wmDrag` (right button, snapshot
(100, 100, 400, 300)) it requests (100, 100, 420, 330). -/
theorem OnMotionNotify_request_witness :
    mapperFind stateDrag stateDrag.btn_pressed_event.subwindow = some (0, clientDrag) ∧
    wmDrag.start_.subwindow ≠ None ∧ (1 : Nat) ≠ 3 ∧
    (OnMotionNotify envFloat stateDrag ⟨1, 30, 40, 1⟩).calls =
      stateDrag.calls ++ [Call.MoveResize 1 ⟨520, 430, 800, 600⟩] ∧
    WmOnMotionNotify 1 3 50 50 wmDrag ⟨1, 30, 40, 3⟩ = some (1, ⟨100, 100, 420, 330⟩) :=
  ⟨by decide, by decide, by decide,
    (OnMotionNotify_request envFloat stateDrag ⟨1, 30, 40, 1⟩ 0 clientDrag (by decide)
      1 3 50 50 wmDrag (by decide) (by decide)).1.1,
    (OnMotionNotify_request envFloat stateDrag ⟨1, 30, 40, 1⟩ 0 clientDrag (by decide)
      1 3 50 50 wmDrag (by decide) (by decide)).2.1⟩

/-- C8, failing input: window 1 is managed as a floating client, a button is
pressed on it, its program unmaps it (so it is unmanaged), and the button is
released.  The release returns early: the recorded pressed window is still 1,
not None.  When window 1 is then managed again, the next motion-notify requests
the geometry (20, 30, 50, 50) for it although no button is pressed. -/
theorem OnButtonRelease_keeps_context_of_unmanaged_window :
    ∃ t1 t2 t3 t4,
      run envFloat stateInit
        [Event.MapRequest 1, Event.ButtonPress pressLeft, Event.UnmapNotify 1] = some t1 ∧
      run envFloat stateInit tracePressUnmapRelease = some t2 ∧
      run envFloat stateInit (tracePressUnmapRelease ++ [Event.MapRequest 1]) = some t3 ∧
      run envFloat stateInit
        (tracePressUnmapRelease ++ [Event.MapRequest 1, Event.MotionNotify ⟨1, 30, 40, 1⟩])
        = some t4 ∧
      mapperFind t1 1 = none ∧
      t2.btn_pressed_event.subwindow = 1 ∧
      t4.calls = t3.calls ++ [Call.MoveResize 1 ⟨20, 30, 50, 50⟩] :=
  ⟨(run envFloat stateInit
      [Event.MapRequest 1, Event.ButtonPress pressLeft, Event.UnmapNotify 1]).get (by decide),
    (run envFloat stateInit tracePressUnmapRelease).get (by decide),
    (run envFloat stateInit (tracePressUnmapRelease ++ [Event.MapRequest 1])).get (by decide),
    (run envFloat stateInit
      (tracePressUnmapRelease ++
        [Event.MapRequest 1, Event.MotionNotify ⟨1, 30, 40, 1⟩])).get (by decide),
    (Option.some_get _).symm, (Option.some_get _).symm, (Option.some_get _).symm,
    (Option.some_get _).symm, by decide, by decide, by decide⟩

/-- C9, witness: `SetFullscreen(1, true)` on `stateOne`, where client 1 is not
fullscreen, on a 1000 x 800 display. -/
theorem SetFullscreen_spec_witness :
    mapperFind stateOne 1 = some (0, clientOne) ∧ clientOne.fullscreen ≠ true ∧
    (∃ d, mapperFind (SetFullscreen envPlain stateOne 1 true) 1 = some (0, d) ∧
      d.fullscreen = true) ∧
    ((SetFullscreen envPlain stateOne 1 true).ws 0).is_fullscreen = true ∧
    requestedGeometry (SetFullscreen envPlain stateOne 1 true) 1 = some ⟨0, 0, 1000, 800⟩ ∧
    ((SetFullscreen envPlain stateOne 1 true).ws 0).focused = some 1 :=
  ⟨by decide, by decide,
    ((SetFullscreen_spec envPlain stateOne 1 true).2.2 0 clientOne (by decide) (by decide)).1,
    ((SetFullscreen_spec envPlain stateOne 1 true).2.2 0 clientOne (by decide) (by decide)).2.1,
    (((SetFullscreen_spec envPlain stateOne 1 true).2.2 0 clientOne (by decide)
      (by decide)).2.2 rfl).1,
    (((SetFullscreen_spec envPlain stateOne 1 true).2.2 0 clientOne (by decide)
      (by decide)).2.2 rfl).2⟩

/-! ### Geometry and visibility on the X server -/

theorem find?_filter_ne (l : List (Window × Area)) (w h : Window) (e : w ≠ h) :
    (l.filter (fun p => p.1 != w)).find? (fun p => p.1 == h) = l.find? (fun p => p.1 == h) := by
  induction l with
  | nil => rfl
  | cons p l ih =>
    by_cases e1 : p.1 = w
    · have e2 : (p.1 == h) = false := by
        simp only [beq_eq_false_iff_ne, ne_eq]
        exact fun hh => e (e1.symm.trans hh)
      have e3 : (p.1 != w) = false := by simp [e1]
      rw [List.filter_cons, List.find?_cons]
      simp only [e2, e3]
      exact ih
    · have e3 : (p.1 != w) = true := by simp [e1]
      rw [List.filter_cons, List.find?_cons]
      simp only [e3, if_true]
      rw [List.find?_cons, ih]

theorem lookupArea_storeArea (l : List (Window × Area)) (w h : Window) (a : Area) :
    lookupArea (storeArea l w a) h = if w = h then a else lookupArea l h := by
  unfold lookupArea storeArea
  by_cases e : w = h
  · simp [e]
  · simp only [e, if_false, List.find?_cons]
    have e2 : ((w : Window) == h) = false := by simpa using e
    simp only [e2]
    rw [find?_filter_ne l w h e]

/-- Generic fold lemma: a property kept by every step on a member of the list
is kept by the fold. -/
theorem foldl_preserves_mem {α β : Type} (P : β → Prop) (f : β → α → β) (l : List α)
    (h : ∀ b a, a ∈ l → P b → P (f b a)) (b : β) (hb : P b) : P (l.foldl f b) := by
  induction l generalizing b with
  | nil => exact hb
  | cons a l ih =>
    rw [List.foldl_cons]
    exact ih (fun b x hx => h b x (List.mem_cons_of_mem _ hx)) _ (h b a (List.mem_cons_self _ _) hb)

@[simp] theorem attrs_log (s : State) (c : Call) : (s.log c).attrs = s.attrs := rfl

@[simp] theorem attrs_XMapWindow (s : State) (w : Window) : (XMapWindow s w).attrs = s.attrs := rfl

@[simp] theorem attrs_XUnmapWindow (s : State) (w : Window) :
    (XUnmapWindow s w).attrs = s.attrs := rfl

@[simp] theorem attrs_modifyWs (s : State) (i : Nat) (F : Workspace → Workspace) :
    (s.modifyWs i F).attrs = s.attrs := rfl

@[simp] theorem attrs_modifyWsI (s : State) (i : Int) (F : Workspace → Workspace) :
    (s.modifyWsI i F).attrs = s.attrs := by
  unfold State.modifyWsI
  split <;> rfl

@[simp] theorem attrs_updateClient (s : State) (i : Nat) (v : Window) (f : Client → Client) :
    (updateClient s i v f).attrs = s.attrs := rfl

@[simp] theorem attrs_Map (s : State) (w : Window) : (Client.Map s w).attrs = s.attrs := rfl

@[simp] theorem attrs_Raise (s : State) (w : Window) : (Client.Raise s w).attrs = s.attrs := rfl

@[simp] theorem attrs_Unmap (s : State) (i : Nat) (w : Window) :
    (Client.Unmap s i w).attrs = s.attrs := rfl

@[simp] theorem attrs_MapDocks (s : State) : (MapDocks s).attrs = s.attrs :=
  foldl_inv State.attrs XMapWindow attrs_XMapWindow s.docks s

@[simp] theorem attrs_UnmapDocks (s : State) : (UnmapDocks s).attrs = s.attrs :=
  foldl_inv State.attrs XUnmapWindow attrs_XUnmapWindow s.docks s

@[simp] theorem attrs_RaiseNotifications (s : State) : (RaiseNotifications s).attrs = s.attrs :=
  foldl_inv State.attrs _ (fun b _ => attrs_log b _) s.notifications s

@[simp] theorem attrs_MapAllClients (s : State) (i : Nat) :
    (MapAllClients s i).attrs = s.attrs :=
  foldl_inv State.attrs _ (fun b _ => attrs_Map b _) _ s

@[simp] theorem attrs_UnmapAllClients (s : State) (i : Nat) :
    (UnmapAllClients s i).attrs = s.attrs :=
  foldl_inv State.attrs _ (fun b (a : Client) => attrs_Unmap b i a.window) _ s

@[simp] theorem attrs_RaiseAllFloatingClients (s : State) (i : Nat) :
    (RaiseAllFloatingClients s i).attrs = s.attrs :=
  foldl_inv State.attrs _ (fun b _ => attrs_Raise b _) _ s

theorem GetXWindowAttributes_MoveResize (env : Env) (s : State) (c : Client) (a : Area)
    (h : Window) :
    GetXWindowAttributes (Client.MoveResize env s c a) h =
      if c.window = h then
        ⟨a.x, a.y, if a.w < minWidth env c then minWidth env c else a.w,
          if a.h < minHeight env c then minHeight env c else a.h⟩
      else GetXWindowAttributes s h := by
  simp only [GetXWindowAttributes, Client.MoveResize]
  exact lookupArea_storeArea _ _ _ _

/-- The tiling pass leaves the geometry of a window alone when every client
record of that window in the workspace is floating. -/
theorem GetXWindowAttributes_Tile (env : Env) (s : State) (i : Nat) (area : Area) (h : Window)
    (hf : ∀ d, d ∈ (s.ws i).clients → d.window = h → d.floating = true) :
    GetXWindowAttributes (Tile env s i area) h = GetXWindowAttributes s h := by
  unfold Tile
  simp only
  refine foldl_preserves_mem
    (fun t : State => GetXWindowAttributes t h = GetXWindowAttributes s h) _ _ ?_ s rfl
  · intro t p hp ht
    rw [GetXWindowAttributes_MoveResize]
    have hmem : p.1 ∈ (s.ws i).tileable := (List.of_mem_zip hp).1
    simp only [Workspace.tileable, List.mem_filter, Bool.and_eq_true, Bool.not_eq_true'] at hmem
    have hne : ¬ p.1.window = h := by
      intro e
      have := hf p.1 hmem.1 e
      rw [this] at hmem
      exact absurd hmem.2.1.1 (by simp)
    rw [if_neg hne]
    exact ht

theorem mem_setInsert (l : List Window) (w d : Window) :
    d ∈ setInsert l w ↔ d ∈ l ∨ d = w := by
  induction l with
  | nil => simp [setInsert]
  | cons a l ih =>
    unfold setInsert
    split
    · simp only [List.mem_cons]
      tauto
    · split
      · rename_i hwa
        simp only [List.mem_cons]
        constructor
        · exact Or.inl
        · rintro (h | h)
          · exact h
          · exact Or.inl (h.trans hwa)
      · simp only [List.mem_cons, ih]
        tauto

theorem mem_setErase (l : List Window) (w d : Window) :
    d ∈ setErase l w ↔ d ∈ l ∧ d ≠ w := by
  simp [setErase]

theorem viewable_MapDocks (s : State) (d : Window) (hd : d ∈ s.docks ∨ d ∈ s.viewable) :
    d ∈ (MapDocks s).viewable := by
  unfold MapDocks
  generalize s.docks = l at hd
  induction l generalizing s with
  | nil =>
    rcases hd with hd | hd
    · simp at hd
    · exact hd
  | cons w l ih =>
    rw [List.foldl_cons]
    apply ih
    rcases hd with hd | hd
    · rcases List.mem_cons.1 hd with e | e
      · right
        simp only [XMapWindow, mem_setInsert]
        exact Or.inr e
      · exact Or.inl e
    · right
      simp only [XMapWindow, mem_setInsert]
      exact Or.inl hd

theorem viewable_UnmapDocks (s : State) (d : Window) (hd : d ∈ s.docks ∨ d ∉ s.viewable) :
    d ∉ (UnmapDocks s).viewable := by
  unfold UnmapDocks
  generalize s.docks = l at hd
  induction l generalizing s with
  | nil =>
    rcases hd with hd | hd
    · simp at hd
    · exact hd
  | cons w l ih =>
    rw [List.foldl_cons]
    apply ih
    rcases hd with hd | hd
    · rcases List.mem_cons.1 hd with e | e
      · right
        simp only [XUnmapWindow, mem_setErase]
        exact fun hh => hh.2 e
      · exact Or.inl e
    · right
      simp only [XUnmapWindow, mem_setErase]
      exact fun hh => hd hh.1

theorem viewable_MapAllClients (s : State) (i : Nat) (d : Window) (hd : d ∈ s.viewable) :
    d ∈ (MapAllClients s i).viewable := by
  unfold MapAllClients
  refine foldl_preserves (fun t : State => d ∈ t.viewable) _ ?_ _ s hd
  intro t a ht
  simp only [Client.Map, XMapWindow, mem_setInsert]
  exact Or.inl ht

theorem viewable_UnmapAllClients (s : State) (i : Nat) (d : Window) (hd : d ∉ s.viewable) :
    d ∉ (UnmapAllClients s i).viewable := by
  unfold UnmapAllClients
  refine foldl_preserves (fun t : State => d ∉ t.viewable) _ ?_ _ s hd
  intro t a ht
  simp only [Client.Unmap, XUnmapWindow, mem_setErase]
  exact fun hh => ht hh.1

@[simp] theorem viewable_log (s : State) (c : Call) : (s.log c).viewable = s.viewable := rfl

@[simp] theorem viewable_modifyWs (s : State) (i : Nat) (F : Workspace → Workspace) :
    (s.modifyWs i F).viewable = s.viewable := rfl

@[simp] theorem viewable_modifyWsI (s : State) (i : Int) (F : Workspace → Workspace) :
    (s.modifyWsI i F).viewable = s.viewable := by
  unfold State.modifyWsI
  split <;> rfl

@[simp] theorem viewable_updateClient (s : State) (i : Nat) (v : Window) (f : Client → Client) :
    (updateClient s i v f).viewable = s.viewable := rfl

@[simp] theorem viewable_MoveResize (env : Env) (s : State) (c : Client) (a : Area) :
    (Client.MoveResize env s c a).viewable = s.viewable := rfl

@[simp] theorem viewable_Raise (s : State) (w : Window) :
    (Client.Raise s w).viewable = s.viewable := rfl

@[simp] theorem viewable_RaiseNotifications (s : State) :
    (RaiseNotifications s).viewable = s.viewable :=
  foldl_inv State.viewable _ (fun b _ => viewable_log b _) s.notifications s

@[simp] theorem viewable_RaiseAllFloatingClients (s : State) (i : Nat) :
    (RaiseAllFloatingClients s i).viewable = s.viewable :=
  foldl_inv State.viewable _ (fun b _ => viewable_Raise b _) _ s

@[simp] theorem viewable_Tile (env : Env) (s : State) (i : Nat) (a : Area) :
    (Tile env s i a).viewable = s.viewable :=
  foldl_inv State.viewable _ (fun b _ => viewable_MoveResize env b _ _) _ s

/-! ### Ownership and floating records through the operations -/

theorem Owns_wm {s t : State} (hwm : t.wm = s.wm) (i : Nat) (h : Window) (P : Client → Prop)
    (ho : Owns s i h P) : Owns t i h P := by
  obtain ⟨c, h1, h2⟩ := ho
  exact ⟨c, by rw [mapperFind_wm hwm]; exact h1, h2⟩

theorem Owns_update (s : State) (i : Nat) (h v : Window) (P P' : Client → Prop)
    (f : Client → Client) (hw : ∀ c, (f c).window = c.window)
    (hP : ∀ c, c.window = h → P c → P' (if c.window = v then f c else c))
    (ho : Owns s i h P) : Owns (updateClient s i v f) i h P' := by
  obtain ⟨c, h1, h2⟩ := ho
  obtain ⟨_, hc⟩ := mapperFind_ws s h i c h1
  refine ⟨if c.window = v then f c else c, ?_, hP c (mapperFind_window s h i c h1) h2⟩
  apply mapperFind_modifyWs s h i c _ _ h1
  rw [GetClient_update _ _ _ _ hw, hc]
  rfl

theorem Owns_modifyWs_keep (s : State) (i : Nat) (h : Window) (P : Client → Prop)
    (F : Workspace → Workspace) (hF : ∀ ws, (F ws).GetClient h = ws.GetClient h)
    (ho : Owns s i h P) : Owns (s.modifyWs i F) i h P := by
  obtain ⟨c, h1, h2⟩ := ho
  obtain ⟨_, hc⟩ := mapperFind_ws s h i c h1
  refine ⟨c, ?_, h2⟩
  apply mapperFind_modifyWs s h i c _ _ h1
  rw [hF]
  exact hc

theorem Owns_UnmapAllClients (s : State) (i : Nat) (h : Window) (P : Client → Prop)
    (hP : ∀ c, P c → P { c with has_unmap_req_from_wm := true })
    (ho : Owns s i h P) : Owns (UnmapAllClients s i) i h P := by
  unfold UnmapAllClients
  refine foldl_preserves (fun t : State => Owns t i h P) _ ?_ _ s ho
  intro t a hta
  unfold Client.Unmap
  apply Owns_wm (wm_XUnmapWindow _ _)
  refine Owns_update t i h a.window P P _ (fun _ => rfl) ?_ hta
  intro c _ hc
  split
  · exact hP c hc
  · exact hc

theorem clients_SetFocusedClient (v : Window) (ws : Workspace) :
    (Workspace.SetFocusedClient v ws).clients = ws.clients := by
  unfold Workspace.SetFocusedClient
  split <;> rfl

theorem GetXWindowAttributes_congr {s t : State} (h : t.attrs = s.attrs) (w : Window) :
    GetXWindowAttributes t w = GetXWindowAttributes s w := by
  simp only [GetXWindowAttributes, h]

/-- A re-layout of a workspace that is not fullscreen maps the docks and leaves
alone the geometry of a window all of whose client records are floating. -/
theorem ArrangeWindows_relayout (env : Env) (u : State) (h : Window) (hcur : 0 ≤ u.current)
    (hnf : (u.wsI u.current).is_fullscreen = false)
    (hfl : ∀ d, d ∈ (u.wsI u.current).clients → d.window = h → d.floating = true) :
    GetXWindowAttributes (ArrangeWindows env u) h = GetXWindowAttributes u h ∧
      ∀ d, d ∈ u.docks → d ∈ (ArrangeWindows env u).viewable := by
  have hI : u.wsI u.current = u.ws u.current.toNat := by
    simp only [State.wsI, not_lt.2 hcur, if_false]
  unfold ArrangeWindows
  cases hf : (u.wsI u.current).GetFocusedClient with
  | none =>
    simp only
    refine ⟨?_, ?_⟩
    · rw [GetXWindowAttributes_congr (attrs_log _ _), GetXWindowAttributes_congr (attrs_MapDocks _)]
    · intro d hd
      rw [viewable_log]
      exact viewable_MapDocks u d (Or.inl hd)
  | some fc =>
    simp only
    have hnf' : ¬ ((u.log (Call.SetNetActiveWindow fc.window)).wsI
        (u.log (Call.SetNetActiveWindow fc.window)).current).is_fullscreen = true := by
      have : (u.log (Call.SetNetActiveWindow fc.window)).wsI
          (u.log (Call.SetNetActiveWindow fc.window)).current = u.wsI u.current := rfl
      rw [this, hnf]
      simp
    rw [if_neg hnf']
    refine ⟨?_, ?_⟩
    · rw [GetXWindowAttributes_congr (attrs_RaiseNotifications _),
        GetXWindowAttributes_congr (attrs_RaiseAllFloatingClients _ _),
        GetXWindowAttributes_congr (attrs_modifyWsI _ _ _), GetXWindowAttributes_Tile,
        GetXWindowAttributes_congr (attrs_MapAllClients _ _),
        GetXWindowAttributes_congr (attrs_MapDocks _), GetXWindowAttributes_congr (attrs_log _ _)]
      have hwm : (MapAllClients (MapDocks (u.log (Call.SetNetActiveWindow fc.window)))
          (MapDocks (u.log (Call.SetNetActiveWindow fc.window))).current.toNat).wm = u.wm := by
        simp
      rw [ws_wm hwm, wm_current hwm, ← hI]
      exact hfl
    · intro d hd
      rw [viewable_RaiseNotifications, viewable_RaiseAllFloatingClients, viewable_modifyWsI,
        viewable_Tile]
      apply viewable_MapAllClients
      apply viewable_MapDocks
      left
      have hwm : (u.log (Call.SetNetActiveWindow fc.window)).wm = u.wm := rfl
      rw [wm_docks hwm]
      exact hd

/-! ### Entering fullscreen -/

theorem rest_wm {s t : State} (h : t.wm = s.wm) : t.rest = s.rest :=
  congrArg (fun p => p.2) h

@[simp] theorem rest_modifyWs (s : State) (i : Nat) (F : Workspace → Workspace) :
    (s.modifyWs i F).rest = s.rest := rfl

@[simp] theorem rest_updateClient (s : State) (i : Nat) (v : Window) (f : Client → Client) :
    (updateClient s i v f).rest = s.rest := rfl

@[simp] theorem rest_Unmap (s : State) (i : Nat) (v : Window) :
    (Client.Unmap s i v).rest = s.rest := rfl

@[simp] theorem rest_UnmapAllClients (s : State) (i : Nat) :
    (UnmapAllClients s i).rest = s.rest :=
  foldl_inv State.rest _ (fun t (a : Client) => rest_Unmap t i a.window) _ s

/-- `SetFullscreen` changes no member of the window manager but the workspaces. -/
theorem rest_SetFullscreen (env : Env) (s : State) (h : Window) (b : Bool) :
    (SetFullscreen env s h b).rest = s.rest := by
  unfold SetFullscreen
  cases hm : mapperFind s h with
  | none => rfl
  | some p =>
    obtain ⟨i, c⟩ := p
    simp only
    split
    · rfl
    · cases b with
      | true =>
        simp only [if_true]
        rw [rest_wm (wm_log _ _), rest_modifyWs, rest_wm (wm_Map _ _), rest_UnmapAllClients,
          rest_wm (wm_MoveResize _ _ _ _), rest_updateClient, rest_wm (wm_UnmapDocks _),
          rest_wm (wm_log _ _), rest_modifyWs, rest_updateClient]
      | false =>
        simp only [Bool.false_eq_true, if_false]
        rw [rest_wm (wm_log _ _), rest_wm (wm_ArrangeWindows _ _),
          rest_wm (wm_MoveResize _ _ _ _), rest_wm (wm_MapDocks _), rest_wm (wm_log _ _),
          rest_modifyWs, rest_updateClient]

theorem rest_current {s t : State} (h : t.rest = s.rest) : t.current = s.current :=
  congrArg (fun p => p.1) h

theorem rest_docks {s t : State} (h : t.rest = s.rest) : t.docks = s.docks :=
  congrArg (fun p => p.2.1) h

theorem rest_resolution {s t : State} (h : t.rest = s.rest) :
    GetDisplayResolution t = GetDisplayResolution s :=
  congrArg (fun p => p.2.2.2.2.2.2) h

/-! ### Fullscreen round trip -/

/-- C10, counterexample: in `stateTiledOffSlot` client 1 is tracked in the active
workspace 0, not fullscreen, a dock is present and the geometry of window 1 is
(520, 430, 800, 600); after SetFullscreen(1, true) its geometry is the display
(0, 0, 1000, 800), and after the following SetFullscreen(1, false) it is
(0, 30, 1000, 770), the tiling area, not (520, 430, 800, 600). -/
theorem fullscreen_round_trip_retiles :
    mapperFind stateTiledOffSlot 1 = some (0, clientTiled) ∧
    stateTiledOffSlot.current = 0 ∧ stateTiledOffSlot.docks = [9] ∧
    GetXWindowAttributes stateTiledOffSlot 1 = ⟨520, 430, 800, 600⟩ ∧
    GetXWindowAttributes (SetFullscreen envFloat stateTiledOffSlot 1 true) 1
      = ⟨0, 0, 1000, 800⟩ ∧
    GetXWindowAttributes
      (SetFullscreen envFloat (SetFullscreen envFloat stateTiledOffSlot 1 true) 1 false) 1
      = ⟨0, 30, 1000, 770⟩ := by
  decide

/-! ### Handles of the workspaces -/

theorem winView_eq_map_fsView (s : State) :
    s.winView = s.fsView.map (fun v => v.1.map Prod.fst) := by
  simp only [State.winView, State.fsView, List.map_map]
  apply List.map_congr_left
  intro ws _
  simp only [Function.comp, Workspace.windows, Workspace.view, List.map_map]
  rfl

theorem winView_of_fsView {s t : State} (h : t.fsView = s.fsView) : t.winView = s.winView := by
  rw [winView_eq_map_fsView, winView_eq_map_fsView, h]

theorem winView_wm {s t : State} (h : t.wm = s.wm) : t.winView = s.winView := by
  simp only [State.winView, wm_workspaces h]

theorem GetClient_ne_none_iff (ws : Workspace) (h : Window) :
    ws.GetClient h ≠ none ↔ h ∈ ws.windows := by
  rw [Ne, GetClient_none_iff, not_not]
  simp only [Workspace.view, Workspace.windows, List.map_map]
  rfl

theorem winView_getElem? (s : State) (j : Nat) :
    s.winView[j]? = (s.workspaces[j]?).map Workspace.windows := by
  simp [State.winView]

/-- The owner of a handle is determined by the handles of the workspaces. -/
theorem mapperFind_exists_iff (s : State) (h : Window) (i : Nat) :
    (∃ c, mapperFind s h = some (i, c)) ↔
      (∀ j, j < i → ∀ l, s.winView[j]? = some l → h ∉ l) ∧
      ∃ l, s.winView[i]? = some l ∧ h ∈ l := by
  constructor
  · rintro ⟨c, hm⟩
    obtain ⟨hlt, ws, hws, hc⟩ := (mapperFind_some_iff s h i c).1 hm
    refine ⟨?_, ws.windows, by rw [winView_getElem?, hws]; rfl, ?_⟩
    · intro j hj l hl
      rw [winView_getElem?] at hl
      cases hw : s.workspaces[j]? with
      | none => rw [hw] at hl; simp at hl
      | some wj =>
        rw [hw] at hl
        simp only [Option.map_some', Option.some.injEq] at hl
        rw [← hl, ← GetClient_ne_none_iff]
        simp [hlt j hj wj hw]
    · rw [← GetClient_ne_none_iff, hc]
      simp
  · rintro ⟨hlt, l, hl, hmem⟩
    rw [winView_getElem?] at hl
    cases hw : s.workspaces[i]? with
    | none => rw [hw] at hl; simp at hl
    | some wi =>
      rw [hw] at hl
      simp only [Option.map_some', Option.some.injEq] at hl
      rw [← hl, ← GetClient_ne_none_iff] at hmem
      cases hc : wi.GetClient h with
      | none => exact absurd hc hmem
      | some c =>
        refine ⟨c, (mapperFind_some_iff s h i c).2 ⟨?_, wi, hw, hc⟩⟩
        intro j hj wj hwj
        by_contra hne
        exact hlt j hj wj.windows (by rw [winView_getElem?, hwj]; rfl)
          ((GetClient_ne_none_iff wj h).1 hne)

theorem map_modify_keep {α β : Type} (g : α → β) (f : α → α) (h : ∀ x, g (f x) = g x)
    (l : List α) (i : Nat) : (l.modify f i).map g = l.map g := by
  rw [map_modify g f id h, List.modify_id]

/-- `SetFullscreen` changes the handles of no workspace. -/
theorem winView_SetFullscreen (env : Env) (s : State) (h : Window) (b : Bool) :
    (SetFullscreen env s h b).winView = s.winView := by
  cases hm : mapperFind s h with
  | none =>
    have : SetFullscreen env s h b = s := by unfold SetFullscreen; rw [hm]
    rw [this]
  | some p =>
    obtain ⟨i, c⟩ := p
    by_cases hb : c.fullscreen = b
    · have : SetFullscreen env s h b = s := by
        unfold SetFullscreen; rw [hm]; simp only [hb, if_true]
      rw [this]
    · rw [winView_eq_map_fsView, fsView_SetFullscreen env s h b i c hm hb, map_modify_keep,
        ← winView_eq_map_fsView]
      intro v
      simp only [viewSet, List.map_map]
      apply List.map_congr_left
      intro k _
      simp only [Function.comp]
      split <;> rfl

theorem winView_length (s : State) : s.winView.length = s.workspaces.length := by
  simp [State.winView]

theorem HandlesUnique_owner (s : State) (hU : s.HandlesUnique) (h : Window) (i j : Nat)
    (a b : Workspace) (ha : s.workspaces[i]? = some a) (hb : s.workspaces[j]? = some b)
    (hma : h ∈ a.windows) (hmb : h ∈ b.windows) : i = j := by
  have hp := (List.nodup_flatten.1 hU).2
  rw [List.pairwise_iff_getElem] at hp
  have hi : i < s.winView.length := by
    rw [winView_length]; exact (List.getElem?_eq_some_iff.1 ha).1
  have hj : j < s.winView.length := by
    rw [winView_length]; exact (List.getElem?_eq_some_iff.1 hb).1
  have ea : s.winView[i] = a.windows := by
    have := winView_getElem? s i
    rw [ha, List.getElem?_eq_getElem hi] at this
    simpa using this
  have eb : s.winView[j] = b.windows := by
    have := winView_getElem? s j
    rw [hb, List.getElem?_eq_getElem hj] at this
    simpa using this
  rcases Nat.lt_trichotomy i j with hlt | heq | hgt
  · have := hp i j hi hj hlt
    rw [ea, eb] at this
    exact absurd hmb (this hma)
  · exact heq
  · have := hp j i hj hi hgt
    rw [ea, eb] at this
    exact absurd hma (this hmb)

theorem Unmanage_workspaces (env : Env) (s : State) (h : Window) (i : Nat) (c : Client)
    (hm : mapperFind s h = some (i, c)) :
    (Unmanage env s h).workspaces = s.workspaces.modify (unmanageOwner h c) i := by
  unfold Unmanage
  rw [hm]
  simp only
  rw [wm_workspaces (wm_ArrangeWindows _ _)]
  unfold UpdateClientList
  rw [wm_workspaces (wm_log _ _)]
  cases hfs : c.fullscreen with
  | true =>
    simp only [if_true, State.modifyWs, List.modify_modify_eq]
    congr 1
    funext ws
    simp only [unmanageOwner, hfs, if_true, Function.comp]
  | false =>
    simp only [Bool.false_eq_true, if_false, State.modifyWs]
    congr 1
    funext ws
    simp only [unmanageOwner, hfs, Bool.false_eq_true, if_false]

theorem unmanageOwner_eq (h : Window) (c : Client) (ws : Workspace)
    (hg : ws.GetClient h = some c) :
    unmanageOwner h c ws =
      { ws with clients := ws.clients.filter (fun d => d.window != h),
                focused := if ws.focused = some h then none else ws.focused,
                is_fullscreen := if c.fullscreen then false else ws.is_fullscreen } := by
  unfold unmanageOwner
  cases hfs : c.fullscreen with
  | true =>
    have hg2 : (Workspace.set_fullscreen false ws).GetClient h = some c := hg
    simp only [if_true, Workspace.Remove, hg2, hfs]
    rfl
  | false =>
    simp only [Bool.false_eq_true, if_false, Workspace.Remove, hg, hfs]

theorem windows_unmanageOwner (h : Window) (c : Client) (ws : Workspace)
    (hg : ws.GetClient h = some c) :
    (unmanageOwner h c ws).windows = ws.windows.filter (fun w => w != h) := by
  rw [unmanageOwner_eq h c ws hg]
  simp only [Workspace.windows, List.filter_map]
  rfl

/-- C12.  `Unmanage` of an untracked handle returns the state unchanged.  For a
tracked handle, in a state where handles are unique and every focus pointer is
valid: afterwards the handle is untracked and a member of no workspace, the
owner's fullscreen flag is cleared if the client was fullscreen, no focus
pointer designates the handle, and every focus pointer is empty or designates a
present member of its workspace. -/
theorem Unmanage_spec (env : Env) (s : State) (h : Window)
    (hU : s.HandlesUnique) (hF : s.FocusOk) :
    (mapperFind s h = none → Unmanage env s h = s) ∧
    (∀ (i : Nat) (c : Client), mapperFind s h = some (i, c) →
      mapperFind (Unmanage env s h) h = none ∧
      (∀ ws ∈ (Unmanage env s h).workspaces, h ∉ ws.windows) ∧
      (c.fullscreen = true → ((Unmanage env s h).ws i).is_fullscreen = false) ∧
      (∀ ws ∈ (Unmanage env s h).workspaces, ws.focused ≠ some h) ∧
      (Unmanage env s h).FocusOk) := by
  constructor
  · intro hm
    unfold Unmanage
    rw [hm]
  intro i c hm
  obtain ⟨hws, hg⟩ := mapperFind_ws s h i c hm
  have hW := Unmanage_workspaces env s h i c hm
  have hmem : h ∈ (s.ws i).windows := by
    rw [← GetClient_ne_none_iff, hg]; simp
  have hFi : (s.ws i).FocusOk := hF _ (List.mem_iff_getElem?.2 ⟨i, hws⟩)
  -- every workspace of the result is the rewritten owner or an untouched other one
  have hcase : ∀ ws ∈ (Unmanage env s h).workspaces,
      ws = unmanageOwner h c (s.ws i) ∨ (ws ∈ s.workspaces ∧ h ∉ ws.windows) := by
    intro ws hmw
    obtain ⟨j, hj⟩ := List.mem_iff_getElem?.1 hmw
    rw [hW] at hj
    by_cases hji : j = i
    · subst hji
      rw [List.getElem?_modify_eq, hws] at hj
      left
      simpa using hj.symm
    · rw [List.getElem?_modify_ne _ _ (Ne.symm hji)] at hj
      right
      refine ⟨List.mem_iff_getElem?.2 ⟨j, hj⟩, fun hin => hji ?_⟩
      exact HandlesUnique_owner s hU h j i ws (s.ws i) hj hws hin hmem
  have hnot : ∀ ws ∈ (Unmanage env s h).workspaces, h ∉ ws.windows := by
    intro ws hmw
    rcases hcase ws hmw with he | ⟨_, hn⟩
    · rw [he, windows_unmanageOwner h c _ hg]
      simp
    · exact hn
  have hfocus : (Unmanage env s h).FocusOk := by
    intro ws hmw w hw
    rcases hcase ws hmw with he | ⟨hin, _⟩
    · rw [he, windows_unmanageOwner h c _ hg]
      rw [he, unmanageOwner_eq h c _ hg] at hw
      simp only at hw
      by_cases hfh : (s.ws i).focused = some h
      · rw [if_pos hfh] at hw
        exact absurd hw (by simp)
      · rw [if_neg hfh] at hw
        have hne : w ≠ h := fun e => hfh (e ▸ hw)
        simp [List.mem_filter, hFi w hw, hne]
    · exact hF ws hin w hw
  refine ⟨?_, hnot, ?_, ?_, hfocus⟩
  · rw [mapperFind_none_iff]
    intro ws hmw
    by_contra hne
    exact hnot ws hmw ((GetClient_ne_none_iff ws h).1 hne)
  · intro hfs
    have : (Unmanage env s h).ws i = unmanageOwner h c (s.ws i) := by
      simp only [State.ws, hW]
      rw [List.getElem?_modify_eq, hws]
      rfl
    rw [this, unmanageOwner_eq h c _ hg]
    simp [hfs]
  · intro ws hmw hfo
    exact hnot ws hmw (hfocus ws hmw h hfo)

/-- Witness of C12: the fullscreen, focused window 1 of `stateOne`. -/
theorem Unmanage_spec_witness :
    (mapperFind (SetFullscreen envPlain stateOne 1 true) 1 = none →
      Unmanage envPlain (SetFullscreen envPlain stateOne 1 true) 1
        = SetFullscreen envPlain stateOne 1 true) ∧
    (∀ (i : Nat) (c : Client), mapperFind (SetFullscreen envPlain stateOne 1 true) 1 = some (i, c) →
      mapperFind (Unmanage envPlain (SetFullscreen envPlain stateOne 1 true) 1) 1 = none ∧
      (∀ ws ∈ (Unmanage envPlain (SetFullscreen envPlain stateOne 1 true) 1).workspaces,
        1 ∉ ws.windows) ∧
      (c.fullscreen = true →
        ((Unmanage envPlain (SetFullscreen envPlain stateOne 1 true) 1).ws i).is_fullscreen = false) ∧
      (∀ ws ∈ (Unmanage envPlain (SetFullscreen envPlain stateOne 1 true) 1).workspaces,
        ws.focused ≠ some 1) ∧
      (Unmanage envPlain (SetFullscreen envPlain stateOne 1 true) 1).FocusOk) :=
  Unmanage_spec envPlain (SetFullscreen envPlain stateOne 1 true) 1 (by decide) (by decide)

/-! ### Stages of MoveWindowToWorkspace -/

theorem findIn_congr (w : Window) (l l' : List Workspace) (k : Nat)
    (h : l.map (fun ws => ws.GetClient w) = l'.map (fun ws => ws.GetClient w)) :
    findIn l k w = findIn l' k w := by
  induction l generalizing l' k with
  | nil =>
    cases l' with
    | nil => rfl
    | cons a t => simp at h
  | cons a t ih =>
    cases l' with
    | nil => simp at h
    | cons a' t' =>
      simp only [List.map_cons, List.cons.injEq] at h
      unfold findIn
      rw [h.1, ih t' (k + 1) h.2]

/-- A member function that keeps the lookup of `w` in a workspace keeps the
owner of `w`, whatever the position it is applied to. -/
theorem mapperFind_modifyWs_keep (s : State) (w : Window) (j : Nat) (F : Workspace → Workspace)
    (hF : ∀ ws, (F ws).GetClient w = ws.GetClient w) :
    mapperFind (s.modifyWs j F) w = mapperFind s w := by
  unfold mapperFind
  apply findIn_congr
  exact map_modify_keep (fun ws => ws.GetClient w) F hF s.workspaces j

theorem Owns_modifyWsI_keep (s : State) (i : Nat) (j : Int) (h : Window) (P : Client → Prop)
    (F : Workspace → Workspace) (hF : ∀ ws, (F ws).GetClient h = ws.GetClient h)
    (ho : Owns s i h P) : Owns (s.modifyWsI j F) i h P := by
  obtain ⟨c, h1, h2⟩ := ho
  refine ⟨c, ?_, h2⟩
  unfold State.modifyWsI
  split
  · exact h1
  · rw [mapperFind_modifyWs_keep s h _ F hF]
    exact h1

theorem Owns_Unmap (s : State) (i : Nat) (h : Window) (P : Client → Prop)
    (hP : ∀ c, P c → P { c with has_unmap_req_from_wm := true })
    (ho : Owns s i h P) : Owns (Client.Unmap s i h) i h P := by
  unfold Client.Unmap
  apply Owns_wm (wm_XUnmapWindow _ _)
  refine Owns_update s i h h P P _ (fun _ => rfl) ?_ ho
  intro c hw hc
  rw [if_pos hw]
  exact hP c hc

/-- `SetFullscreen(h, false)` leaves the owner of `h` in place with a clear
fullscreen flag. -/
theorem Owns_SetFullscreen_false (env : Env) (s : State) (i : Nat) (h : Window) (c : Client)
    (hm : mapperFind s h = some (i, c)) :
    Owns (SetFullscreen env s h false) i h (fun d => d.fullscreen = false) := by
  by_cases hb : c.fullscreen = false
  · have : SetFullscreen env s h false = s := by
      unfold SetFullscreen; rw [hm]; simp only [hb, if_true]
    rw [this]
    exact ⟨c, hm, hb⟩
  · exact (SetFullscreen_changed env s h false i c hm hb).1

theorem winView_Unmap (s : State) (i : Nat) (v : Window) :
    (Client.Unmap s i v).winView = s.winView :=
  winView_of_fsView (fsView_Unmap s i v)

theorem winView_modifyWsI_keep (s : State) (i : Int) (F : Workspace → Workspace)
    (h : ∀ ws, (F ws).view = ws.view) : (s.modifyWsI i F).winView = s.winView :=
  winView_of_fsView (fsView_modifyWsI_keep s i F h)

theorem winView_moveStage (env : Env) (s : State) (i : Nat) (h : Window) (next : Int) :
    (moveStage env s i h next).winView = s.winView := by
  unfold moveStage
  simp only
  rw [winView_modifyWsI_keep _ _ _ view_UnsetFocusedClient, winView_Unmap]
  split
  · exact winView_SetFullscreen env s h false
  · rfl

theorem current_moveStage (env : Env) (s : State) (i : Nat) (h : Window) (next : Int) :
    (moveStage env s i h next).current = s.current := by
  unfold moveStage State.modifyWsI
  simp only
  have h2 : (if (s.wsI s.current).is_fullscreen = true then SetFullscreen env s h false
      else s).current = s.current := by
    split
    · exact rest_current (rest_SetFullscreen env s h false)
    · rfl
  split
  · exact h2
  · exact h2

theorem Owns_moveStage (env : Env) (s : State) (i : Nat) (h : Window) (next : Int) (c : Client)
    (hm : mapperFind s h = some (i, c)) :
    Owns (moveStage env s i h next) i h
      (fun d => (s.wsI s.current).is_fullscreen = true → d.fullscreen = false) := by
  unfold moveStage
  simp only
  refine Owns_modifyWsI_keep _ i next h _ Workspace.UnsetFocusedClient ?_ ?_
  · intro _; rfl
  apply Owns_Unmap _ _ _ _ (fun d hd => hd)
  by_cases hfs : (s.wsI s.current).is_fullscreen = true
  · rw [if_pos hfs]
    obtain ⟨d, hd, hdf⟩ := Owns_SetFullscreen_false env s i h c hm
    exact ⟨d, hd, fun _ => hdf⟩
  · rw [if_neg hfs]
    exact ⟨c, hm, fun hh => absurd hh hfs⟩

theorem focused_moveStage (env : Env) (s : State) (i : Nat) (h : Window) (next : Int)
    (h0 : 0 ≤ next) (hlt : next < s.workspaces.length) :
    ((moveStage env s i h next).ws next.toNat).focused = none := by
  have hlen : next.toNat < (Client.Unmap (if (s.wsI s.current).is_fullscreen = true
      then SetFullscreen env s h false else s) i h).workspaces.length := by
    have := congrArg List.length (winView_Unmap (if (s.wsI s.current).is_fullscreen = true
      then SetFullscreen env s h false else s) i h)
    rw [winView_length] at this
    rw [this]
    have h2 : (if (s.wsI s.current).is_fullscreen = true then SetFullscreen env s h false
        else s).winView = s.winView := by
      split
      · exact winView_SetFullscreen env s h false
      · rfl
    rw [h2, winView_length]
    omega
  unfold moveStage State.modifyWsI
  simp only
  rw [if_neg (not_lt.2 h0)]
  simp only [State.ws, State.modifyWs]
  rw [List.getElem?_modify_eq, List.getElem?_eq_getElem hlen]
  rfl

/-! ### MoveWindowToWorkspace -/

theorem HandlesUnique_of_winView {s t : State} (h : t.winView = s.winView)
    (hU : s.HandlesUnique) : t.HandlesUnique := by
  unfold State.HandlesUnique
  rw [h]
  exact hU

theorem windows_Remove (h : Window) (ws : Workspace) :
    (Workspace.Remove h ws).windows = ws.windows.filter (fun w => w != h) := by
  unfold Workspace.Remove
  cases hg : ws.GetClient h with
  | none =>
    simp only
    have : h ∉ ws.windows := by
      rw [← GetClient_ne_none_iff, hg]; simp
    symm
    rw [List.filter_eq_self]
    intro a ha
    have : a ≠ h := fun e => this (e ▸ ha)
    simpa using this
  | some c =>
    simp only [Workspace.windows, List.filter_map]
    rfl

theorem MoveWindowToWorkspace_eq (env : Env) (s : State) (h : Window) (next : Int) (i : Nat)
    (c : Client) (hm : mapperFind s h = some (i, c))
    (hg : ¬ (s.current = next ∨ next < 0 ∨ next ≥ (s.workspaces.length : Int))) :
    MoveWindowToWorkspace env s h next =
      ArrangeWindows env (Move env (moveStage env s i h next)
        (moveStage env s i h next).current.toNat h next.toNat) := by
  unfold MoveWindowToWorkspace
  rw [hm]
  simp only [if_neg hg, mapperFind_window s h i c hm]
  rfl

/-- C13.  `MoveWindowToWorkspace` returns the state unchanged when the handle
is untracked, the target is negative or not below the number of workspaces, or
the target is the active index.  Otherwise, for a handle that is a member of
the active workspace of a state with unique handles: the active workspace no
longer contains the handle, the target workspace contains it, the handle is
tracked with the target as owner, the focus the target had is gone (the
pointer is empty, or designates the moved client when `Workspace::Add` is read
as focusing the client it adds), the active index is unchanged, and the
client's fullscreen flag is clear if the active workspace was fullscreen. -/
theorem MoveWindowToWorkspace_spec (env : Env) (s : State) (h : Window) (next : Int)
    (hU : s.HandlesUnique) :
    ((mapperFind s h = none ∨ next < 0 ∨ next ≥ (s.workspaces.length : Int) ∨ next = s.current) →
      MoveWindowToWorkspace env s h next = s) ∧
    (∀ c : Client, (s.wsI s.current).GetClient h = some c →
      0 ≤ next → next < (s.workspaces.length : Int) → next ≠ s.current →
      h ∉ ((MoveWindowToWorkspace env s h next).wsI s.current).windows ∧
      h ∈ ((MoveWindowToWorkspace env s h next).wsI next).windows ∧
      (∃ d, mapperFind (MoveWindowToWorkspace env s h next) h = some (next.toNat, d) ∧
        ((s.wsI s.current).is_fullscreen = true → d.fullscreen = false)) ∧
      ((MoveWindowToWorkspace env s h next).wsI next).focused
        = (if env.AddSetsFocus = true then some h else none) ∧
      (MoveWindowToWorkspace env s h next).current = s.current) := by
  constructor
  · intro hcase
    unfold MoveWindowToWorkspace
    cases hm : mapperFind s h with
    | none => rfl
    | some p =>
      obtain ⟨i, c⟩ := p
      simp only
      rw [if_pos]
      rcases hcase with h1 | h1 | h1 | h1
      · rw [hm] at h1; simp at h1
      · exact Or.inr (Or.inl h1)
      · exact Or.inr (Or.inr h1)
      · exact Or.inl h1.symm
  intro c hc h0 hlt hne
  -- the active index is a position of the list and owns the handle
  have hcur : 0 ≤ s.current := by
    by_contra hneg
    simp only [State.wsI, if_pos (not_le.1 hneg)] at hc
    simp [Workspace.empty, Workspace.GetClient] at hc
  have hwsI : ∀ t : State, t.wsI s.current = t.ws s.current.toNat := by
    intro t; simp only [State.wsI, if_neg (not_lt.2 hcur)]
  have hwsN : ∀ t : State, t.wsI next = t.ws next.toNat := by
    intro t; simp only [State.wsI, if_neg (not_lt.2 h0)]
  rw [hwsI] at hc
  have hin : next.toNat ≠ s.current.toNat := by omega
  have hws : s.workspaces[s.current.toNat]? = some (s.ws s.current.toNat) := by
    cases hx : s.workspaces[s.current.toNat]? with
    | some a => simp [State.ws, hx]
    | none =>
      simp only [State.ws, hx, Option.getD_none] at hc
      simp [Workspace.empty, Workspace.GetClient] at hc
  have hmemS : h ∈ (s.ws s.current.toNat).windows := by
    rw [← GetClient_ne_none_iff, hc]; simp
  have hm : mapperFind s h = some (s.current.toNat, c) := by
    rw [mapperFind_some_iff]
    refine ⟨?_, _, hws, hc⟩
    intro j hj ws hj2
    by_contra hne2
    have := HandlesUnique_owner s hU h j _ ws _ hj2 hws ((GetClient_ne_none_iff ws h).1 hne2) hmemS
    omega
  have hg : ¬ (s.current = next ∨ next < 0 ∨ next ≥ (s.workspaces.length : Int)) := by
    rintro (h1 | h1 | h1)
    · exact hne h1.symm
    · omega
    · omega
  rw [MoveWindowToWorkspace_eq env s h next _ c hm hg]
  rw [wm_wsI (wm_ArrangeWindows _ _), wm_wsI (wm_ArrangeWindows _ _),
    mapperFind_wm (wm_ArrangeWindows _ _), wm_current (wm_ArrangeWindows _ _),
    current_moveStage, hwsI, hwsN]
  -- facts about the state before `Workspace::Move`
  generalize ht : moveStage env s s.current.toNat h next = t
  have hwin : t.winView = s.winView := by rw [← ht]; exact winView_moveStage env s _ h next
  have hUt : t.HandlesUnique := HandlesUnique_of_winView hwin hU
  have hcurT : t.current = s.current := by rw [← ht]; exact current_moveStage env s _ h next
  have hfocT : (t.ws next.toNat).focused = none := by
    rw [← ht]; exact focused_moveStage env s _ h next h0 hlt
  obtain ⟨c3, hm3, hfs3⟩ : Owns t s.current.toNat h
      (fun d => (s.wsI s.current).is_fullscreen = true → d.fullscreen = false) := by
    rw [← ht]; exact Owns_moveStage env s _ h next c hm
  obtain ⟨hwsT, hc3⟩ := mapperFind_ws t h _ c3 hm3
  have hlenT : t.workspaces.length = s.workspaces.length := by
    rw [← winView_length, hwin, winView_length]
  have hnT : t.workspaces[next.toNat]? = some (t.ws next.toNat) := by
    have : next.toNat < t.workspaces.length := by omega
    simp [State.ws, List.getElem?_eq_getElem this]
  have hmemT : h ∈ (t.ws s.current.toNat).windows := by
    rw [← GetClient_ne_none_iff, hc3]; simp
  have hnotN : h ∉ (t.ws next.toNat).windows := by
    intro hin2
    exact hin (HandlesUnique_owner t hUt h _ _ _ _ hnT hwsT hin2 hmemT)
  -- the workspaces after the move
  have hMove : (Move env t s.current.toNat h next.toNat).workspaces =
      (t.workspaces.modify (Workspace.Remove h) s.current.toNat).modify
        (fun ws => { ws with clients := ws.clients ++ [c3],
                             focused := if env.AddSetsFocus then some h else ws.focused })
        next.toNat := by
    unfold Move
    rw [hc3]
    rfl
  have hI : (Move env t s.current.toNat h next.toNat).workspaces[s.current.toNat]? =
      some (Workspace.Remove h (t.ws s.current.toNat)) := by
    rw [hMove, List.getElem?_modify_ne _ _ hin, List.getElem?_modify_eq, hwsT]
    rfl
  obtain ⟨wN, hN, hNc, hNf⟩ : ∃ wN : Workspace,
      (Move env t s.current.toNat h next.toNat).workspaces[next.toNat]? = some wN ∧
      wN.clients = (t.ws next.toNat).clients ++ [c3] ∧
      wN.focused = (if env.AddSetsFocus = true then some h else (t.ws next.toNat).focused) := by
    refine ⟨⟨(t.ws next.toNat).clients ++ [c3],
        if env.AddSetsFocus = true then some h else (t.ws next.toNat).focused,
        (t.ws next.toNat).tiling_direction, (t.ws next.toNat).is_fullscreen⟩, ?_, rfl, rfl⟩
    rw [hMove, List.getElem?_modify_eq, List.getElem?_modify_ne _ _ (Ne.symm hin), hnT]
    rfl
  have hw3 : c3.window = h := mapperFind_window t h _ c3 hm3
  have hgN : wN.GetClient h = some c3 := by
    have hnone : (t.ws next.toNat).GetClient h = none := by
      by_contra hx
      exact hnotN ((GetClient_ne_none_iff _ h).1 hx)
    simp only [Workspace.GetClient] at hnone ⊢
    rw [hNc, List.find?_append, hnone]
    simp [hw3]
  refine ⟨?_, ?_, ⟨c3, ?_, hfs3⟩, ?_, ?_⟩
  · simp only [State.ws, hI, Option.getD_some]
    rw [windows_Remove]
    simp
  · simp only [State.ws, hN, Option.getD_some]
    rw [← GetClient_ne_none_iff, hgN]
    simp
  · rw [mapperFind_some_iff]
    refine ⟨?_, _, hN, hgN⟩
    intro j hj ws hj2
    by_cases hji : j = s.current.toNat
    · subst hji
      rw [hI] at hj2
      simp only [Option.some.injEq] at hj2
      by_contra hx
      have := (GetClient_ne_none_iff ws h).1 hx
      rw [← hj2, windows_Remove] at this
      simp at this
    · rw [hMove, List.getElem?_modify_ne _ _ (Nat.ne_of_gt hj),
        List.getElem?_modify_ne _ _ (Ne.symm hji)] at hj2
      by_contra hx
      exact hji (HandlesUnique_owner t hUt h _ _ _ _ hj2 hwsT
        ((GetClient_ne_none_iff ws h).1 hx) hmemT)
  · simp only [State.ws, hN, Option.getD_some]
    rw [hNf, hfocT]
  · have hMc : ∀ a b : Nat, (Move env t a h b).current = t.current := by
      intro a b
      unfold Move
      split <;> rfl
    rw [hMc, hcurT]

/-- Witness of C13: the fullscreen window 1 of the active workspace 0 is moved
to workspace 2. -/
theorem MoveWindowToWorkspace_spec_witness :
    stateOneFullscreen.HandlesUnique ∧
    (stateOneFullscreen.wsI stateOneFullscreen.current).GetClient 1 = some clientOneFullscreen ∧
    (1 ∉ ((MoveWindowToWorkspace envPlain stateOneFullscreen 1 2).wsI
        stateOneFullscreen.current).windows ∧
      1 ∈ ((MoveWindowToWorkspace envPlain stateOneFullscreen 1 2).wsI 2).windows ∧
      (∃ d, mapperFind (MoveWindowToWorkspace envPlain stateOneFullscreen 1 2) 1
          = some ((2 : Int).toNat, d) ∧
        ((stateOneFullscreen.wsI stateOneFullscreen.current).is_fullscreen = true →
          d.fullscreen = false)) ∧
      ((MoveWindowToWorkspace envPlain stateOneFullscreen 1 2).wsI 2).focused = none ∧
      (MoveWindowToWorkspace envPlain stateOneFullscreen 1 2).current
        = stateOneFullscreen.current) :=
  ⟨by decide, by decide,
    (MoveWindowToWorkspace_spec envPlain stateOneFullscreen 1 2 (by decide)).2
      clientOneFullscreen (by decide) (by decide) (by decide) (by decide)⟩

/-! ### Floating and fullscreen flags -/

theorem floatView_wm {s t : State} (h : t.wm = s.wm) : t.floatView = s.floatView := by
  simp only [State.floatView, wm_workspaces h]

theorem floatView_modifyWs_keep (s : State) (i : Nat) (F : Workspace → Workspace)
    (h : ∀ ws, (F ws).floatKeys = ws.floatKeys) : (s.modifyWs i F).floatView = s.floatView :=
  map_modify_keep Workspace.floatKeys F h s.workspaces i

theorem floatKeys_update_keep (v : Window) (f : Client → Client)
    (hw : ∀ c, (f c).window = c.window) (hfl : ∀ c, (f c).floating = c.floating)
    (ws : Workspace) : (Workspace.update v f ws).floatKeys = ws.floatKeys := by
  simp only [Workspace.floatKeys, Workspace.update, List.map_map]
  apply List.map_congr_left
  intro c _
  simp only [Function.comp]
  split
  · rw [hw, hfl]
  · rfl

theorem floatKeys_SetFocusedClient (v : Window) (ws : Workspace) :
    (Workspace.SetFocusedClient v ws).floatKeys = ws.floatKeys := by
  unfold Workspace.SetFocusedClient
  split <;> rfl

theorem floatView_updateClient_keep (s : State) (i : Nat) (v : Window) (f : Client → Client)
    (hw : ∀ c, (f c).window = c.window) (hfl : ∀ c, (f c).floating = c.floating) :
    (updateClient s i v f).floatView = s.floatView :=
  floatView_modifyWs_keep s i _ (floatKeys_update_keep v f hw hfl)

theorem floatView_set_fullscreen (s : State) (i : Nat) (v : Window) (b : Bool) :
    (updateClient s i v (fun d => { d with fullscreen := b })).floatView = s.floatView :=
  floatView_updateClient_keep s i v _ (fun _ => rfl) (fun _ => rfl)

theorem floatView_ws_set_fullscreen (s : State) (i : Nat) (b : Bool) :
    (s.modifyWs i (Workspace.set_fullscreen b)).floatView = s.floatView :=
  floatView_modifyWs_keep s i _ (fun _ => rfl)

theorem floatView_set_attr_cache (s : State) (i : Nat) (v : Window) (a : Area) :
    (updateClient s i v (fun d => { d with attr_cache := a })).floatView = s.floatView :=
  floatView_updateClient_keep s i v _ (fun _ => rfl) (fun _ => rfl)

theorem floatView_Unmap (s : State) (i : Nat) (v : Window) :
    (Client.Unmap s i v).floatView = s.floatView := by
  unfold Client.Unmap
  rw [floatView_wm (wm_XUnmapWindow _ _)]
  exact floatView_updateClient_keep s i v _ (fun _ => rfl) (fun _ => rfl)

theorem floatView_UnmapAllClients (s : State) (i : Nat) :
    (UnmapAllClients s i).floatView = s.floatView :=
  foldl_inv State.floatView _ (fun t (a : Client) => floatView_Unmap t i a.window) _ s

/-- `SetFullscreen` changes the floating flag of no client. -/
theorem floatView_SetFullscreen (env : Env) (s : State) (h : Window) (b : Bool) :
    (SetFullscreen env s h b).floatView = s.floatView := by
  unfold SetFullscreen
  cases hm : mapperFind s h with
  | none => rfl
  | some p =>
    obtain ⟨i, c⟩ := p
    simp only
    split
    · rfl
    · cases b with
      | true =>
        simp only [if_true]
        rw [floatView_wm (wm_log _ _),
          floatView_modifyWs_keep _ _ _ (floatKeys_SetFocusedClient h),
          floatView_wm (wm_Map _ _), floatView_UnmapAllClients,
          floatView_wm (wm_MoveResize _ _ _ _), floatView_set_attr_cache,
          floatView_wm (wm_UnmapDocks _), floatView_wm (wm_log _ _),
          floatView_ws_set_fullscreen, floatView_set_fullscreen]
      | false =>
        simp only [Bool.false_eq_true, if_false]
        rw [floatView_wm (wm_log _ _), floatView_wm (wm_ArrangeWindows _ _),
          floatView_wm (wm_MoveResize _ _ _ _), floatView_wm (wm_MapDocks _),
          floatView_wm (wm_log _ _),
          floatView_ws_set_fullscreen, floatView_set_fullscreen]

theorem GetClient_floating (ws : Workspace) (v : Window) :
    (ws.GetClient v).map (fun c => c.floating) =
      (ws.floatKeys.find? (fun k => k.1 == v)).map Prod.snd := by
  simp only [Workspace.GetClient, Workspace.floatKeys, List.find?_map, Option.map_map]
  rfl

theorem winView_of_floatView {s t : State} (h : t.floatView = s.floatView) :
    t.winView = s.winView := by
  have e : ∀ u : State, u.winView = u.floatView.map (fun l => l.map Prod.fst) := by
    intro u
    simp only [State.winView, State.floatView, List.map_map]
    apply List.map_congr_left
    intro ws _
    simp only [Function.comp, Workspace.windows, Workspace.floatKeys, List.map_map]
    rfl
  rw [e, e, h]

/-- Equal floating views give every tracked handle the same owner and the same
floating flag. -/
theorem mapperFind_of_floatView {s t : State} (hv : t.floatView = s.floatView) (v : Window)
    (i : Nat) (c : Client) (hm : mapperFind s v = some (i, c)) :
    ∃ d, mapperFind t v = some (i, d) ∧ d.floating = c.floating := by
  obtain ⟨d, hd⟩ : ∃ d, mapperFind t v = some (i, d) := by
    rw [mapperFind_exists_iff, winView_of_floatView hv, ← mapperFind_exists_iff]
    exact ⟨c, hm⟩
  refine ⟨d, hd, ?_⟩
  obtain ⟨hws, hc⟩ := mapperFind_ws s v i c hm
  obtain ⟨hwt, hdt⟩ := mapperFind_ws t v i d hd
  have hk : (t.ws i).floatKeys = (s.ws i).floatKeys := by
    have := congrArg (fun l => l[i]?) hv
    simp only [State.floatView, List.getElem?_map, hws, hwt, Option.map_some',
      Option.some.injEq] at this
    exact this
  have h1 := GetClient_floating (t.ws i) v
  have h2 := GetClient_floating (s.ws i) v
  rw [hdt, hk, ← h2, hc] at h1
  simpa using h1

/-- C14, counterexample.  After `Manage(1)`, `SetFloating(1, true, false)` and
`SetFullscreen(1, true)` from the initial state, the client of window 1 has both
its floating flag and its fullscreen flag set. -/
theorem floating_and_fullscreen_reachable :
    ∃ c, mapperFind stateFloatFullscreen 1 = some (0, c) ∧
      c.floating = true ∧ c.fullscreen = true :=
  ⟨clientFloatFullscreen, by decide, rfl, rfl⟩

/-- C14, amended.  `SetFloating` on a client whose fullscreen flag is set
returns the state unchanged, and `SetFullscreen(h, b)` sets the fullscreen flag
of the client to `b` and leaves its floating flag as it was: exclusion holds in
one direction only, a floating client that is made fullscreen carries both
flags. -/
theorem SetFloating_SetFullscreen_flags (env : Env) (s : State) (h : Window) (i : Nat)
    (c : Client) (hm : mapperFind s h = some (i, c)) :
    (c.fullscreen = true → ∀ f u : Bool, SetFloating env s h f u = s) ∧
    (∀ b : Bool, ∃ d, mapperFind (SetFullscreen env s h b) h = some (i, d) ∧
      d.floating = c.floating ∧ d.fullscreen = b) := by
  constructor
  · intro hfs f u
    unfold SetFloating
    rw [hm]
    simp only [hfs, if_true]
  · intro b
    obtain ⟨d, hd, hfl⟩ := mapperFind_of_floatView (floatView_SetFullscreen env s h b) h i c hm
    refine ⟨d, hd, hfl, ?_⟩
    by_cases hb : c.fullscreen = b
    · have : SetFullscreen env s h b = s := by
        unfold SetFullscreen; rw [hm]; simp only [hb, if_true]
      rw [this, hm] at hd
      simp only [Option.some.injEq, Prod.mk.injEq, true_and] at hd
      rw [← hd]; exact hb
    · obtain ⟨⟨d', hd', hfs'⟩, _⟩ := SetFullscreen_changed env s h b i c hm hb
      rw [hd] at hd'
      simp only [Option.some.injEq, Prod.mk.injEq, true_and] at hd'
      rw [hd']; exact hfs'

/-- Witness of C14: the floating window 1 of workspace 0 before it is made
fullscreen. -/
theorem SetFloating_SetFullscreen_flags_witness :
    (clientFloatFullscreen.fullscreen = true → ∀ f u : Bool,
      SetFloating envPlain stateFloatFullscreen 1 f u = stateFloatFullscreen) ∧
    (∀ b : Bool, ∃ d, mapperFind (SetFullscreen envPlain stateFloatFullscreen 1 b) 1 = some (0, d) ∧
      d.floating = clientFloatFullscreen.floating ∧ d.fullscreen = b) :=
  SetFloating_SetFullscreen_flags envPlain stateFloatFullscreen 1 0 clientFloatFullscreen
    (by decide)

/-! ### Client messages -/

/-- `SetFullscreen(h, b)` leaves the owner of `h` in place with fullscreen flag `b`. -/
theorem Owns_SetFullscreen (env : Env) (s : State) (i : Nat) (h : Window) (c : Client)
    (b : Bool) (hm : mapperFind s h = some (i, c)) :
    Owns (SetFullscreen env s h b) i h (fun d => d.fullscreen = b) := by
  by_cases hb : c.fullscreen = b
  · have : SetFullscreen env s h b = s := by
      unfold SetFullscreen; rw [hm]; simp only [hb, if_true]
    rw [this]
    exact ⟨c, hm, hb⟩
  · exact (SetFullscreen_changed env s h b i c hm hb).1

/-- C15.  With pairwise distinct message-type atoms: a `_NET_WM_STATE` message
whose first or second property is the fullscreen atom leaves the state unchanged
when its window is untracked, and for a tracked window sets the client's
fullscreen flag to true for action 1, to the negation of the old flag for
action 2, and to false for every other action; a `_NET_CURRENT_DESKTOP` message
with index `i` is `GotoWorkspace(i)` when `0 <= i < WORKSPACE_COUNT` and changes
nothing otherwise. -/
theorem OnClientMessage_spec (env : Env) (prop : Properties)
    (ipc : State → XClientMessageEvent → State) (s : State) (e : XClientMessageEvent)
    (hd1 : prop.NET_WM_STATE ≠ prop.wmderland_client_event)
    (hd2 : prop.NET_WM_STATE ≠ prop.NET_CURRENT_DESKTOP)
    (hd3 : prop.NET_CURRENT_DESKTOP ≠ prop.wmderland_client_event) :
    (e.message_type = prop.NET_WM_STATE →
      (e.l1 = prop.NET_WM_STATE_FULLSCREEN ∨ e.l2 = prop.NET_WM_STATE_FULLSCREEN) →
      (mapperFind s e.window = none → OnClientMessage env prop ipc s e = s) ∧
      (∀ (i : Nat) (c : Client), mapperFind s e.window = some (i, c) →
        ∃ d, mapperFind (OnClientMessage env prop ipc s e) e.window = some (i, d) ∧
          d.fullscreen =
            if e.l0 = 1 then true else if e.l0 = 2 then !c.fullscreen else false)) ∧
    (e.message_type = prop.NET_CURRENT_DESKTOP →
      OnClientMessage env prop ipc s e =
        if 0 ≤ e.l0 ∧ e.l0 < env.WORKSPACE_COUNT then GotoWorkspace env s e.l0 else s) := by
  constructor
  · intro ht hfs
    have e1 : e.message_type ≠ prop.wmderland_client_event := by rw [ht]; exact hd1
    have e2 : e.message_type ≠ prop.NET_CURRENT_DESKTOP := by rw [ht]; exact hd2
    constructor
    · intro hm
      unfold OnClientMessage
      rw [if_neg e1, if_neg e2, if_pos ht, if_pos hfs, hm]
    · intro i c hm
      have hE : OnClientMessage env prop ipc s e =
          SetFullscreen env s e.window
            (decide (e.l0 = 1) || (decide (e.l0 = 2) && !c.fullscreen)) := by
        unfold OnClientMessage
        rw [if_neg e1, if_neg e2, if_pos ht, if_pos hfs, hm]
      rw [hE]
      obtain ⟨d, hd, hdf⟩ := Owns_SetFullscreen env s i e.window c
        (decide (e.l0 = 1) || (decide (e.l0 = 2) && !c.fullscreen)) hm
      refine ⟨d, hd, ?_⟩
      rw [hdf]
      by_cases h1 : e.l0 = 1
      · simp [h1]
      · by_cases h2 : e.l0 = 2
        · simp [h2]
        · simp [h1, h2]
  · intro ht
    have e1 : e.message_type ≠ prop.wmderland_client_event := by rw [ht]; exact hd3
    unfold OnClientMessage
    rw [if_neg e1, if_pos ht]

/-- Witness of C15: a toggle message for the fullscreen window 1, tracked in
workspace 0 with client `clientOneFullscreen`. -/
theorem OnClientMessage_spec_witness :
    ∃ d, mapperFind (OnClientMessage envPlain propSample (fun t _ => t) stateOneFullscreen
        messageToggleFullscreen) messageToggleFullscreen.window = some (0, d) ∧
      d.fullscreen =
        if messageToggleFullscreen.l0 = 1 then true
        else if messageToggleFullscreen.l0 = 2 then !clientOneFullscreen.fullscreen else false :=
  ((OnClientMessage_spec envPlain propSample (fun t _ => t) stateOneFullscreen
    messageToggleFullscreen (by decide) (by decide) (by decide)).1 (by decide)
      (by decide)).2 0 clientOneFullscreen (by decide)

/-! ### Hidden windows and the focus of a fullscreen workspace -/

/-- C16.  After a map request, an unmap that the window manager did not ask for
and a second map request, window 1 is in the hidden set and tracked at the same
time: `OnMapRequest` manages the window without erasing it from the hidden set.
With a configure request in place of the second map request the window is
tracked and no longer hidden. -/
theorem hidden_and_managed_after_map_request :
    (∃ t, run envPlain stateInit traceMapUnmapMap = some t ∧
      t.hidden_windows.contains 1 = true ∧
      (mapperFind t 1).isSome = true) ∧
    (∃ t, run envPlain stateInit traceMapUnmapConfigure = some t ∧
      t.hidden_windows.contains 1 = false ∧
      (mapperFind t 1).isSome = true) :=
  ⟨⟨(run envPlain stateInit traceMapUnmapMap).get (by decide),
      (Option.some_get _).symm, by decide, by decide⟩,
    ⟨(run envPlain stateInit traceMapUnmapConfigure).get (by decide),
      (Option.some_get _).symm, by decide, by decide⟩⟩

/-- C17.  Under either reading of `Workspace::Add` (focus left alone, or set to
the added client) the calls of `traceFullscreenNoFocus` all have a result and
lead from the initial state to a state whose active workspace 0 has its
fullscreen flag set and an empty focus: after the move of window 2 into the
fullscreen workspace 0 its focus is empty under the first reading and window 2
under the second, and `Unmanage(2)` leaves it empty under both.  Window 3 is
untracked in the final state and has no spawn rule, and `Manage(3)` has no
result: it reads a null `prev_focused_client` and evaluates
`prev_focused_client->window()`. -/
theorem Manage_reads_null_focus_in_fullscreen_workspace :
    (∃ u t, runWmOps envPlain stateInit traceMoveIntoFullscreen = some u ∧
      (u.wsI 0).focused = none ∧
      runWmOps envPlain stateInit traceFullscreenNoFocus = some t ∧
      t.current = 0 ∧
      (t.wsI 0).is_fullscreen = true ∧
      (t.wsI 0).focused = none ∧
      mapperFind t 3 = none ∧
      Manage envPlain t 3 = none) ∧
    (∃ u t, runWmOps envAddFocus stateInit traceMoveIntoFullscreen = some u ∧
      (u.wsI 0).focused = some 2 ∧
      runWmOps envAddFocus stateInit traceFullscreenNoFocus = some t ∧
      t.current = 0 ∧
      (t.wsI 0).is_fullscreen = true ∧
      (t.wsI 0).focused = none ∧
      mapperFind t 3 = none ∧
      Manage envAddFocus t 3 = none) :=
  ⟨⟨(runWmOps envPlain stateInit traceMoveIntoFullscreen).get (by decide),
      (runWmOps envPlain stateInit traceFullscreenNoFocus).get (by decide),
      (Option.some_get _).symm, by decide,
      (Option.some_get _).symm, by decide, by decide, by decide, by decide, by decide⟩,
    ⟨(runWmOps envAddFocus stateInit traceMoveIntoFullscreen).get (by decide),
      (runWmOps envAddFocus stateInit traceFullscreenNoFocus).get (by decide),
      (Option.some_get _).symm, by decide,
      (Option.some_get _).symm, by decide, by decide, by decide, by decide, by decide⟩⟩

/-! ### The active workspace index -/

theorem workspaces_length_UnmapAllClients (s : State) (i : Nat) :
    (UnmapAllClients s i).workspaces.length = s.workspaces.length := by
  rw [← winView_length, winView_of_fsView (fsView_UnmapAllClients s i), winView_length]

/-- `GotoWorkspace` keeps the number of workspaces, and either returns the
state unchanged or makes a position of the list the active index. -/
theorem GotoWorkspace_current (env : Env) (s : State) (x : Int) :
    (GotoWorkspace env s x).workspaces.length = s.workspaces.length ∧
    (GotoWorkspace env s x = s ∨
      (0 ≤ x ∧ x < (s.workspaces.length : Int) ∧ (GotoWorkspace env s x).current = x)) := by
  unfold GotoWorkspace
  split
  · exact ⟨rfl, Or.inl rfl⟩
  · rename_i hg
    simp only
    constructor
    · rw [wm_workspaces (wm_log _ _), wm_workspaces (wm_ArrangeWindows _ _)]
      show (MapAllClients _ _).workspaces.length = _
      rw [wm_workspaces (wm_MapAllClients _ _), workspaces_length_UnmapAllClients]
    · right
      refine ⟨by omega, by omega, ?_⟩
      rw [wm_current (wm_log _ _), wm_current (wm_ArrangeWindows _ _)]

theorem CurrentOk_GotoWorkspace (env : Env) (s : State) (x : Int) (h : s.CurrentOk) :
    (GotoWorkspace env s x).CurrentOk := by
  obtain ⟨hl, hc⟩ := GotoWorkspace_current env s x
  rcases hc with he | ⟨h0, h1, h2⟩
  · rw [he]; exact h
  · unfold State.CurrentOk
    rw [hl, h2]
    exact ⟨h0, h1⟩

theorem SwitchOp_apply_eq (env : Env) (prop : Properties)
    (ipc : State → XClientMessageEvent → State)
    (hd : prop.NET_CURRENT_DESKTOP ≠ prop.wmderland_client_event) (s : State) (op : SwitchOp) :
    ∃ x, SwitchOp.apply env prop ipc s op = GotoWorkspace env s x ∨
      SwitchOp.apply env prop ipc s op = s := by
  cases op with
  | Goto n => exact ⟨n, Or.inl rfl⟩
  | Message i =>
    refine ⟨i, ?_⟩
    simp only [SwitchOp.apply, OnClientMessage, if_neg hd, if_true]
    split
    · exact Or.inl rfl
    · exact Or.inr rfl
  | ActionGoto n => exact ⟨_, Or.inl rfl⟩
  | ActionRelative d => exact ⟨_, Or.inl rfl⟩

theorem wrapInt32_of_lt (x : Int) (h0 : -2147483648 ≤ x) (h1 : x < 4294967296) :
    wrapInt32 x = x ∨ wrapInt32 x < 0 := by
  unfold wrapInt32
  omega

theorem runSwitchOps_inv (env : Env) (prop : Properties)
    (ipc : State → XClientMessageEvent → State)
    (hd : prop.NET_CURRENT_DESKTOP ≠ prop.wmderland_client_event)
    (n : Nat) (res : Int × Int) (hn : 1 ≤ n) (ops : List SwitchOp) :
    (runSwitchOps env prop ipc n res ops).CurrentOk ∧
    (runSwitchOps env prop ipc n res ops).workspaces.length = n := by
  unfold runSwitchOps
  refine foldl_preserves (fun t : State => t.CurrentOk ∧ t.workspaces.length = n) _ ?_ ops _ ?_
  · intro t op ht
    obtain ⟨x, hx | hx⟩ := SwitchOp_apply_eq env prop ipc hd t op
    · rw [hx]
      exact ⟨CurrentOk_GotoWorkspace env t x ht.1, by rw [(GotoWorkspace_current env t x).1, ht.2]⟩
    · rw [hx]; exact ht
  · refine ⟨⟨le_refl _, ?_⟩, by simp [State.init]⟩
    show (0 : Int) < ((List.replicate n Workspace.empty).length : Int)
    rw [List.length_replicate]
    omega

/-- C18.  In a session with `n >= 1` workspaces, after any sequence of
`GotoWorkspace` calls, desktop-switch messages and `GOTO_WORKSPACE` /
`WORKSPACE` actions with arbitrary integer arguments, the active index is at
least 0 and below `n`, the list still has `n` workspaces, and the active index
designates one of them.  From such a state a `WORKSPACE` action whose 32-bit
argument `d` takes `current + d` below 0 or to `n` or beyond returns the state
unchanged. -/
theorem current_in_bounds (env : Env) (prop : Properties)
    (ipc : State → XClientMessageEvent → State)
    (hd : prop.NET_CURRENT_DESKTOP ≠ prop.wmderland_client_event)
    (n : Nat) (res : Int × Int) (hn : 1 ≤ n) (hn32 : n ≤ 2147483647) (ops : List SwitchOp) :
    0 ≤ (runSwitchOps env prop ipc n res ops).current ∧
    (runSwitchOps env prop ipc n res ops).current < n ∧
    (runSwitchOps env prop ipc n res ops).workspaces.length = n ∧
    ((runSwitchOps env prop ipc n res ops).workspaces[
      (runSwitchOps env prop ipc n res ops).current.toNat]?).isSome = true ∧
    (∀ d : Int, -2147483648 ≤ d → d ≤ 2147483647 →
      ((runSwitchOps env prop ipc n res ops).current + d < 0 ∨
        (runSwitchOps env prop ipc n res ops).current + d ≥ n) →
      HandleAction env (runSwitchOps env prop ipc n res ops) (Action.WORKSPACE d)
        = runSwitchOps env prop ipc n res ops) := by
  obtain ⟨⟨h0, h1⟩, hl⟩ := runSwitchOps_inv env prop ipc hd n res hn ops
  generalize runSwitchOps env prop ipc n res ops = s at h0 h1 hl ⊢
  rw [hl] at h1
  refine ⟨h0, h1, hl, ?_, ?_⟩
  · have : s.current.toNat < s.workspaces.length := by omega
    rw [List.getElem?_eq_getElem this]
    rfl
  · intro d hd0 hd1 hout
    show GotoWorkspace env s (wrapInt32 (s.current + d)) = s
    unfold GotoWorkspace
    rw [if_pos]
    rw [hl]
    rcases wrapInt32_of_lt (s.current + d) (by omega) (by omega) with he | hneg
    · rw [he]
      rcases hout with h | h
      · exact Or.inr (Or.inl h)
      · exact Or.inr (Or.inr h)
    · exact Or.inr (Or.inl hneg)

/-- Witness of C18: three workspaces; an absolute jump to workspace 3, a jump
two workspaces further, a message for desktop 7 and a jump back by 1. -/
theorem current_in_bounds_witness :
    0 ≤ (runSwitchOps envPlain propSample (fun t _ => t) 3 (1000, 800)
      [SwitchOp.ActionGoto 3, SwitchOp.ActionRelative 2, SwitchOp.Message 7,
        SwitchOp.ActionRelative (-1)]).current ∧
    (runSwitchOps envPlain propSample (fun t _ => t) 3 (1000, 800)
      [SwitchOp.ActionGoto 3, SwitchOp.ActionRelative 2, SwitchOp.Message 7,
        SwitchOp.ActionRelative (-1)]).current < (3 : Nat) :=
  ⟨(current_in_bounds envPlain propSample (fun t _ => t) (by decide) 3 (1000, 800) (by decide)
      (by decide) [SwitchOp.ActionGoto 3, SwitchOp.ActionRelative 2, SwitchOp.Message 7,
        SwitchOp.ActionRelative (-1)]).1,
    (current_in_bounds envPlain propSample (fun t _ => t) (by decide) 3 (1000, 800) (by decide)
      (by decide) [SwitchOp.ActionGoto 3, SwitchOp.ActionRelative 2, SwitchOp.Message 7,
        SwitchOp.ActionRelative (-1)]).2.1⟩

/-! ### Order of the docks -/

/-- A top dock moves `y` and `h` by the same amount, so the sums that the
bottom and right tests of a later round read are unchanged and the two rounds
commute. -/
theorem reserveDock_comm_top (a t d : Area) (ht : t.y = 0) :
    reserveDock (reserveDock a t) d = reserveDock (reserveDock a d) t := by
  have e1 : a.y + t.h + (a.h - t.h) = a.y + a.h := by ring
  unfold reserveDock
  simp only [ht, if_true]
  by_cases h1 : d.y = 0
  · simp only [h1, if_true]
    congr 1 <;> ring
  · simp only [h1, if_false, e1]
    by_cases h2 : d.y + d.h = a.y + a.h
    · simp only [h2, if_true]
      congr 1
      ring
    · simp only [h2, if_false]
      by_cases h3 : d.x = 0
      · simp only [h3, if_true]
      · simp only [h3, if_false]
        by_cases h4 : d.x + d.w = a.x + a.w
        · simp only [h4, if_true]
        · simp only [h4, if_false]

theorem reserveDock_comm (l : List Area) (hl : (l.filter (fun d => decide (d.y ≠ 0))).length ≤ 1)
    (x : Area) (hx : x ∈ l) (y : Area) (hy : y ∈ l) (a : Area) :
    reserveDock (reserveDock a x) y = reserveDock (reserveDock a y) x := by
  by_cases h1 : x.y = 0
  · exact reserveDock_comm_top a x y h1
  · by_cases h2 : y.y = 0
    · exact (reserveDock_comm_top a y x h2).symm
    · have mx : x ∈ l.filter (fun d => decide (d.y ≠ 0)) := by
        simp [List.mem_filter, hx, h1]
      have my : y ∈ l.filter (fun d => decide (d.y ≠ 0)) := by
        simp [List.mem_filter, hy, h2]
      have : x = y := by
        cases hf : l.filter (fun d => decide (d.y ≠ 0)) with
        | nil => rw [hf] at mx; simp at mx
        | cons b t =>
          cases t with
          | nil =>
            rw [hf] at mx my
            simp only [List.mem_singleton] at mx my
            rw [mx, my]
          | cons b2 t2 =>
            rw [hf] at hl
            simp at hl
      rw [this]

/-- C19, counterexample.  On a 1000 x 800 display, a dock along the bottom edge
and a second dock stacked on it give the area (0, 0, 1000, 740) when the bottom
dock is visited first and (1000, 0, 0, 770) when it is visited last. -/
theorem tilingArea_depends_on_order :
    List.Perm [dockBottom, dockAboveBottom] [dockAboveBottom, dockBottom] ∧
    tilingArea (1000, 800) [dockBottom, dockAboveBottom] = ⟨0, 0, 1000, 740⟩ ∧
    tilingArea (1000, 800) [dockAboveBottom, dockBottom] = ⟨1000, 0, 0, 770⟩ :=
  ⟨List.Perm.swap _ _ _, by decide, by decide⟩

/-- C19, amended.  When at most one dock of the list is off the top edge
(`y` different from 0), the reservation loop gives the same tiling area for
every permutation of the list. -/
theorem tilingArea_perm (res : Int × Int) (l l' : List Area)
    (hl : (l.filter (fun d => decide (d.y ≠ 0))).length ≤ 1) (hp : List.Perm l l') :
    tilingArea res l = tilingArea res l' := by
  unfold tilingArea
  exact List.Perm.foldl_eq' hp (fun x hx y hy a => reserveDock_comm l hl x hx y hy a) _

/-- Witness of C19: a top dock and a bottom dock in both orders. -/
theorem tilingArea_perm_witness :
    tilingArea (1000, 800) [dockTop, dockBottom] = tilingArea (1000, 800) [dockBottom, dockTop] :=
  tilingArea_perm (1000, 800) [dockTop, dockBottom] [dockBottom, dockTop] (by decide)
    (List.Perm.swap _ _ _)

/-! ### What the tiling pass reads -/

theorem GetXWindowAttributes_foldl_MoveResize (env : Env) (h : Window)
    (l : List (Client × Area)) (s : State) :
    GetXWindowAttributes (l.foldl (fun t p => Client.MoveResize env t p.1 p.2) s) h =
      (l.map (fun p => (p.1.core, p.2))).foldl
        (fun g q => if q.1.1 = h then clampTo env q.1.2.2.2.2 q.2 else g)
        (GetXWindowAttributes s h) := by
  induction l generalizing s with
  | nil => rfl
  | cons p l ih =>
    rw [List.foldl_cons, ih, List.map_cons, List.foldl_cons, GetXWindowAttributes_MoveResize]
    rfl

theorem tileable_map_core (ws : Workspace) :
    ws.tileable.map Client.core =
      ws.coreView.1.filter (fun k => !k.2.2.1 && !k.2.2.2.1 && k.2.1) := by
  simp only [Workspace.tileable, Workspace.coreView, List.filter_map]
  rfl

/-- The geometry of a window after the tiling pass is a function of the core
view of the workspace, the area and the geometry of the window before. -/
theorem GetXWindowAttributes_Tile_eq (env : Env) (s : State) (i : Nat) (a : Area) (h : Window) :
    GetXWindowAttributes (Tile env s i a) h =
      tileAt env h (s.ws i).coreView a (GetXWindowAttributes s h) := by
  unfold Tile tileAt
  simp only
  rw [GetXWindowAttributes_foldl_MoveResize, ← tileable_map_core, List.length_map]
  congr 1
  rw [List.zip_map_left]
  rfl

theorem coreViews_wm {s t : State} (h : t.wm = s.wm) : t.coreViews = s.coreViews := by
  simp only [State.coreViews, wm_workspaces h]

theorem coreViews_modifyWs (s : State) (i : Nat) (F : Workspace → Workspace)
    (F' : List (Window × Bool × Bool × Bool × XSizeHints) × TilingDirection →
      List (Window × Bool × Bool × Bool × XSizeHints) × TilingDirection)
    (h : ∀ ws, (F ws).coreView = F' ws.coreView) :
    (s.modifyWs i F).coreViews = s.coreViews.modify F' i :=
  map_modify Workspace.coreView F F' h s.workspaces i

theorem coreViews_modifyWs_keep (s : State) (i : Nat) (F : Workspace → Workspace)
    (h : ∀ ws, (F ws).coreView = ws.coreView) : (s.modifyWs i F).coreViews = s.coreViews :=
  map_modify_keep Workspace.coreView F h s.workspaces i

theorem coreView_update_keep (v : Window) (f : Client → Client)
    (hf : ∀ c, (f c).core = c.core) (ws : Workspace) :
    (Workspace.update v f ws).coreView = ws.coreView := by
  simp only [Workspace.coreView, Workspace.update, List.map_map, Prod.mk.injEq, and_true]
  apply List.map_congr_left
  intro c _
  simp only [Function.comp]
  split
  · exact hf c
  · rfl

theorem coreView_SetFocusedClient (v : Window) (ws : Workspace) :
    (Workspace.SetFocusedClient v ws).coreView = ws.coreView := by
  unfold Workspace.SetFocusedClient
  split <;> rfl

theorem coreViews_updateClient_keep (s : State) (i : Nat) (v : Window) (f : Client → Client)
    (hf : ∀ c, (f c).core = c.core) : (updateClient s i v f).coreViews = s.coreViews :=
  coreViews_modifyWs_keep s i _ (coreView_update_keep v f hf)

theorem coreViews_set_attr_cache (s : State) (i : Nat) (v : Window) (a : Area) :
    (updateClient s i v (fun d => { d with attr_cache := a })).coreViews = s.coreViews :=
  coreViews_updateClient_keep s i v _ (fun _ => rfl)

theorem coreViews_ws_set_fullscreen (s : State) (i : Nat) (b : Bool) :
    (s.modifyWs i (Workspace.set_fullscreen b)).coreViews = s.coreViews :=
  coreViews_modifyWs_keep s i _ (fun _ => rfl)

theorem coreViews_Unmap (s : State) (i : Nat) (v : Window) :
    (Client.Unmap s i v).coreViews = s.coreViews := by
  unfold Client.Unmap
  rw [coreViews_wm (wm_XUnmapWindow _ _)]
  exact coreViews_updateClient_keep s i v _ (fun _ => rfl)

theorem coreViews_UnmapAllClients (s : State) (i : Nat) :
    (UnmapAllClients s i).coreViews = s.coreViews :=
  foldl_inv State.coreViews _ (fun t (a : Client) => coreViews_Unmap t i a.window) _ s

theorem coreView_enter (h : Window) (b : Bool) (ws : Workspace) :
    (Workspace.update h (fun d => { d with fullscreen := b }) ws).coreView =
      coreSet h b ws.coreView := by
  simp only [Workspace.coreView, Workspace.update, coreSet, List.map_map, Prod.mk.injEq, and_true]
  apply List.map_congr_left
  intro c _
  simp only [Function.comp, Client.core]
  split <;> rfl

theorem coreViews_enter (s : State) (i : Nat) (h : Window) (b : Bool) :
    (updateClient s i h (fun d => { d with fullscreen := b })).coreViews =
      s.coreViews.modify (coreSet h b) i :=
  coreViews_modifyWs s i _ _ (coreView_enter h b)

theorem coreViews_getElem? (s : State) (i : Nat) (h : s.workspaces[i]? = some (s.ws i)) :
    s.coreViews[i]? = some (s.ws i).coreView := by
  simp [State.coreViews, h]

/-- Core view of the owner after `SetFullscreen(h, true)` on a client that was
not fullscreen. -/
theorem coreViews_SetFullscreen_true (env : Env) (s : State) (h : Window) (i : Nat)
    (c : Client) (hm : mapperFind s h = some (i, c)) (hfs : c.fullscreen = false) :
    (SetFullscreen env s h true).coreViews = s.coreViews.modify (coreSet h true) i := by
  unfold SetFullscreen
  rw [hm]
  simp only [hfs, Bool.false_eq_true, if_false, if_true]
  rw [coreViews_wm (wm_log _ _), coreViews_modifyWs_keep _ _ _ (coreView_SetFocusedClient h),
    coreViews_wm (wm_Map _ _), coreViews_UnmapAllClients, coreViews_wm (wm_MoveResize _ _ _ _),
    coreViews_set_attr_cache, coreViews_wm (wm_UnmapDocks _), coreViews_wm (wm_log _ _),
    coreViews_ws_set_fullscreen, coreViews_enter]

/-- Switching the fullscreen flag of `h` on and off again gives back a core
view in which no client with handle `h` was fullscreen. -/
theorem coreSet_false_true (h : Window)
    (v : List (Window × Bool × Bool × Bool × XSizeHints) × TilingDirection)
    (hv : ∀ k, k ∈ v.1 → k.1 = h → k.2.2.2.1 = false) :
    coreSet h false (coreSet h true v) = v := by
  simp only [coreSet, List.map_map]
  have : v.1.map ((fun k : Window × Bool × Bool × Bool × XSizeHints =>
      if k.1 = h then (k.1, k.2.1, k.2.2.1, false, k.2.2.2.2) else k) ∘
      (fun k => if k.1 = h then (k.1, k.2.1, k.2.2.1, true, k.2.2.2.2) else k)) = v.1 := by
    conv_rhs => rw [← List.map_id v.1]
    apply List.map_congr_left
    intro k hk
    simp only [Function.comp, id]
    by_cases e : k.1 = h
    · simp only [e, if_true]
      have := hv k hk e
      obtain ⟨a, b, c, d, f⟩ := k
      simp only at this e
      simp [this, e]
    · simp only [e, if_false]
  rw [this]

theorem GetTilingArea_congr {s t : State} (hd : t.docks = s.docks)
    (hr : GetDisplayResolution t = GetDisplayResolution s)
    (ha : ∀ d, d ∈ s.docks → GetXWindowAttributes t d = GetXWindowAttributes s d) :
    GetTilingArea t = GetTilingArea s := by
  unfold GetTilingArea
  rw [hr, hd]
  congr 1
  exact List.map_congr_left ha

/-! ### Re-layout of a workspace -/

theorem coreView_of_coreViews (s : State) (i : Nat)
    (v : List (Window × Bool × Bool × Bool × XSizeHints) × TilingDirection)
    (h : s.coreViews[i]? = some v) : (s.ws i).coreView = v := by
  simp only [State.coreViews, List.getElem?_map, Option.map_eq_some'] at h
  obtain ⟨ws, hws, rfl⟩ := h
  simp [State.ws, hws]

/-- A re-layout of a workspace that is not fullscreen maps the docks; the
geometry of a window afterwards is its geometry before (no focused client, no
tiling pass) or the one the tiling pass of the active workspace gives it. -/
theorem ArrangeWindows_retile (env : Env) (u : State) (h : Window)
    (hnf : (u.wsI u.current).is_fullscreen = false) :
    (GetXWindowAttributes (ArrangeWindows env u) h = GetXWindowAttributes u h ∨
      GetXWindowAttributes (ArrangeWindows env u) h =
        tileAt env h (u.ws u.current.toNat).coreView (GetTilingArea u)
          (GetXWindowAttributes u h)) ∧
      ∀ d, d ∈ u.docks → d ∈ (ArrangeWindows env u).viewable := by
  unfold ArrangeWindows
  cases hf : (u.wsI u.current).GetFocusedClient with
  | none =>
    simp only
    refine ⟨Or.inl ?_, ?_⟩
    · rw [GetXWindowAttributes_congr (attrs_log _ _), GetXWindowAttributes_congr (attrs_MapDocks _)]
    · intro d hd
      rw [viewable_log]
      exact viewable_MapDocks u d (Or.inl hd)
  | some fc =>
    simp only
    have hnf1 : ¬ ((u.log (Call.SetNetActiveWindow fc.window)).wsI
        (u.log (Call.SetNetActiveWindow fc.window)).current).is_fullscreen = true := by
      have : (u.log (Call.SetNetActiveWindow fc.window)).wsI
          (u.log (Call.SetNetActiveWindow fc.window)).current = u.wsI u.current := rfl
      rw [this, hnf]
      simp
    rw [if_neg hnf1]
    have hwm : (MapAllClients (MapDocks (u.log (Call.SetNetActiveWindow fc.window)))
        (MapDocks (u.log (Call.SetNetActiveWindow fc.window))).current.toNat).wm = u.wm := by
      simp
    have hat : (MapAllClients (MapDocks (u.log (Call.SetNetActiveWindow fc.window)))
        (MapDocks (u.log (Call.SetNetActiveWindow fc.window))).current.toNat).attrs = u.attrs := by
      simp
    refine ⟨Or.inr ?_, ?_⟩
    · rw [GetXWindowAttributes_congr (attrs_RaiseNotifications _),
        GetXWindowAttributes_congr (attrs_RaiseAllFloatingClients _ _),
        GetXWindowAttributes_congr (attrs_modifyWsI _ _ _), GetXWindowAttributes_Tile_eq,
        ws_wm hwm, wm_current hwm, GetXWindowAttributes_congr hat,
        GetTilingArea_congr (wm_docks hwm) (GetDisplayResolution_wm hwm)
          (fun d _ => GetXWindowAttributes_congr hat d)]
    · intro d hd
      rw [viewable_RaiseNotifications, viewable_RaiseAllFloatingClients, viewable_modifyWsI,
        viewable_Tile]
      apply viewable_MapAllClients
      apply viewable_MapDocks
      left
      have hwm2 : (u.log (Call.SetNetActiveWindow fc.window)).wm = u.wm := rfl
      rw [wm_docks hwm2]
      exact hd

/-- State after `SetFullscreen(h, true)` on a client that was not fullscreen. -/
theorem fullscreen_enter_slot (env : Env) (s : State) (h : Window) (i : Nat) (c : Client)
    (hm : mapperFind s h = some (i, c)) (hfs : c.fullscreen = false) (hd : h ∉ s.docks)
    (hW : minWidth env c ≤ (GetDisplayResolution s).1)
    (hH : minHeight env c ≤ (GetDisplayResolution s).2) :
    (∀ d, d ∈ s.docks → d ∉ (SetFullscreen env s h true).viewable) ∧
    GetXWindowAttributes (SetFullscreen env s h true) h =
      ⟨0, 0, (GetDisplayResolution s).1, (GetDisplayResolution s).2⟩ ∧
    Owns (SetFullscreen env s h true) i h (fun d => d.fullscreen = true ∧
      d.attr_cache = GetXWindowAttributes s h ∧ d.size_hints = c.size_hints) ∧
    (∀ d, d ≠ h →
      GetXWindowAttributes (SetFullscreen env s h true) d = GetXWindowAttributes s d) := by
  have hw := mapperFind_window s h i c hm
  unfold SetFullscreen
  rw [hm]
  simp only [hfs, Bool.false_eq_true, if_false, if_true]
  refine ⟨?_, ?_, ?_, ?_⟩
  · intro d hdm
    rw [viewable_log, viewable_modifyWs]
    simp only [Client.Map, XMapWindow, mem_setInsert]
    rintro (hh | hh)
    · revert hh
      apply viewable_UnmapAllClients
      rw [viewable_MoveResize, viewable_updateClient]
      apply viewable_UnmapDocks
      exact Or.inl hdm
    · rw [hh] at hdm
      exact hd hdm
  · rw [GetXWindowAttributes_congr (attrs_log _ _), GetXWindowAttributes_congr (attrs_modifyWs _ _ _),
      GetXWindowAttributes_congr (attrs_Map _ _),
      GetXWindowAttributes_congr (attrs_UnmapAllClients _ _), GetXWindowAttributes_MoveResize,
      if_pos hw]
    simp only [GetDisplayResolution_updateClient, GetDisplayResolution_UnmapDocks,
      GetDisplayResolution_log, GetDisplayResolution_modifyWs, not_lt.2 hW, not_lt.2 hH, if_false]
  · apply Owns_wm (wm_log _ _)
    apply Owns_modifyWs_keep _ _ _ _ _ (GetClient_SetFocusedClient · h h)
    apply Owns_wm (wm_Map _ _)
    apply Owns_UnmapAllClients _ _ _ _ (fun d hd => hd)
    apply Owns_wm (wm_MoveResize _ _ _ _)
    refine Owns_update _ i h h
      (fun d => d.fullscreen = true ∧ d.size_hints = c.size_hints) _ _ (fun _ => rfl) ?_ ?_
    · intro d hdw hP
      rw [if_pos hdw]
      refine ⟨hP.1, ?_, hP.2⟩
      simp only [GetXWindowAttributes, attrs_UnmapDocks, attrs_log, attrs_modifyWs,
        attrs_updateClient]
    apply Owns_wm (wm_UnmapDocks _)
    apply Owns_wm (wm_log _ _)
    apply Owns_modifyWs_keep _ _ _ _ _ (fun ws => GetClient_set_fullscreen ws true h)
    refine Owns_update s i h h (fun d => d = c) _ _ (fun _ => rfl) ?_ ⟨c, hm, rfl⟩
    intro d hdw hP
    rw [if_pos hdw, hP]
    exact ⟨rfl, rfl⟩
  · intro d hdh
    rw [GetXWindowAttributes_congr (attrs_log _ _), GetXWindowAttributes_congr (attrs_modifyWs _ _ _),
      GetXWindowAttributes_congr (attrs_Map _ _),
      GetXWindowAttributes_congr (attrs_UnmapAllClients _ _), GetXWindowAttributes_MoveResize,
      if_neg (by rw [hw]; exact Ne.symm hdh)]
    simp only [GetXWindowAttributes, attrs_UnmapDocks, attrs_log, attrs_modifyWs,
      attrs_updateClient]

/-! ### Fullscreen round trip of a client in its slot -/

/-- State after `SetFullscreen(h, false)` on a fullscreen client of the active
workspace whose snapshot is the geometry the tiling pass gives it. -/
theorem fullscreen_leave_slot (env : Env) (s : State) (h : Window) (i : Nat) (c : Client)
    (hm : mapperFind s h = some (i, c)) (hfs : c.fullscreen = true) (hi : (i : Int) = s.current)
    (hd : h ∉ s.docks)
    (hgw : minWidth env c ≤ c.attr_cache.w) (hgh : minHeight env c ≤ c.attr_cache.h)
    (hslot : tileAt env h (coreSet h false (s.ws i).coreView) (GetTilingArea s) c.attr_cache
      = c.attr_cache) :
    (∀ d, d ∈ s.docks → d ∈ (SetFullscreen env s h false).viewable) ∧
    GetXWindowAttributes (SetFullscreen env s h false) h = c.attr_cache := by
  have hw := mapperFind_window s h i c hm
  obtain ⟨hws, _⟩ := mapperFind_ws s h i c hm
  unfold SetFullscreen
  rw [hm]
  simp only [hfs, Bool.true_eq_false, Bool.false_eq_true, if_false]
  obtain ⟨_, _, _, hflag⟩ := Tracks_enter s i h c false hm
  generalize hS : (updateClient s i h (fun d => { d with fullscreen := false })).modifyWs i
      (Workspace.set_fullscreen false) = S at hflag
  have hSrest : S.rest = s.rest := by rw [← hS]; rfl
  have hSattrs : S.attrs = s.attrs := by rw [← hS]; rfl
  have hScore : (S.ws i).coreView = coreSet h false (s.ws i).coreView := by
    apply coreView_of_coreViews
    rw [← hS, coreViews_ws_set_fullscreen, coreViews_enter, List.getElem?_modify_eq,
      coreViews_getElem? s i hws]
    rfl
  generalize hU : Client.MoveResize env
      (MapDocks (S.log (Call.SetBorderWidth h env.border_width))) c c.attr_cache = U
  have hUwm : U.wm = S.wm := by rw [← hU]; simp
  have hUcur : U.current = s.current := by
    rw [wm_current hUwm, rest_current hSrest]
  have hUh : GetXWindowAttributes U h = c.attr_cache := by
    rw [← hU, GetXWindowAttributes_MoveResize, if_pos hw]
    simp only [not_lt.2 hgw, not_lt.2 hgh, if_false]
  have hUd : ∀ d, d ∈ s.docks → GetXWindowAttributes U d = GetXWindowAttributes s d := by
    intro d hdm
    have hne : ¬ c.window = d := by
      rw [hw]; intro e; exact hd (e ▸ hdm)
    rw [← hU, GetXWindowAttributes_MoveResize, if_neg hne]
    simp only [GetXWindowAttributes, attrs_MapDocks, attrs_log, hSattrs]
  have hUdocks : U.docks = s.docks := by
    rw [wm_docks hUwm, rest_docks hSrest]
  have hUres : GetDisplayResolution U = GetDisplayResolution s := by
    rw [GetDisplayResolution_wm hUwm, rest_resolution hSrest]
  have hcurI : U.current.toNat = i := by
    rw [hUcur, ← hi]; rfl
  have hUnf : (U.wsI U.current).is_fullscreen = false := by
    rw [wm_wsI hUwm, hUcur, ← hi]
    simpa [State.wsI] using hflag
  obtain ⟨hattr, hview⟩ := ArrangeWindows_retile env U h hUnf
  refine ⟨?_, ?_⟩
  · intro d hdm
    rw [viewable_log]
    rw [← hUdocks] at hdm
    exact hview d hdm
  · rw [GetXWindowAttributes_congr (attrs_log _ _)]
    rcases hattr with e | e
    · rw [e, hUh]
    · rw [e, hUh, hcurI, ws_wm hUwm, hScore, GetTilingArea_congr hUdocks hUres hUd]
      exact hslot

/-- C10, amended: for a tracked, non-fullscreen client of the active workspace
whose geometry `g` the tiling pass of the workspace leaves as it is (the client
is floating, or it is tiled and `g` is its tiling slot), where the window is not
a dock, is the only client record of its handle in the workspace, and neither
`g` nor the display is below its minimum size: after `SetFullscreen(h, true)`
no dock is mapped, the geometry of the window is the whole display and the
workspace flag is set; after the following `SetFullscreen(h, false)` every dock
is mapped, the client and its workspace are not fullscreen, and the geometry of
the window is `g` again. -/
theorem fullscreen_round_trip_in_slot (env : Env) (s : State) (h : Window) (i : Nat)
    (c : Client) (hm : mapperFind s h = some (i, c)) (hi : (i : Int) = s.current)
    (hfs : c.fullscreen = false)
    (hslot : GetXWindowAttributes (Tile env s i (GetTilingArea s)) h = GetXWindowAttributes s h)
    (hu : ((s.ws i).clients.map (fun d => d.window)).Nodup) (hd : h ∉ s.docks)
    (hW : minWidth env c ≤ (GetDisplayResolution s).1)
    (hH : minHeight env c ≤ (GetDisplayResolution s).2)
    (hgw : minWidth env c ≤ (GetXWindowAttributes s h).w)
    (hgh : minHeight env c ≤ (GetXWindowAttributes s h).h) :
    (∀ d, d ∈ s.docks → d ∉ (SetFullscreen env s h true).viewable) ∧
    GetXWindowAttributes (SetFullscreen env s h true) h =
      ⟨0, 0, (GetDisplayResolution s).1, (GetDisplayResolution s).2⟩ ∧
    ((SetFullscreen env s h true).ws i).is_fullscreen = true ∧
    (∀ d, d ∈ s.docks →
      d ∈ (SetFullscreen env (SetFullscreen env s h true) h false).viewable) ∧
    (∃ d, mapperFind (SetFullscreen env (SetFullscreen env s h true) h false) h = some (i, d) ∧
      d.fullscreen = false) ∧
    ((SetFullscreen env (SetFullscreen env s h true) h false).ws i).is_fullscreen = false ∧
    GetXWindowAttributes (SetFullscreen env (SetFullscreen env s h true) h false) h =
      GetXWindowAttributes s h := by
  obtain ⟨hws, hc⟩ := mapperFind_ws s h i c hm
  obtain ⟨hv1, hg1, ⟨c1, hm1, hfs1, hcache, hhints⟩, hframe⟩ :=
    fullscreen_enter_slot env s h i c hm hfs hd hW hH
  have hne : c.fullscreen ≠ true := by rw [hfs]; simp
  have hflag1 := (SetFullscreen_changed env s h true i c hm hne).2.1
  have hrest := rest_SetFullscreen env s h true
  have hi1 : (i : Int) = (SetFullscreen env s h true).current := by
    rw [rest_current hrest]; exact hi
  have hmw : minWidth env c1 = minWidth env c := by simp only [minWidth, hhints]
  have hmh : minHeight env c1 = minHeight env c := by simp only [minHeight, hhints]
  -- no client record of the handle was fullscreen
  have hrec : ∀ k, k ∈ (s.ws i).coreView.1 → k.1 = h → k.2.2.2.1 = false := by
    intro k hk hkh
    simp only [Workspace.coreView, List.mem_map] at hk
    obtain ⟨d, hdm, rfl⟩ := hk
    have hcm : c ∈ (s.ws i).clients := List.mem_of_find?_eq_some hc
    have hcw := GetClient_window _ h c hc
    have hdw : d.window = h := hkh
    have : d = c := List.inj_on_of_nodup_map hu hdm hcm (hdw.trans hcw.symm)
    rw [this]
    exact hfs
  have hcore1 : ((SetFullscreen env s h true).ws i).coreView = coreSet h true (s.ws i).coreView := by
    apply coreView_of_coreViews
    rw [coreViews_SetFullscreen_true env s h i c hm hfs, List.getElem?_modify_eq,
      coreViews_getElem? s i hws]
    rfl
  have hta : GetTilingArea (SetFullscreen env s h true) = GetTilingArea s := by
    apply GetTilingArea_congr (rest_docks hrest) (rest_resolution hrest)
    intro d hdm
    exact hframe d (fun e => hd (e ▸ hdm))
  have hd1 : h ∉ (SetFullscreen env s h true).docks := by
    rw [rest_docks hrest]; exact hd
  obtain ⟨hv2, hg2⟩ := fullscreen_leave_slot env (SetFullscreen env s h true) h i c1 hm1 hfs1
    hi1 hd1 (by rw [hmw, hcache]; exact hgw) (by rw [hmh, hcache]; exact hgh)
    (by
      rw [hcore1, coreSet_false_true h _ hrec, hta, hcache, ← GetXWindowAttributes_Tile_eq]
      exact hslot)
  have hne1 : c1.fullscreen ≠ false := by rw [hfs1]; simp
  obtain ⟨hown2, hflag2, _⟩ :=
    SetFullscreen_changed env (SetFullscreen env s h true) h false i c1 hm1 hne1
  refine ⟨hv1, hg1, hflag1, ?_, hown2, hflag2, ?_⟩
  · intro d hdm
    rw [← rest_docks hrest] at hdm
    exact hv2 d hdm
  · rw [hg2, hcache]

/-- C10, witness: the round trip on `stateTwoTiled`, where the dock 9 is
present and the tiled client 1 is at its slot (0, 30, 500, 770), the left half
of the tiling area. -/
theorem fullscreen_round_trip_in_slot_witness :
    mapperFind stateTwoTiled 1 = some (0, clientOne) ∧
    stateTwoTiled.docks = [9] ∧
    clientOne.floating = false ∧
    GetXWindowAttributes stateTwoTiled 1 = ⟨0, 30, 500, 770⟩ ∧
    GetXWindowAttributes (SetFullscreen envAddFocus stateTwoTiled 1 true) 1
      = ⟨0, 0, 1000, 800⟩ ∧
    GetXWindowAttributes
      (SetFullscreen envAddFocus (SetFullscreen envAddFocus stateTwoTiled 1 true) 1 false) 1
      = ⟨0, 30, 500, 770⟩ :=
  ⟨by decide, by decide, by decide, by decide,
    (fullscreen_round_trip_in_slot envAddFocus stateTwoTiled 1 0 clientOne (by decide)
      (by decide) (by decide) (by decide) (by decide) (by decide) (by decide) (by decide)
      (by decide) (by decide)).2.1,
    (fullscreen_round_trip_in_slot envAddFocus stateTwoTiled 1 0 clientOne (by decide)
      (by decide) (by decide) (by decide) (by decide) (by decide) (by decide) (by decide)
      (by decide) (by decide)).2.2.2.2.2.2⟩

end Wmderland
